import Mathlib

/-!
# Session lifecycle of edusec-lab: LabManager and VMManager

A shallow embedding of `backend/services/labManager.js` and
`backend/services/vmManager.js`.

* An `async` method is a state transformer that ends in a value or in a thrown
  error (`Eff`); the state holds the manager object and, as a ghost field, the
  list of command lines handed to `execPromise` so far.
* The container runtime is a parameter `Driver`: it maps the commands issued so
  far and the next command line to the outcome of that command, so a driver can
  give any outcome to any command at any time.
* `Math.floor(Math.random() * 1000)` is a parameter `j : Fin 1000` of the method
  that draws it, `new Date()` a parameter `now : Nat`.
* JavaScript numbers that hold ports are `Nat` (they stay far below `2^53`).
* A JavaScript `Map` is an association list in insertion order.
-/

namespace EdusecLab

/-! ## JavaScript values and effects -/

/-- The `code` of an error of `child_process.exec`: the exit status of the
command, or the name of a system error. -/
inductive JsCode where
  | num (n : Nat)
  | text (s : String)
deriving DecidableEq, Repr

/-- An `Error` object: `message`, and the `stderr` and `code` that
`child_process.exec` attaches to a failed command. -/
structure JsError where
  message : String
  stderr : Option String := none
  code : Option JsCode := none
deriving DecidableEq, Repr

/-- Outcome of one `execPromise(cmd)`: resolved with the captured streams, or
rejected with an error. -/
inductive ExecResult where
  | ok (stdout stderr : String)
  | fail (e : JsError)
deriving DecidableEq, Repr

/-- Did the command succeed. -/
def ExecResult.isOk : ExecResult → Bool
  | ExecResult.ok _ _ => true
  | ExecResult.fail _ => false

/-- The container runtime: the outcome of a command line given the command
lines issued before it. -/
abbrev Driver := List String → String → ExecResult

/-- An `async` computation over a state `σ`: it ends in a value or in a thrown
error, and in both cases in a state. -/
def Eff (σ α : Type) : Type := σ → Except JsError α × σ

namespace Eff

/-- Value `return`. -/
def ret {σ α : Type} (a : α) : Eff σ α := fun s => (Except.ok a, s)

/-- Sequencing: a thrown error skips the continuation and keeps the state. -/
def andThen {σ α β : Type} (m : Eff σ α) (f : α → Eff σ β) : Eff σ β := fun s =>
  match m s with
  | (Except.ok a, s1) => f a s1
  | (Except.error e, s1) => (Except.error e, s1)

/-- The `throw` statement. -/
def raise {σ α : Type} (e : JsError) : Eff σ α := fun s => (Except.error e, s)

/-- The `try { m } catch (e) { h e }` statement. -/
def attempt {σ α : Type} (m : Eff σ α) (h : JsError → Eff σ α) : Eff σ α := fun s =>
  match m s with
  | (Except.ok a, s1) => (Except.ok a, s1)
  | (Except.error e, s1) => h e s1

/-- Read the state. -/
def read {σ : Type} : Eff σ σ := fun s => (Except.ok s, s)

/-- Replace the state. -/
def write {σ : Type} (s : σ) : Eff σ PUnit := fun _ => (Except.ok PUnit.unit, s)

end Eff

instance (σ : Type) : Monad (Eff σ) where
  pure := Eff.ret
  bind := Eff.andThen

instance (σ : Type) : MonadExceptOf JsError (Eff σ) where
  throw := Eff.raise
  tryCatch := Eff.attempt

instance (σ : Type) : MonadStateOf σ (Eff σ) where
  get := Eff.read
  set := Eff.write
  modifyGet f := fun s => (Except.ok (f s).1, (f s).2)

instance {ε α : Type} [DecidableEq ε] [DecidableEq α] : DecidableEq (Except ε α) :=
  fun a b =>
    match a, b with
    | Except.ok x, Except.ok y =>
      if h : x = y then isTrue (by rw [h]) else isFalse (fun h1 => h (Except.ok.inj h1))
    | Except.error x, Except.error y =>
      if h : x = y then isTrue (by rw [h]) else isFalse (fun h1 => h (Except.error.inj h1))
    | Except.ok _, Except.error _ => isFalse (fun h => Except.noConfusion h)
    | Except.error _, Except.ok _ => isFalse (fun h => Except.noConfusion h)

/-- The `new Error(message)` expression. -/
def newError (message : String) : JsError := { message := message }

/-! ## Strings -/

/-- The `s.includes(sub)` method. -/
def includes (s sub : String) : Bool :=
  s.data.tails.any (fun t => sub.data.isPrefixOf t)

/-- What `err.message || err` gives inside a string concatenation: the message,
or for an empty message the text `Error` that `Error.prototype.toString` yields. -/
def messageOrSelf (e : JsError) : String :=
  if e.message != "" then e.message else "Error"

/-- Truthiness of a string: every string but the empty one. -/
def truthy (s : String) : Bool := s != ""

/-- The `x || ''` expression on a possibly missing string. -/
def orEmpty : Option String → String
  | none => ""
  | some s => s

/-- The lower case of one character, as far as it yields ASCII: the letters
`A-Z`, the capital I with dot above (an `i` and a combining dot) and the Kelvin
sign (a `k`). Every other character is kept; its lower case is not ASCII. -/
def lowerChar (c : Char) : List Char :=
  if c.toNat = 0x130 then ['i', Char.ofNat 0x307]
  else if c.toNat = 0x212A then ['k']
  else [c.toLower]

/-- The `s.toLowerCase()` method, exact on every character whose lower case
contains an ASCII character. Every use is in front of `includes` with an ASCII
needle, where the other characters only separate. -/
def toLowerCase (s : String) : String := String.mk (s.data.flatMap lowerChar)

/-- White space and line terminators, the characters `trim` removes. -/
def isJsSpace (c : Char) : Bool :=
  let n := c.toNat
  n == 0x09 || n == 0x0A || n == 0x0B || n == 0x0C || n == 0x0D || n == 0x20 ||
  n == 0xA0 || n == 0x1680 || (0x2000 ≤ n && n ≤ 0x200A) || n == 0x2028 ||
  n == 0x2029 || n == 0x202F || n == 0x205F || n == 0x3000 || n == 0xFEFF

/-- The `s.trim()` method. -/
def trim (s : String) : String :=
  String.mk (((s.data.dropWhile isJsSpace).reverse.dropWhile isJsSpace).reverse)

/-- The `length` of a string: its number of UTF-16 code units, two for a
character outside the basic plane. -/
def jsLength (s : String) : Nat :=
  (s.data.map (fun c => if c.toNat < 0x10000 then 1 else 2)).sum

/-- The `s.split(\x27\\n\x27)[0]` expression: the text before the first line feed. -/
def firstLine (s : String) : String := String.mk (s.data.takeWhile (fun c => c != '\n'))

/-- The value of a character as a digit, up to base 36. -/
def digitValue (c : Char) : Option Nat :=
  if c.isDigit then some (c.toNat - 48)
  else if c.isLower then some (c.toNat - 87)
  else if c.isUpper then some (c.toNat - 55)
  else none

/-- The values of the longest run of digits of base `radix` a text starts with. -/
def leadingDigits (radix : Nat) : List Char → List Nat
  | [] => []
  | c :: cs =>
    match digitValue c with
    | some v => if v < radix then v :: leadingDigits radix cs else []
    | none => []

/-- A value of type Number as `parseInt` and the port finders give it: an
integer, held exactly, or an infinity. The value `NaN` is kept apart, as a
missing number; the zeros `+0` and `-0`, both falsy and `===` to each other, are
the one value `int 0`. -/
inductive JsNumber where
  | int (n : Int)
  | infinity (negative : Bool)
deriving DecidableEq, Repr

/-- The count of binary digits of `n`, by at most `fuel` halvings. -/
def bitLengthFrom : Nat → Nat → Nat
  | 0, _ => 0
  | fuel + 1, n => if n = 0 then 0 else bitLengthFrom fuel (n / 2) + 1

/-- The count of binary digits of `n`. -/
def bitLength (n : Nat) : Nat := bitLengthFrom n n

/-- The Number value for the integer `n` with the given sign: `n` is rounded to
53 binary digits, a tie to the even neighbour, and a result of `2^1024` or more,
which has more than 1024 binary digits, is an infinity. Up to `2^53` the value
is `n` itself. -/
def numberValue (negative : Bool) (n : Nat) : JsNumber :=
  let e := bitLength n - 53
  let q := n / 2 ^ e
  let r := n % 2 ^ e
  let up : Bool := decide (2 ^ e < 2 * r) || (decide (2 * r = 2 ^ e) && decide (q % 2 = 1))
  let v := (if up then q + 1 else q) * 2 ^ e
  if bitLength v ≤ 1024 then JsNumber.int (if negative then - (v : Int) else (v : Int))
  else JsNumber.infinity negative

/-- The function `parseInt(s)` without a radix: leading white space is dropped, a
sign is read, `0x` or `0X` selects base 16, and the longest run of digits is
read as an integer, of which the result is the Number value; `none` is `NaN`.
All digits count, as in the engine of Node. -/
def parseInt (s : String) : Option JsNumber :=
  let cs := s.data.dropWhile isJsSpace
  let signed : Bool × List Char :=
    match cs with
    | '-' :: t => (true, t)
    | '+' :: t => (false, t)
    | _ => (false, cs)
  let based : Nat × List Char :=
    match signed.2 with
    | '0' :: 'x' :: t => (16, t)
    | '0' :: 'X' :: t => (16, t)
    | _ => (10, signed.2)
  let ds := leadingDigits based.1 based.2
  if ds.isEmpty then none
  else
    let n : Nat := ds.foldl (fun acc v => acc * based.1 + v) 0
    some (numberValue signed.1 n)

/-- One hexadecimal digit, lower case. -/
def hexDigit (n : Nat) : Char :=
  if n < 10 then Char.ofNat (48 + n) else Char.ofNat (87 + n)

/-- The escape `JSON.stringify` writes for one character of a string. -/
def jsonEscape (c : Char) : List Char :=
  if c = '"' then ['\\', '"']
  else if c = '\\' then ['\\', '\\']
  else if c.toNat = 0x08 then ['\\', 'b']
  else if c.toNat = 0x0C then ['\\', 'f']
  else if c.toNat = 0x0A then ['\\', 'n']
  else if c.toNat = 0x0D then ['\\', 'r']
  else if c.toNat = 0x09 then ['\\', 't']
  else if c.toNat < 0x20 then
    ['\\', 'u', '0', '0', hexDigit (c.toNat / 16), hexDigit (c.toNat % 16)]
  else [c]

/-- The `JSON.stringify(s)` function on a string. -/
def jsonStringify (s : String) : String :=
  String.mk (['"'] ++ s.data.flatMap jsonEscape ++ ['"'])

/-- Does `/[a-zA-Z0-9_.-]/` match the character. -/
def nameChar (c : Char) : Bool :=
  c.isAlphanum || c == '_' || c == '.' || c == '-'

/-- What `replace(/[^a-zA-Z0-9_.-]/g, '_')` writes for one character: the regular
expression has no `u` flag, so it works on UTF-16 code units and a character
outside the basic plane, two code units, becomes two underscores. -/
def sanitizeChar (c : Char) : List Char :=
  if nameChar c then [c] else if c.toNat < 0x10000 then ['_'] else ['_', '_']

/-- The `s.replace(/[^a-zA-Z0-9_.-]/g, '_')` call. -/
def sanitize (s : String) : String := String.mk (s.data.flatMap sanitizeChar)

/-! ## The Map class -/

/-- A `Map` with string keys, as the list of its entries in insertion order. -/
abbrev JsMap (β : Type) := List (String × β)

namespace JsMap

/-- The `map.get(key)` method. -/
def get {β : Type} : JsMap β → String → Option β
  | [], _ => none
  | (k1, v1) :: m, k => if k1 = k then some v1 else get m k

/-- The `map.has(key)` method. -/
def has {β : Type} (m : JsMap β) (k : String) : Bool := (get m k).isSome

/-- The `map.set(key, value)` method: an existing key keeps its place. -/
def set {β : Type} : JsMap β → String → β → JsMap β
  | [], k, v => [(k, v)]
  | (k1, v1) :: m, k, v => if k1 = k then (k, v) :: m else (k1, v1) :: set m k v

/-- The `map.delete(key)` method. -/
def delete {β : Type} (m : JsMap β) (k : String) : JsMap β :=
  m.filter (fun e => e.1 != k)

/-- The `[...map.values()]` expression. -/
def values {β : Type} (m : JsMap β) : List β := m.map Prod.snd

end JsMap

/-! ## Port probing -/

/-- The loop `while (values.some(v => v.port === port)) port++` of both port
finders, over the list `held` of the ports the tracked sessions hold, run for at
most `fuel` increments; it ends with the value of `port`. -/
def probeFrom (held : List Nat) : Nat → Nat → Nat
  | 0, port => port
  | fuel + 1, port =>
    if held.any (fun p => p == port) then probeFrom held fuel (port + 1) else port

/-- The loop of the port finders started at `port`. A held port is at most
`held.sum`, so the loop condition fails before `held.sum + 1 - port` increments
are used up: `probe_loop` shows that this is the loop. -/
def probe (held : List Nat) (port : Nat) : Nat :=
  probeFrom held (held.sum + 1 - port) port

/-! ## labManager.js -/

/-- The record `details` that `startLabContainer` builds and stores. -/
structure LabDetails where
  id : String
  status : String
  containerName : String
  hostPort : Nat
  internalPort : Nat
  image : String
  accessUrl : String
  startedAt : Nat
deriving DecidableEq, Repr

/-- A catalog document as `startLabContainer` reads it: `_id` rendered by the
template string, and `dockerImage`, `none` when the field is absent. -/
structure Lab where
  _id : String
  dockerImage : Option String
deriving DecidableEq, Repr

/-- The `LabManager` object: the map `activeLabs` and `dockerCmd`, with the
command lines handed to `execPromise` so far as a ghost field. The field
`baseHttpPort` is the constant `LabManager.baseHttpPort`. -/
structure LabManager where
  activeLabs : JsMap LabDetails
  dockerCmd : String
  issued : List String
deriving DecidableEq, Repr

/-- What `getStatus` returns: the literal with only a `status`, or the tracked
record spread with `status` overwritten. -/
inductive LabStatus where
  | bare (status : String)
  | full (d : LabDetails)
deriving DecidableEq, Repr

/-- The `status` property of what `getStatus` returns. -/
def LabStatus.statusOf : LabStatus → String
  | LabStatus.bare status => status
  | LabStatus.full d => d.status

/-- What `stopLabContainer` and `stopKaliVM` return. -/
structure StopResult where
  success : Bool
deriving DecidableEq, Repr

/-- What `LabManager.executeCommand` returns. -/
structure ExecOutput where
  success : Bool
  output : String
deriving DecidableEq, Repr

namespace LabManager

/-- The field `baseHttpPort`, set once in the constructor. -/
def baseHttpPort : Nat := 8082

/-- The module-level `execPromise`: hands the command line to the runtime,
resolves with the captured streams or throws the error. -/
def execPromise (d : Driver) (cmd : String) : Eff LabManager (String × String) :=
  fun m =>
    match d m.issued cmd with
    | ExecResult.ok out err => (Except.ok (out, err), { m with issued := m.issued ++ [cmd] })
    | ExecResult.fail e => (Except.error e, { m with issued := m.issued ++ [cmd] })

/-- Method `_findFreeHttpPort`, with the jitter `j` drawn by `Math.random`. -/
def _findFreeHttpPort (j : Fin 1000) : Eff LabManager Nat := do
  let m ← get
  pure (probe ((JsMap.values m.activeLabs).map LabDetails.hostPort) (baseHttpPort + j.val))

/-- Method `_inferInternalPort`. -/
def _inferInternalPort (dockerImage : Option String) : Nat :=
  let image := toLowerCase (orEmpty dockerImage)
  if includes image "juice-shop" then 3000
  else if includes image "dvwa" then 80
  else if includes image "metasploitable" then 80
  else 80

/-- Method `_containerName`. -/
def _containerName (labId userId : String) : String :=
  sanitize ("edusec_lab_" ++ labId ++ "_" ++ userId)

/-- The error `startLabContainer` throws for a lab without an image. -/
def notContainerized : JsError :=
  newError "This lab is not containerized or dockerImage is missing"

/-- Method `startLabContainer`. -/
def startLabContainer (d : Driver) (lab : Option Lab) (userId : String)
    (j : Fin 1000) (now : Nat) : Eff LabManager LabDetails :=
  match lab with
  | none => throw notContainerized
  | some lab =>
    match lab.dockerImage with
    | none => throw notContainerized
    | some dockerImage =>
      if !truthy dockerImage then throw notContainerized
      else do
        let key := userId ++ ":" ++ lab._id
        let m ← get
        match JsMap.get m.activeLabs key with
        | some tracked => pure tracked
        | none =>
          let internalPort := _inferInternalPort (some dockerImage)
          let hostPort ← _findFreeHttpPort j
          let containerName := _containerName lab._id userId
          try
            discard (execPromise d (m.dockerCmd ++ " image inspect " ++ dockerImage))
          catch _ =>
            discard (execPromise d (m.dockerCmd ++ " pull " ++ dockerImage))
          try
            discard (execPromise d (m.dockerCmd ++ " rm -f " ++ containerName))
          catch _ =>
            pure ()
          let runCmd := m.dockerCmd ++ " run -d --name " ++ containerName ++ " -p " ++
            toString hostPort ++ ":" ++ toString internalPort ++ " --restart=no " ++ dockerImage
          discard (execPromise d runCmd)
          let details : LabDetails :=
            { id := containerName
              status := "running"
              containerName := containerName
              hostPort := hostPort
              internalPort := internalPort
              image := dockerImage
              accessUrl := "http://localhost:" ++ toString hostPort
              startedAt := now }
          modify (fun m1 => { m1 with activeLabs := JsMap.set m1.activeLabs key details })
          pure details

/-- Method `stopLabContainer`. -/
def stopLabContainer (d : Driver) (labId userId : String) : Eff LabManager StopResult := do
  let key := userId ++ ":" ++ labId
  let m ← get
  let containerName :=
    match JsMap.get m.activeLabs key with
    | some info => info.containerName
    | none => _containerName labId userId
  try
    discard (execPromise d (m.dockerCmd ++ " rm -f " ++ containerName))
  catch _ =>
    pure ()
  modify (fun m1 => { m1 with activeLabs := JsMap.delete m1.activeLabs key })
  pure { success := true }

/-- Method `getStatus`. -/
def getStatus (d : Driver) (labId userId : String) : Eff LabManager LabStatus := do
  let key := userId ++ ":" ++ labId
  let m ← get
  match JsMap.get m.activeLabs key with
  | none => pure (LabStatus.bare "stopped")
  | some info =>
    try
      let (stdout, _) ← execPromise d
        (m.dockerCmd ++ " inspect -f \x27\x7b\x7b.State.Running\x7d\x7d\x27 " ++ info.containerName)
      let running := trim stdout == "true"
      pure (LabStatus.full { info with status := if running then "running" else "stopped" })
    catch _ =>
      modify (fun m1 => { m1 with activeLabs := JsMap.delete m1.activeLabs key })
      pure (LabStatus.bare "stopped")

/-- Method `executeCommand`. -/
def executeCommand (d : Driver) (labId userId command : String) :
    Eff LabManager ExecOutput := do
  let key := userId ++ ":" ++ labId
  let m ← get
  match JsMap.get m.activeLabs key with
  | none => throw (newError "Lab container is not running. Please start the lab first.")
  | some info =>
    try
      let execCmd := m.dockerCmd ++ " exec " ++ info.containerName ++ " /bin/sh -c " ++
        jsonStringify command
      let (stdout, stderr) ← execPromise d execCmd
      let output := ""
      let output := if truthy stdout then output ++ stdout else output
      let output := if truthy stderr then output ++ stderr else output
      pure { success := true, output := if truthy output then output else "(no output)\r\n" }
    catch error =>
      pure { success := false,
             output := if truthy error.message then error.message
                       else "Command execution failed" }

/-- The command lines issued when `startLabContainer`, called for a key that is
not tracked, comes to its `run` command: the image inspect, the pull if the
inspect failed, and the removal of a stale container. -/
def issuedBeforeRun (d : Driver) (m : LabManager) (dockerImage containerName : String) :
    List String :=
  let inspectCmd := m.dockerCmd ++ " image inspect " ++ dockerImage
  (if (d m.issued inspectCmd).isOk then m.issued ++ [inspectCmd]
   else m.issued ++ [inspectCmd] ++ [m.dockerCmd ++ " pull " ++ dockerImage]) ++
    [m.dockerCmd ++ " rm -f " ++ containerName]

/-- The `run` command line of `startLabContainer`. -/
def runCmd (m : LabManager) (dockerImage containerName : String) (hostPort : Nat) : String :=
  m.dockerCmd ++ " run -d --name " ++ containerName ++ " -p " ++
    toString hostPort ++ ":" ++ toString (_inferInternalPort (some dockerImage)) ++
    " --restart=no " ++ dockerImage

/-- A manager just constructed: nothing tracked, nothing issued. -/
def fresh (dockerCmd : String) : LabManager :=
  { activeLabs := [], dockerCmd := dockerCmd, issued := [] }

end LabManager

/-- One call of a public method of the `LabManager`, with the jitter and the
clock reading it meets. -/
inductive LabCall where
  | start (lab : Option Lab) (userId : String) (j : Fin 1000) (now : Nat)
  | stop (labId userId : String)
  | status (labId userId : String)
  | exec (labId userId command : String)
deriving DecidableEq, Repr

namespace LabManager

/-- The manager after one call has run to completion, whatever it returned. -/
def perform (d : Driver) (c : LabCall) (m : LabManager) : LabManager :=
  match c with
  | LabCall.start lab userId j now => (startLabContainer d lab userId j now m).2
  | LabCall.stop labId userId => (stopLabContainer d labId userId m).2
  | LabCall.status labId userId => (getStatus d labId userId m).2
  | LabCall.exec labId userId command => (executeCommand d labId userId command m).2

/-- The manager after a sequence of calls, each run to completion before the
next begins. -/
def runCalls (d : Driver) (calls : List LabCall) (m : LabManager) : LabManager :=
  calls.foldl (fun acc c => perform d c acc) m

end LabManager

/-! ## vmManager.js -/

/-- The record `vmDetails` that `startKaliVM` builds and stores; `guacamoleUrl`
is always `null`. -/
structure VMDetails where
  id : String
  status : String
  containerName : String
  sshPort : JsNumber
  startedAt : Nat
deriving DecidableEq, Repr

/-- The `VMManager` object: the map `activeVMs`, keyed by `userId`. The value
`dockerCmd` is what `_resolveDockerCmd()` returns on this host; `issued` is the
ghost list of command lines handed to `execPromise` so far. The field
`baseSshPort` is the constant `VMManager.baseSshPort`. -/
structure VMManager where
  activeVMs : JsMap VMDetails
  dockerCmd : String
  issued : List String
deriving DecidableEq, Repr

namespace VMManager

/-- The field `baseSshPort`, set once in the constructor. -/
def baseSshPort : Nat := 22220

/-- The module-level `execPromise` of vmManager.js. -/
def execPromise (d : Driver) (cmd : String) : Eff VMManager (String × String) :=
  fun m =>
    match d m.issued cmd with
    | ExecResult.ok out err => (Except.ok (out, err), { m with issued := m.issued ++ [cmd] })
    | ExecResult.fail e => (Except.error e, { m with issued := m.issued ++ [cmd] })

/-- The natural numbers among the `sshPort` values of the sessions: the values
of `port` at which `v.sshPort === port` holds for some session `v`. An `sshPort`
read back by `parseInt` may be negative or an infinity. -/
def heldSshPorts (vs : List VMDetails) : List Nat :=
  vs.filterMap (fun v =>
    match v.sshPort with
    | JsNumber.int n => if 0 ≤ n then some n.toNat else none
    | JsNumber.infinity _ => none)

/-- Method `_findFreePort`, with the jitter `j` drawn by `Math.random`. -/
def _findFreePort (j : Fin 1000) : Eff VMManager Nat := do
  let m ← get
  pure (probe (heldSshPorts (JsMap.values m.activeVMs)) (baseSshPort + j.val))

/-- Method `_checkDockerConnection`. -/
def _checkDockerConnection (d : Driver) : Eff VMManager Bool := do
  try
    let m ← get
    discard (execPromise d (m.dockerCmd ++ " version"))
    pure true
  catch error =>
    let msg := messageOrSelf error
    if includes msg "pipe" || includes msg "dockerDesktopLinuxEngine" ||
        includes msg "cannot find the file" then
      throw (newError ("Docker Desktop is not running. Please start Docker Desktop " ++
        "and wait for it to fully load, then try again."))
    else
      throw (newError ("Cannot connect to Docker: " ++ msg))

/-- The inspect command `docker inspect -f {{.State.Running}} name`. -/
def inspectRunningCmd (dockerCmd containerName : String) : String :=
  dockerCmd ++ " inspect -f \x27\x7b\x7b.State.Running\x7d\x7d\x27 " ++ containerName

/-- The diagnostics block of `startKaliVM`, entered when the running flag is not
set: `some vmDetails` when it returns from the method, `none` when it goes on to
the `throw`, which it raises with the diagnostics. The parameter `readInspect`
stands for `JSON.parse(inspectOut)[0]` and the reads of its `State`: `none`
when they throw, else the text of `diag` and whether `status === \x27running\x27`. -/
def verifyNotRunning (d : Driver) (readInspect : String → Option (String × Bool))
    (dockerCmd containerName : String) (vmDetails : VMDetails) : Eff VMManager VMDetails := do
  let (diag, early) ←
    (try
      let (inspectOut, _) ← execPromise d (dockerCmd ++ " inspect " ++ containerName)
      match readInspect inspectOut with
      | none => throw (newError "SyntaxError")
      | some (diag, running) => pure (diag, running)
    catch _ =>
      pure ("", false))
  if early then pure vmDetails
  else
    let logs ←
      (try
        let (stdout, _) ← execPromise d (dockerCmd ++ " logs --tail 80 " ++ containerName)
        pure stdout
      catch _ =>
        pure "")
    throw (newError ("Container was created but failed to start. " ++
      (if truthy diag then "Inspect: " ++ diag ++ ". " else "") ++
      "Logs: " ++ (if truthy logs then logs else "no logs available")))

/-- The body of the outer `try` block of `startKaliVM`. -/
def startKaliVMBody (d : Driver) (readInspect : String → Option (String × Bool))
    (userId : String) (j : Fin 1000) (now : Nat) : Eff VMManager VMDetails := do
  discard (_checkDockerConnection d)
  let m ← get
  match JsMap.get m.activeVMs userId with
  | some tracked => pure tracked
  | none =>
    let dockerCmd := m.dockerCmd
    let sshPort ← _findFreePort j
    let containerName := "edusec_kali_" ++ userId
    try
      discard (execPromise d (dockerCmd ++ " rm -f " ++ containerName))
    catch _ =>
      pure ()
    let image := "alpine:3.19"
    try
      discard (execPromise d (dockerCmd ++ " image inspect " ++ image))
    catch _ =>
      discard (execPromise d (dockerCmd ++ " pull " ++ image))
    let runCmd := dockerCmd ++ " run -d --init --name " ++ containerName ++
      " --restart=no " ++ image ++ " sh -c \"while true; do sleep 3600; done\""
    discard (execPromise d runCmd)
    let vmDetails : VMDetails :=
      { id := containerName
        status := "running"
        containerName := containerName
        sshPort := JsNumber.int (Int.ofNat sshPort)
        startedAt := now }
    modify (fun m1 => { m1 with activeVMs := JsMap.set m1.activeVMs userId vmDetails })
    try
      let (runningCheck, _) ← execPromise d (inspectRunningCmd dockerCmd containerName)
      let isRunningFlag := includes (toLowerCase (trim runningCheck)) "true"
      if !isRunningFlag then
        verifyNotRunning d readInspect dockerCmd containerName vmDetails
      else
        pure vmDetails
    catch err =>
      throw (newError ("Container failed to start properly: " ++ messageOrSelf err))

/-- Method `startKaliVM`: the body in its outer `try`, and the outer `catch`. -/
def startKaliVM (d : Driver) (readInspect : String → Option (String × Bool))
    (userId : String) (j : Fin 1000) (now : Nat) : Eff VMManager VMDetails := do
  try
    startKaliVMBody d readInspect userId j now
  catch error =>
    if truthy error.message && includes error.message "Docker Desktop" then
      throw error
    else
      throw (newError ("Failed to start containerized VM: " ++ messageOrSelf error))

/-- What `getVMStatus` returns: the literal with only a `status`, or a session
record, with `guacamoleUrl` null. -/
inductive VMStatus where
  | bare (status : String)
  | full (d : VMDetails)
deriving DecidableEq, Repr

/-- The `status` property of what `getVMStatus` returns. -/
def VMStatus.statusOf : VMStatus → String
  | VMStatus.bare status => status
  | VMStatus.full d => d.status

/-- What `VMManager.executeCommand` returns. -/
structure VMExecOutput where
  success : Bool
  output : String
  exitCode : JsCode
deriving DecidableEq, Repr

/-- The inspect command that prints the published host ports of a container. -/
def inspectPortsCmd (dockerCmd containerName : String) : String :=
  dockerCmd ++ " inspect -f \x27\x7b\x7brange .NetworkSettings.Ports\x7d\x7d" ++
    "\x7b\x7brange .\x7d\x7d\x7b\x7b.HostPort\x7d\x7d\x7b\x7bend\x7d\x7d" ++
    "\x7b\x7bend\x7d\x7d\x27 " ++ containerName

/-- The `try` block of `getVMStatus` for a user that is not tracked: `some` of
the record when the block returns from the method, `none` when it falls through
to the `return` after the `catch`. -/
def getVMStatusRecover (d : Driver) (userId : String) (j : Fin 1000) (now : Nat) :
    Eff VMManager (Option VMStatus) := do
  let m ← get
  let containerName := "edusec_kali_" ++ userId
  let dockerCmd := m.dockerCmd
  let (stdout, _) ← execPromise d (inspectRunningCmd dockerCmd containerName)
  let running := trim stdout == "true"
  if running then
    let (portOut, _) ← execPromise d (inspectPortsCmd dockerCmd containerName)
    let sshPort : JsNumber ←
      (match parseInt (firstLine (trim portOut)) with
        | some n =>
          if n ≠ JsNumber.int 0 then pure n
          else (fun p => JsNumber.int (Int.ofNat p)) <$> _findFreePort j
        | none => (fun p => JsNumber.int (Int.ofNat p)) <$> _findFreePort j)
    let recovered : VMDetails :=
      { id := containerName
        status := "running"
        containerName := containerName
        sshPort := sshPort
        startedAt := now }
    modify (fun m1 => { m1 with activeVMs := JsMap.set m1.activeVMs userId recovered })
    pure (some (VMStatus.full recovered))
  else
    discard (execPromise d (dockerCmd ++ " rm -f " ++ containerName))
    pure none

/-- The `try` block of `getVMStatus` for a tracked user. -/
def getVMStatusInspect (d : Driver) (vm : VMDetails) : Eff VMManager VMStatus := do
  let m ← get
  let (stdout, _) ← execPromise d (inspectRunningCmd m.dockerCmd vm.containerName)
  let running := trim stdout == "true"
  pure (VMStatus.full { vm with status := if running then "running" else "stopped" })

/-- Method `getVMStatus`, with the jitter and the clock reading it may use. -/
def getVMStatus (d : Driver) (userId : String) (j : Fin 1000) (now : Nat) :
    Eff VMManager VMStatus := do
  let m ← get
  match JsMap.get m.activeVMs userId with
  | none =>
    let returned ←
      (try
        getVMStatusRecover d userId j now
      catch _ =>
        pure none)
    match returned with
    | some r => pure r
    | none => pure (VMStatus.bare "stopped")
  | some vm =>
    try
      getVMStatusInspect d vm
    catch _ =>
      modify (fun m1 => { m1 with activeVMs := JsMap.delete m1.activeVMs userId })
      pure (VMStatus.bare "stopped")

/-- The `try` block of `VMManager.executeCommand`. -/
def executeCommandTry (d : Driver) (vm : VMDetails) (command : String) :
    Eff VMManager VMExecOutput := do
  let m ← get
  let execCmd := m.dockerCmd ++ " exec " ++ vm.containerName ++ " bash -c " ++
    jsonStringify command
  let (stdout, stderr) ← execPromise d execCmd
  pure { success := true
         output := if truthy stdout then stdout else if truthy stderr then stderr else ""
         exitCode := if truthy stderr then JsCode.num 1 else JsCode.num 0 }

/-- The value of `error.code || 1`. -/
def codeOrOne : Option JsCode → JsCode
  | some (JsCode.num n) => if n ≠ 0 then JsCode.num n else JsCode.num 1
  | some (JsCode.text t) => if truthy t then JsCode.text t else JsCode.num 1
  | none => JsCode.num 1

/-- Method `executeCommand` of the `VMManager`. -/
def executeCommand (d : Driver) (userId command : String) : Eff VMManager VMExecOutput := do
  let m ← get
  match JsMap.get m.activeVMs userId with
  | none => throw (newError "VM is not running")
  | some vm =>
    try
      executeCommandTry d vm command
    catch error =>
      pure { success := false
             output :=
               if truthy (orEmpty error.stderr) then orEmpty error.stderr
               else if truthy error.message then error.message
               else "Command execution failed"
             exitCode := codeOrOne error.code }

/-- The body of the outer `try` block of `stopKaliVM`. -/
def stopKaliVMBody (d : Driver) (userId : String) : Eff VMManager StopResult := do
  let m ← get
  match JsMap.get m.activeVMs userId with
  | none => pure { success := true }
  | some vm =>
    let dockerCmd := m.dockerCmd
    let containerName := vm.containerName
    try
      discard (execPromise d (dockerCmd ++ " rm -f " ++ containerName))
    catch _ =>
      pure ()
    modify (fun m1 => { m1 with activeVMs := JsMap.delete m1.activeVMs userId })
    pure { success := true }

/-- Method `stopKaliVM`: the body in its outer `try`, and the outer `catch`. -/
def stopKaliVM (d : Driver) (userId : String) : Eff VMManager StopResult := do
  try
    stopKaliVMBody d userId
  catch _ =>
    throw (newError "Failed to stop containerized VM")

/-- The constant `inactiveTime` of `cleanupInactiveVMs`: 30 minutes, in
milliseconds. -/
def inactiveTime : Nat := 30 * 60 * 1000

/-- The `for` loop of `cleanupInactiveVMs` over the entries of `activeVMs`. The
loop deletes no entry but the one it is visiting, so the entries it visits are
those the map had when the loop began. The difference `now - vm.startedAt` of
two dates is in milliseconds; a negative one, like the truncated 0, does not
exceed `inactiveTime`. -/
def sweep (d : Driver) (now : Nat) : List (String × VMDetails) → Eff VMManager PUnit
  | [] => pure PUnit.unit
  | (userId, vm) :: rest => do
    let inactiveFor := now - vm.startedAt
    if inactiveFor > inactiveTime then
      discard (stopKaliVM d userId)
    sweep d now rest

/-- Method `cleanupInactiveVMs`, with the clock reading `now` of its first line. -/
def cleanupInactiveVMs (d : Driver) (now : Nat) : Eff VMManager PUnit := do
  let m ← get
  sweep d now m.activeVMs

end VMManager

/-! ## cyberKnowledge.js -/

/-- An entry of the catalog `topics`. The texts `steps` and `tips`, which
`retrieveRelevant` does not read, are left out. -/
structure Topic where
  id : String
  title : String
  keywords : List String
deriving DecidableEq, Repr

/-- The catalog `topics`. -/
def topics : List Topic :=
  [ { id := "recon_web"
      title := "Web Reconnaissance Basics"
      keywords := ["recon", "enumeration", "what to scan", "reconnaissance", "dirb",
        "gobuster"] },
    { id := "dvwa_sql_injection"
      title := "DVWA SQL Injection Workflow"
      keywords := ["dvwa", "sql injection", "sql\x27i", "sqli"] },
    { id := "owasp_juice_shop"
      title := "OWASP Juice Shop Learning Path"
      keywords := ["juice shop", "owasp juice", "owasp top 10", "xss", "broken auth"] },
    { id := "password_cracking_basics"
      title := "Password Cracking Basics (Ethical, Lab Only)"
      keywords := ["hashcat", "john", "password cracking", "wordlist"] } ]

/-- An element of the array `scored`. -/
structure Scored where
  topic : Topic
  score : Nat
deriving DecidableEq, Repr

/-- The `reduce` over the keywords of a topic: the count of those the lower-cased
message `m` includes. -/
def scoreOf (m : String) (t : Topic) : Nat :=
  t.keywords.foldl (fun acc k => if includes m (toLowerCase k) then acc + 1 else acc) 0

/-- The body of `retrieveRelevant` over a catalog. The call
`sort((a, b) => b.score - a.score)` leaves `a` before `b` when
`b.score - a.score <= 0`; the sort is stable, as ECMAScript requires, and the
insertion sort computes the one order that a stable sort gives. -/
def retrieveFrom (catalog : List Topic) (message : Option String) (max : Nat) : List Topic :=
  let m := toLowerCase (orEmpty message)
  let scored : List Scored := catalog.map (fun t => { topic := t, score := scoreOf m t })
  (((scored.filter (fun s => decide (s.score > 0))).insertionSort
      (fun a b => b.score ≤ a.score)).take max).map (fun s => s.topic)

/-- Function `retrieveRelevant(message, max)`; `none` is a missing or empty
message. -/
def retrieveRelevant (message : Option String) (max : Nat) : List Topic :=
  retrieveFrom topics message max

/-- Does the keyword `k` occur in the message, the case of letters set aside:
both texts are compared in lower case. -/
def occursIn (message : Option String) (k : String) : Bool :=
  includes (toLowerCase (orEmpty message)) (toLowerCase k)

/-- The count of the keywords of a topic that occur in the message. -/
def matchCount (message : Option String) (t : Topic) : Nat :=
  (t.keywords.filter (occursIn message)).length


/-! ## Observations on the issued commands, and example inputs -/

/-- Does the text contain no colon, as the hexadecimal text of an id. -/
def colonFree (s : String) : Bool := !s.data.contains ':'

/-- Does the call pass a user id without a colon; a call that stores nothing
counts as free. -/
def LabCall.colonFree : LabCall → Bool
  | LabCall.start _ userId _ _ => EdusecLab.colonFree userId
  | _ => true

/-- Is the command line a `run` of the runtime `dockerCmd`. -/
def isRunCmd (dockerCmd cmd : String) : Bool :=
  (dockerCmd.data ++ " run ".data).isPrefixOf cmd.data

/-- A runtime on which every command succeeds with empty output. -/
def okDriver : Driver := fun _ _ => ExecResult.ok "" ""

/-- A runtime on which every `docker run` fails and every other command
succeeds. -/
def runFailDriver : Driver := fun _ cmd =>
  if isRunCmd "docker" cmd then ExecResult.fail (newError "Command failed: docker run")
  else ExecResult.ok "" ""

/-- A runtime on which every command succeeds and prints `false`: every inspect
of a running flag reports a container that is not running. -/
def falseDriver : Driver := fun _ _ => ExecResult.ok "false\n" ""

/-- A runtime on which every command succeeds and prints `true`. -/
def trueDriver : Driver := fun _ _ => ExecResult.ok "true\n" ""

/-- The error of a command that failed: a message and the captured `stderr`. -/
def failError : JsError :=
  { message := "Command failed", stderr := some "No such container" }

/-- A runtime on which every command fails. -/
def failDriver : Driver := fun _ _ => ExecResult.fail failError

/-- A runtime whose containers are stopped: an inspect prints `false`, an exec
fails. -/
def stoppedDriver : Driver := fun _ cmd =>
  if includes cmd " exec " then
    ExecResult.fail (newError "Error response from daemon: container is not running")
  else ExecResult.ok "false\n" ""

/-- A runtime on which every command prints `hi` and a line feed. -/
def hiDriver : Driver := fun _ _ => ExecResult.ok "hi\n" ""

/-- A runtime on which every command writes to both of its streams. -/
def bothStreamsDriver : Driver := fun _ _ => ExecResult.ok "out" "err"

/-- A catalog entry whose id is `c`. -/
def labC : Lab := { _id := "c", dockerImage := some "img:tag" }

/-- A catalog entry with an image. -/
def labR1 : Lab := { _id := "R1", dockerImage := some "img:tag" }

/-- The id of the user number `i` of a crowd: `i` letters `u`. -/
def crowdUser (i : Nat) : String := String.mk (List.replicate i 'u')

/-- The calls of a crowd of `k` users, each of whom starts `labR1` once and
draws the jitter 999. -/
def crowd (k : Nat) : List LabCall :=
  (List.range k).map (fun i => LabCall.start (some labR1) (crowdUser i) 999 0)

/-- The record `startLabContainer` stores for user `U1` and `labR1` on an empty
registry at jitter 0 and time 0. -/
def sessionR1 : LabDetails :=
  { id := "edusec_lab_R1_U1", status := "running", containerName := "edusec_lab_R1_U1",
    hostPort := 8082, internalPort := 80, image := "img:tag",
    accessUrl := "http://localhost:8082", startedAt := 0 }

/-- The record `startLabContainer` stores for user `U1` and `labR1` on an empty
registry at jitter 999 and time 0: it holds the last port of the range. -/
def lastPortDetails : LabDetails :=
  { id := "edusec_lab_R1_U1", status := "running", containerName := "edusec_lab_R1_U1",
    hostPort := 9081, internalPort := 80, image := "img:tag",
    accessUrl := "http://localhost:9081", startedAt := 0 }

/-- The record `startLabContainer` returns for user `U2` and `labR1` at jitter
999 while `lastPortDetails` is tracked. -/
def overflowDetails : LabDetails :=
  { id := "edusec_lab_R1_U2", status := "running", containerName := "edusec_lab_R1_U2",
    hostPort := 9082, internalPort := 80, image := "img:tag",
    accessUrl := "http://localhost:9082", startedAt := 0 }

/-- A manager that tracks `sessionR1`. -/
def trackingR1 : LabManager :=
  { activeLabs := [("U1:R1", sessionR1)], dockerCmd := "docker", issued := [] }

namespace VMManager

/-- A manager just constructed: nothing tracked, nothing issued. -/
def fresh (dockerCmd : String) : VMManager :=
  { activeVMs := [], dockerCmd := dockerCmd, issued := [] }

/-- A runtime on which every command succeeds, and on which the container of
user `u1` exits right after its start: the running flag reads `false`. -/
def exitedDriver : Driver := fun _ cmd =>
  if cmd = inspectRunningCmd "docker" "edusec_kali_u1" then ExecResult.ok "false\n" ""
  else if cmd = "docker inspect edusec_kali_u1" then
    ExecResult.ok "[\x7b\"State\":\x7b\"Status\":\"exited\",\"ExitCode\":1,\"OOMKilled\":false,\"Error\":\"\"\x7d\x7d]" ""
  else ExecResult.ok "" ""

/-- What the reads of the inspect output give on `exitedDriver`: the text of
`diag`, and that the status is not `running`. -/
def readExited : String → Option (String × Bool) := fun _ =>
  some ("Status=exited; ExitCode=1; OOMKilled=false; Error=n/a", false)

/-- The record `startKaliVM` stores for user `u1` at jitter 0 and time 0. -/
def staleDetails : VMDetails :=
  { id := "edusec_kali_u1", status := "running", containerName := "edusec_kali_u1",
    sshPort := JsNumber.int 22220, startedAt := 0 }

/-- A manager that tracks `staleDetails` for user `u1`. -/
def trackingU1 : VMManager :=
  { activeVMs := [("u1", staleDetails)], dockerCmd := "docker", issued := [] }

/-- The record that the reconciliation of `getVMStatus` builds for user `u2` at
time 7 when the runtime publishes host port 2222. -/
def recoveredDetails : VMDetails :=
  { id := "edusec_kali_u2", status := "running", containerName := "edusec_kali_u2",
    sshPort := JsNumber.int 2222, startedAt := 7 }

/-- A runtime on which the container of `u2` runs and publishes host port 2222. -/
def publishedDriver : Driver := fun _ cmd =>
  if cmd = inspectRunningCmd "docker" "edusec_kali_u2" then ExecResult.ok "true\n" ""
  else if cmd = inspectPortsCmd "docker" "edusec_kali_u2" then ExecResult.ok "2222\n" ""
  else ExecResult.ok "" ""

/-- A runtime on which the container of `u2` runs and every other command, the
query of its published ports among them, fails. -/
def unansweredDriver : Driver := fun _ cmd =>
  if cmd = inspectRunningCmd "docker" "edusec_kali_u2" then ExecResult.ok "true\n" ""
  else ExecResult.fail failError

/-- The record stored for the user named `a b` at jitter 0 and time 0. -/
def spacedDetails : VMDetails :=
  { id := "edusec_kali_a b", status := "running", containerName := "edusec_kali_a b",
    sshPort := JsNumber.int 22220, startedAt := 0 }

end VMManager

/-! ## Effects: how the statements of a method run -/

section EffLemmas
variable {σ α β : Type}

@[simp] theorem Eff.pure_apply (a : α) (s : σ) : (pure a : Eff σ α) s = (Except.ok a, s) := rfl

@[simp] theorem Eff.ret_apply (a : α) (s : σ) : Eff.ret a s = (Except.ok a, s) := rfl

@[simp] theorem Eff.bind_apply (x : Eff σ α) (f : α → Eff σ β) (s : σ) :
    (x >>= f) s = Eff.andThen x f s := rfl

@[simp] theorem Eff.discard_apply (x : Eff σ α) (s : σ) :
    (discard x) s = Eff.andThen x (fun _ => Eff.ret PUnit.unit) s := rfl

@[simp] theorem Eff.throw_apply (e : JsError) (s : σ) :
    (throw e : Eff σ α) s = (Except.error e, s) := rfl

@[simp] theorem Eff.tryCatch_apply (x : Eff σ α) (h : JsError → Eff σ α) (s : σ) :
    (tryCatch x h) s = Eff.attempt x h s := rfl

@[simp] theorem Eff.get_apply (s : σ) : (get : Eff σ σ) s = (Except.ok s, s) := rfl

@[simp] theorem Eff.modify_apply (f : σ → σ) (s : σ) :
    (modify f : Eff σ PUnit) s = (Except.ok PUnit.unit, f s) := rfl

end EffLemmas

/-! ## The Map class -/

namespace JsMap
variable {β : Type}

theorem get_delete_self (m : JsMap β) (k : String) : get (delete m k) k = none := by
  induction m with
  | nil => rfl
  | cons e t ih =>
    obtain ⟨k1, v1⟩ := e
    by_cases h : k1 = k
    · simpa [delete, List.filter_cons, h] using ih
    · simpa [delete, List.filter_cons, h, get] using ih

theorem get_delete_of_ne (m : JsMap β) (k k2 : String) (hne : k2 ≠ k) :
    get (delete m k) k2 = get m k2 := by
  induction m with
  | nil => rfl
  | cons e t ih =>
    obtain ⟨k1, v1⟩ := e
    by_cases h : k1 = k
    · subst h
      have h2 : ¬ k1 = k2 := fun h3 => hne h3.symm
      simpa [delete, List.filter_cons, get, h2] using ih
    · by_cases h2 : k1 = k2
      · subst h2
        simp [delete, List.filter_cons, h, get]
      · simpa [delete, List.filter_cons, h, get, h2] using ih

theorem get_set_self (m : JsMap β) (k : String) (v : β) : get (set m k v) k = some v := by
  induction m with
  | nil => simp [set, get]
  | cons e t ih =>
    obtain ⟨k1, v1⟩ := e
    by_cases h : k1 = k
    · simp [set, get, h]
    · simp [set, get, h, ih]

theorem get_set_of_ne (m : JsMap β) (k k2 : String) (v : β) (hne : k2 ≠ k) :
    get (set m k v) k2 = get m k2 := by
  induction m with
  | nil => simp [set, get, Ne.symm hne]
  | cons e t ih =>
    obtain ⟨k1, v1⟩ := e
    by_cases h : k1 = k
    · subst h
      have h2 : ¬ k1 = k2 := fun h3 => hne h3.symm
      simp [set, get, h2]
    · by_cases h2 : k1 = k2
      · subst h2
        simp [set, get, h]
      · simp [set, get, h, h2, ih]

theorem set_of_get_none (m : JsMap β) (k : String) (v : β) (h : get m k = none) :
    set m k v = m ++ [(k, v)] := by
  induction m with
  | nil => rfl
  | cons e t ih =>
    obtain ⟨k1, v1⟩ := e
    by_cases h1 : k1 = k
    · simp [get, h1] at h
    · simp only [get, h1, if_false] at h
      simp [set, h1, ih h]

end JsMap

/-! ## Port probing -/

theorem mem_of_any_beq (held : List Nat) (port : Nat) :
    held.any (fun p => p == port) = true ↔ port ∈ held := by
  simp [List.any_eq_true]

/-- The bounded loop, given fuel enough to pass every held port: its result is
the least port from `port` on that is not held. -/
theorem probeFrom_spec (held : List Nat) :
    ∀ (fuel port : Nat), held.sum + 1 - port ≤ fuel →
      port ≤ probeFrom held fuel port ∧ probeFrom held fuel port ∉ held ∧
      ∀ q, port ≤ q → q ∉ held → probeFrom held fuel port ≤ q := by
  intro fuel
  induction fuel with
  | zero =>
    intro port hf
    have hfree : port ∉ held := fun hm => by
      have := List.le_sum_of_mem hm
      omega
    exact ⟨Nat.le_refl _, hfree, fun q hq _ => hq⟩
  | succ n ih =>
    intro port hf
    by_cases hm : port ∈ held
    · have hstep : probeFrom held (n + 1) port = probeFrom held n (port + 1) := by
        simp [probeFrom, hm]
      obtain ⟨h1, h2, h3⟩ := ih (port + 1) (by omega)
      rw [hstep]
      refine ⟨by omega, h2, fun q hq hfree => h3 q ?_ hfree⟩
      have : q ≠ port := fun h => hfree (h ▸ hm)
      omega
    · have hstep : probeFrom held (n + 1) port = port := by
        simp [probeFrom, hm]
      rw [hstep]
      exact ⟨Nat.le_refl _, hm, fun q hq _ => hq⟩

theorem probe_ge (held : List Nat) (port : Nat) : port ≤ probe held port :=
  (probeFrom_spec held _ port (Nat.le_refl _)).1

theorem probe_not_mem (held : List Nat) (port : Nat) : probe held port ∉ held :=
  (probeFrom_spec held _ port (Nat.le_refl _)).2.1

theorem probe_le (held : List Nat) (port q : Nat) (hq : port ≤ q) (hfree : q ∉ held) :
    probe held port ≤ q :=
  (probeFrom_spec held _ port (Nat.le_refl _)).2.2 q hq hfree

/-- The function `probe` is the `while` loop of the port finders: one test of the
condition, then either one increment and the loop again, or the result. -/
theorem probe_loop (held : List Nat) (port : Nat) :
    probe held port =
      if held.any (fun p => p == port) = true then probe held (port + 1) else port := by
  by_cases hm : port ∈ held
  · have hle := List.le_sum_of_mem hm
    have hfuel : held.sum + 1 - port = (held.sum + 1 - (port + 1)) + 1 := by omega
    rw [if_pos ((mem_of_any_beq held port).mpr hm)]
    unfold probe
    rw [hfuel]
    simp [probeFrom, hm]
  · rw [if_neg (fun h => hm ((mem_of_any_beq held port).mp h))]
    apply Nat.le_antisymm
    · exact probe_le held port port (Nat.le_refl _) hm
    · exact probe_ge held port


section EffSteps
variable {σ α β : Type}

@[simp] theorem Eff.andThen_pure (a : α) (f : α → Eff σ β) (s : σ) :
    Eff.andThen (pure a) f s = f a s := rfl

@[simp] theorem Eff.andThen_get (f : σ → Eff σ β) (s : σ) :
    Eff.andThen get f s = f s s := rfl

@[simp] theorem Eff.andThen_modify (g : σ → σ) (f : PUnit → Eff σ β) (s : σ) :
    Eff.andThen (modify g) f s = f PUnit.unit (g s) := rfl

@[simp] theorem Eff.andThen_throw (e : JsError) (f : α → Eff σ β) (s : σ) :
    Eff.andThen (throw e) f s = (Except.error e, s) := rfl

@[simp] theorem Eff.andThen_bind {γ : Type} (x : Eff σ α) (g : α → Eff σ β) (f : β → Eff σ γ)
    (s : σ) :
    Eff.andThen (x >>= g) f s = Eff.andThen x (fun a s1 => Eff.andThen (g a) f s1) s := by
  show Eff.andThen (Eff.andThen x g) f s = _
  unfold Eff.andThen
  rcases x s with ⟨r, s1⟩
  cases r <;> rfl

end EffSteps

namespace LabManager

/-- The state after a command line was handed to the runtime. -/
theorem execPromise_state (d : Driver) (cmd : String) (m : LabManager) :
    (execPromise d cmd m).2 = { m with issued := m.issued ++ [cmd] } := by
  cases h : d m.issued cmd <;> simp [execPromise, h]

/-- Statement `const { stdout, stderr } = await execPromise(cmd)`, then `f`. -/
@[simp] theorem andThen_exec {β : Type} (d : Driver) (cmd : String)
    (f : String × String → Eff LabManager β) (m : LabManager) :
    Eff.andThen (execPromise d cmd) f m =
      match d m.issued cmd with
      | ExecResult.ok out err => f (out, err) { m with issued := m.issued ++ [cmd] }
      | ExecResult.fail e => (Except.error e, { m with issued := m.issued ++ [cmd] }) := by
  cases h : d m.issued cmd <;> simp [Eff.andThen, execPromise, h]

/-- Statement `await execPromise(cmd)`, then `f`. -/
@[simp] theorem andThen_discard_exec {β : Type} (d : Driver) (cmd : String)
    (f : PUnit → Eff LabManager β) (m : LabManager) :
    Eff.andThen (discard (execPromise d cmd)) f m =
      match d m.issued cmd with
      | ExecResult.ok _ _ => f PUnit.unit { m with issued := m.issued ++ [cmd] }
      | ExecResult.fail e => (Except.error e, { m with issued := m.issued ++ [cmd] }) := by
  cases h : d m.issued cmd <;> simp [Eff.andThen, execPromise, h]

/-- Statement `try { await execPromise(cmd) } catch (_) {}`, then `f`. -/
@[simp] theorem andThen_ignored_exec {β : Type} (d : Driver) (cmd : String)
    (f : PUnit → Eff LabManager β) (m : LabManager) :
    Eff.andThen (tryCatch (discard (execPromise d cmd)) (fun _ => pure PUnit.unit)) f m =
      f PUnit.unit { m with issued := m.issued ++ [cmd] } := by
  cases h : d m.issued cmd <;> simp [Eff.andThen, Eff.attempt, execPromise, h]

/-- Statement `try { await execPromise(c1) } catch (_) { await execPromise(c2) }`,
then `f`. -/
@[simp] theorem andThen_fallback_exec {β : Type} (d : Driver) (c1 c2 : String)
    (f : PUnit → Eff LabManager β) (m : LabManager) :
    Eff.andThen (tryCatch (discard (execPromise d c1)) (fun _ => discard (execPromise d c2))) f m =
      match d m.issued c1 with
      | ExecResult.ok _ _ => f PUnit.unit { m with issued := m.issued ++ [c1] }
      | ExecResult.fail _ =>
        match d (m.issued ++ [c1]) c2 with
        | ExecResult.ok _ _ => f PUnit.unit { m with issued := m.issued ++ [c1] ++ [c2] }
        | ExecResult.fail e => (Except.error e, { m with issued := m.issued ++ [c1] ++ [c2] }) := by
  cases h : d m.issued c1 <;> cases h2 : d (m.issued ++ [c1]) c2 <;>
    simp [Eff.andThen, Eff.attempt, execPromise, h, h2]

/-- Method `startLabContainer` for a key that is not tracked, when the image
inspect and the pull both fail: the error of the pull is thrown. -/
theorem startLabContainer_pull_failed (d : Driver) (l : Lab) (img userId : String)
    (j : Fin 1000) (now : Nat) (m : LabManager) (e : JsError)
    (himg : l.dockerImage = some img) (hne : img ≠ "")
    (hget : JsMap.get m.activeLabs (userId ++ ":" ++ l._id) = none)
    (h1 : (d m.issued (m.dockerCmd ++ " image inspect " ++ img)).isOk = false)
    (h2 : d (m.issued ++ [m.dockerCmd ++ " image inspect " ++ img])
      (m.dockerCmd ++ " pull " ++ img) = ExecResult.fail e) :
    startLabContainer d (some l) userId j now m =
      (Except.error e, { m with issued := m.issued ++
        [m.dockerCmd ++ " image inspect " ++ img, m.dockerCmd ++ " pull " ++ img] }) := by
  cases h1c : d m.issued (m.dockerCmd ++ " image inspect " ++ img) with
  | ok o e1 => rw [h1c] at h1; simp [ExecResult.isOk] at h1
  | fail e0 =>
    simp [startLabContainer, himg, hne, truthy, hget, _findFreeHttpPort, h1c, h2]

/-- Method `startLabContainer` for a key that is not tracked, once the image is
there: the outcome of the `run` command decides. -/
theorem startLabContainer_run (d : Driver) (l : Lab) (img userId : String)
    (j : Fin 1000) (now : Nat) (m : LabManager)
    (himg : l.dockerImage = some img) (hne : img ≠ "")
    (hget : JsMap.get m.activeLabs (userId ++ ":" ++ l._id) = none)
    (hpull : (d m.issued (m.dockerCmd ++ " image inspect " ++ img)).isOk = true ∨
      (d (m.issued ++ [m.dockerCmd ++ " image inspect " ++ img])
        (m.dockerCmd ++ " pull " ++ img)).isOk = true) :
    let name := _containerName l._id userId
    let port := probe ((JsMap.values m.activeLabs).map LabDetails.hostPort) (8082 + j.val)
    let details : LabDetails :=
      { id := name, status := "running", containerName := name, hostPort := port,
        internalPort := _inferInternalPort (some img), image := img,
        accessUrl := "http://localhost:" ++ toString port, startedAt := now }
    let hist := issuedBeforeRun d m img name
    startLabContainer d (some l) userId j now m =
      match d hist (runCmd m img name port) with
      | ExecResult.fail e =>
        (Except.error e, { m with issued := hist ++ [runCmd m img name port] })
      | ExecResult.ok _ _ =>
        (Except.ok details,
          { m with activeLabs := JsMap.set m.activeLabs (userId ++ ":" ++ l._id) details,
                   issued := hist ++ [runCmd m img name port] }) := by
  intro name port details hist
  cases h3 : d hist (runCmd m img name port) <;>
  cases h1 : d m.issued (m.dockerCmd ++ " image inspect " ++ img) <;>
  cases h2 : d (m.issued ++ [m.dockerCmd ++ " image inspect " ++ img])
      (m.dockerCmd ++ " pull " ++ img) <;>
  simp [h1, h2, ExecResult.isOk] at hpull <;>
  simp [hist, name, port, details, issuedBeforeRun, runCmd, h1, h2, ExecResult.isOk] at h3 ⊢ <;>
  simp [startLabContainer, himg, hne, truthy, hget,
    _findFreeHttpPort, baseHttpPort, h1, h2, h3]

/-- Method `startLabContainer` with a session tracked for the key returns it and
does nothing else. -/
theorem startLabContainer_tracked (d : Driver) (l : Lab) (img userId : String)
    (j : Fin 1000) (now : Nat) (m : LabManager) (s : LabDetails)
    (himg : l.dockerImage = some img) (hne : img ≠ "")
    (hget : JsMap.get m.activeLabs (userId ++ ":" ++ l._id) = some s) :
    startLabContainer d (some l) userId j now m = (Except.ok s, m) := by
  simp [startLabContainer, himg, hne, truthy, hget]

/-- Method `startLabContainer` without an image throws and does nothing else. -/
theorem startLabContainer_no_image (d : Driver) (lab : Option Lab) (userId : String)
    (j : Fin 1000) (now : Nat) (m : LabManager)
    (h : lab = none ∨ ∃ l, lab = some l ∧ (l.dockerImage = none ∨ l.dockerImage = some "")) :
    startLabContainer d lab userId j now m = (Except.error notContainerized, m) := by
  rcases h with rfl | ⟨l, rfl, h | h⟩
  · rfl
  · simp [startLabContainer, h]
  · simp [startLabContainer, h, truthy]

/-- Every lab either has no image or declares a non-empty one. -/
theorem lab_image_cases (lab : Option Lab) :
    (lab = none ∨ ∃ l, lab = some l ∧ (l.dockerImage = none ∨ l.dockerImage = some "")) ∨
    ∃ l img, lab = some l ∧ l.dockerImage = some img ∧ img ≠ "" := by
  cases lab with
  | none => exact Or.inl (Or.inl rfl)
  | some l =>
    cases himg : l.dockerImage with
    | none => exact Or.inl (Or.inr ⟨l, rfl, Or.inl himg⟩)
    | some img =>
      by_cases hne : img = ""
      · exact Or.inl (Or.inr ⟨l, rfl, Or.inr (by rw [himg, hne])⟩)
      · exact Or.inr ⟨l, img, rfl, himg, hne⟩

/-- The registry after `startLabContainer`: unchanged, or extended at a key that
was not tracked by a session on the port the allocator chose. -/
theorem startLabContainer_registry (d : Driver) (lab : Option Lab) (userId : String)
    (j : Fin 1000) (now : Nat) (m : LabManager) :
    (startLabContainer d lab userId j now m).2.activeLabs = m.activeLabs ∨
    ∃ key details, JsMap.get m.activeLabs key = none ∧
      details.hostPort =
        probe ((JsMap.values m.activeLabs).map LabDetails.hostPort) (8082 + j.val) ∧
      (startLabContainer d lab userId j now m).2.activeLabs =
        JsMap.set m.activeLabs key details := by
  rcases lab_image_cases lab with h | ⟨l, img, rfl, himg, hne⟩
  · rw [startLabContainer_no_image d lab userId j now m h]
    exact Or.inl rfl
  · cases hget : JsMap.get m.activeLabs (userId ++ ":" ++ l._id) with
    | some s =>
      rw [startLabContainer_tracked d l img userId j now m s himg hne hget]
      exact Or.inl rfl
    | none =>
      by_cases hpull : (d m.issued (m.dockerCmd ++ " image inspect " ++ img)).isOk = true ∨
        (d (m.issued ++ [m.dockerCmd ++ " image inspect " ++ img])
          (m.dockerCmd ++ " pull " ++ img)).isOk = true
      · have h := startLabContainer_run d l img userId j now m himg hne hget hpull
        simp only at h
        rw [h]
        split
        · exact Or.inl rfl
        · exact Or.inr ⟨_, _, hget, rfl, rfl⟩
      · have h1 : (d m.issued (m.dockerCmd ++ " image inspect " ++ img)).isOk = false := by
          cases hc : (d m.issued (m.dockerCmd ++ " image inspect " ++ img)).isOk
          · rfl
          · exact absurd (Or.inl hc) hpull
        cases h2 : d (m.issued ++ [m.dockerCmd ++ " image inspect " ++ img])
          (m.dockerCmd ++ " pull " ++ img) with
        | ok o e1 => exact absurd (Or.inr (by rw [h2]; rfl)) hpull
        | fail e =>
          rw [startLabContainer_pull_failed d l img userId j now m e himg hne hget h1 h2]
          exact Or.inl rfl

/-- Method `stopLabContainer`, whatever the runtime answers. -/
theorem stopLabContainer_eq (d : Driver) (labId userId : String) (m : LabManager) :
    stopLabContainer d labId userId m =
      (Except.ok { success := true },
        { m with
          activeLabs := JsMap.delete m.activeLabs (userId ++ ":" ++ labId)
          issued := m.issued ++ [m.dockerCmd ++ " rm -f " ++
            (match JsMap.get m.activeLabs (userId ++ ":" ++ labId) with
              | some info => info.containerName
              | none => _containerName labId userId)] }) := by
  simp [stopLabContainer]

/-- Method `getStatus` for a key that is not tracked. -/
theorem getStatus_untracked (d : Driver) (labId userId : String) (m : LabManager)
    (h : JsMap.get m.activeLabs (userId ++ ":" ++ labId) = none) :
    getStatus d labId userId m = (Except.ok (LabStatus.bare "stopped"), m) := by
  simp [getStatus, h]

/-- The registry after `getStatus`: unchanged, or without the key. -/
theorem getStatus_registry (d : Driver) (labId userId : String) (m : LabManager) :
    (getStatus d labId userId m).2.activeLabs = m.activeLabs ∨
    (getStatus d labId userId m).2.activeLabs =
      JsMap.delete m.activeLabs (userId ++ ":" ++ labId) := by
  cases hget : JsMap.get m.activeLabs (userId ++ ":" ++ labId) with
  | none => rw [getStatus_untracked d labId userId m hget]; exact Or.inl rfl
  | some info =>
    cases h : d m.issued (m.dockerCmd ++
      " inspect -f \x27\x7b\x7b.State.Running\x7d\x7d\x27 " ++ info.containerName) <;>
    simp [getStatus, hget, Eff.attempt, h]

/-- The registry after `executeCommand` is the registry before. -/
theorem executeCommand_registry (d : Driver) (labId userId command : String)
    (m : LabManager) :
    (executeCommand d labId userId command m).2.activeLabs = m.activeLabs := by
  cases hget : JsMap.get m.activeLabs (userId ++ ":" ++ labId) with
  | none => simp [executeCommand, hget]
  | some info =>
    cases h : d m.issued (m.dockerCmd ++ " exec " ++ info.containerName ++ " /bin/sh -c " ++
      jsonStringify command) <;>
    simp [executeCommand, hget, Eff.attempt, h]

end LabManager

namespace VMManager

/-- A natural number is among the held ports when some session has it as its
`sshPort`. -/
theorem mem_heldSshPorts (vs : List VMDetails) (q : Nat) :
    q ∈ heldSshPorts vs ↔ ∃ v ∈ vs, v.sshPort = JsNumber.int (q : Int) := by
  unfold heldSshPorts
  rw [List.mem_filterMap]
  constructor
  · rintro ⟨v, hv, h⟩
    refine ⟨v, hv, ?_⟩
    cases hs : v.sshPort with
    | int n =>
      rw [hs] at h
      simp only at h
      by_cases h0 : 0 ≤ n
      · rw [if_pos h0] at h
        have := Option.some.inj h
        congr 1
        omega
      · rw [if_neg h0] at h
        cases h
    | infinity b =>
      rw [hs] at h
      cases h
  · rintro ⟨v, hv, h⟩
    refine ⟨v, hv, ?_⟩
    rw [h]
    simp

/-- The test of the loop of `_findFreePort` on the sessions is the test of
`probe` on the held ports. -/
theorem heldSshPorts_any (vs : List VMDetails) (port : Nat) :
    (heldSshPorts vs).any (fun p => p == port) =
      vs.any (fun v => v.sshPort == JsNumber.int (port : Int)) := by
  rw [Bool.eq_iff_iff, mem_of_any_beq, mem_heldSshPorts]
  simp [List.any_eq_true]

/-- Statement `const { stdout, stderr } = await execPromise(cmd)`, then `f`. -/
@[simp] theorem vm_andThen_exec {β : Type} (d : Driver) (cmd : String)
    (f : String × String → Eff VMManager β) (m : VMManager) :
    Eff.andThen (execPromise d cmd) f m =
      match d m.issued cmd with
      | ExecResult.ok out err => f (out, err) { m with issued := m.issued ++ [cmd] }
      | ExecResult.fail e => (Except.error e, { m with issued := m.issued ++ [cmd] }) := by
  cases h : d m.issued cmd <;> simp [Eff.andThen, execPromise, h]

/-- Statement `await execPromise(cmd)`, then `f`. -/
@[simp] theorem vm_andThen_discard_exec {β : Type} (d : Driver) (cmd : String)
    (f : PUnit → Eff VMManager β) (m : VMManager) :
    Eff.andThen (discard (execPromise d cmd)) f m =
      match d m.issued cmd with
      | ExecResult.ok _ _ => f PUnit.unit { m with issued := m.issued ++ [cmd] }
      | ExecResult.fail e => (Except.error e, { m with issued := m.issued ++ [cmd] }) := by
  cases h : d m.issued cmd <;> simp [Eff.andThen, execPromise, h]

/-- Statement `try { await execPromise(cmd) } catch (err) {}`, then `f`. -/
@[simp] theorem vm_andThen_ignored_exec {β : Type} (d : Driver) (cmd : String)
    (f : PUnit → Eff VMManager β) (m : VMManager) :
    Eff.andThen (tryCatch (discard (execPromise d cmd)) (fun _ => pure PUnit.unit)) f m =
      f PUnit.unit { m with issued := m.issued ++ [cmd] } := by
  cases h : d m.issued cmd <;> simp [Eff.andThen, Eff.attempt, execPromise, h]

/-- Method `stopKaliVM`, whatever the runtime answers. -/
theorem stopKaliVM_eq (d : Driver) (userId : String) (m : VMManager) :
    stopKaliVM d userId m =
      match JsMap.get m.activeVMs userId with
      | none => (Except.ok { success := true }, m)
      | some vm =>
        (Except.ok { success := true },
          { m with
            activeVMs := JsMap.delete m.activeVMs userId
            issued := m.issued ++ [m.dockerCmd ++ " rm -f " ++ vm.containerName] }) := by
  cases hget : JsMap.get m.activeVMs userId <;>
    simp [stopKaliVM, stopKaliVMBody, Eff.attempt, hget]

end VMManager

/-- A common front part does not matter to `isPrefixOf`. -/
theorem isPrefixOf_append_left (l a b : List Char) :
    (l ++ a).isPrefixOf (l ++ b) = a.isPrefixOf b := by
  induction l with
  | nil => rfl
  | cons c t ih => simp [List.isPrefixOf, ih]

/-- A remove command line is not a run command line. -/
theorem rm_not_isRunCmd (dockerCmd name : String) :
    isRunCmd dockerCmd (dockerCmd ++ " rm -f " ++ name) = false := by
  simp only [isRunCmd, String.data_append, List.append_assoc]
  rw [isPrefixOf_append_left]
  simp [List.isPrefixOf]

/-! ## The registry along a sequence of calls -/

/-- Recording a session under a key that is not tracked puts its port behind the
ports held so far. -/
theorem hostPorts_set_fresh (m : JsMap LabDetails) (key : String) (details : LabDetails)
    (hget : JsMap.get m key = none) :
    (JsMap.values (JsMap.set m key details)).map LabDetails.hostPort =
      (JsMap.values m).map LabDetails.hostPort ++ [details.hostPort] := by
  rw [JsMap.set_of_get_none m key details hget]
  simp [JsMap.values]

/-- Deleting a key keeps distinct ports distinct. -/
theorem hostPorts_delete_nodup (m : JsMap LabDetails) (key : String)
    (h : ((JsMap.values m).map LabDetails.hostPort).Nodup) :
    ((JsMap.values (JsMap.delete m key)).map LabDetails.hostPort).Nodup := by
  apply List.Nodup.sublist _ h
  unfold JsMap.values JsMap.delete
  exact (List.filter_sublist m).map _ |>.map _

/-- One call keeps the host ports of the tracked sessions pairwise distinct. -/
theorem perform_hostPorts_nodup (d : Driver) (c : LabCall) (m : LabManager)
    (h : ((JsMap.values m.activeLabs).map LabDetails.hostPort).Nodup) :
    ((JsMap.values (LabManager.perform d c m).activeLabs).map LabDetails.hostPort).Nodup := by
  cases c with
  | start lab userId j now =>
    simp only [LabManager.perform]
    rcases LabManager.startLabContainer_registry d lab userId j now m with
      h1 | ⟨key, details, hget, hport, h1⟩
    · rw [h1]; exact h
    · rw [h1, hostPorts_set_fresh m.activeLabs key details hget]
      apply List.Nodup.append h (List.nodup_singleton _)
      intro p hp hp2
      rw [List.mem_singleton] at hp2
      rw [hp2, hport] at hp
      exact probe_not_mem _ _ hp
  | stop labId userId =>
    simp only [LabManager.perform, LabManager.stopLabContainer_eq]
    exact hostPorts_delete_nodup _ _ h
  | status labId userId =>
    simp only [LabManager.perform]
    rcases LabManager.getStatus_registry d labId userId m with h1 | h1
    · rw [h1]; exact h
    · rw [h1]; exact hostPorts_delete_nodup _ _ h
  | exec labId userId command =>
    simp only [LabManager.perform, LabManager.executeCommand_registry]
    exact h

/-- A sequence of calls keeps the host ports pairwise distinct. -/
theorem runCalls_hostPorts_nodup (d : Driver) (calls : List LabCall) :
    ∀ m : LabManager, ((JsMap.values m.activeLabs).map LabDetails.hostPort).Nodup →
      ((JsMap.values (LabManager.runCalls d calls m).activeLabs).map
        LabDetails.hostPort).Nodup := by
  induction calls with
  | nil => intro m h; exact h
  | cons c t ih =>
    intro m h
    exact ih (LabManager.perform d c m) (perform_hostPorts_nodup d c m h)

/-! ## Claims -/

/-- C1: in every state of the `LabManager` reached from the empty registry by a
finite sequence of `startLabContainer`, `stopLabContainer`, `getStatus` and
`executeCommand` calls, each run to completion, under any driver and any jitter,
the `hostPort` values of the tracked sessions are pairwise distinct. -/
theorem reachable_hostPorts_distinct (d : Driver) (dockerCmd : String)
    (calls : List LabCall) :
    (JsMap.values (LabManager.runCalls d calls (LabManager.fresh dockerCmd)).activeLabs).Pairwise
      (fun a b => a.hostPort ≠ b.hostPort) :=
  List.pairwise_map.mp
    (runCalls_hostPorts_nodup d calls (LabManager.fresh dockerCmd) List.nodup_nil)


/-- C2: the port allocators return the least free port from `base + j` on. For
every set of tracked sessions and every jitter `j`, `_findFreeHttpPort` (base
8082) and `_findFreePort` (base 22220) return, without changing the manager, a
port `p` with `base + j ≤ p` that no tracked session holds, and `p ≤ q` for every
`q ≥ base + j` that no tracked session holds. -/
theorem findFreePort_least_free (lm : LabManager) (vm : VMManager) (j : Fin 1000) :
    (∃ p, LabManager._findFreeHttpPort j lm = (Except.ok p, lm) ∧
      8082 + j.val ≤ p ∧
      (∀ v ∈ JsMap.values lm.activeLabs, v.hostPort ≠ p) ∧
      ∀ q, 8082 + j.val ≤ q → (∀ v ∈ JsMap.values lm.activeLabs, v.hostPort ≠ q) → p ≤ q) ∧
    (∃ p, VMManager._findFreePort j vm = (Except.ok p, vm) ∧
      22220 + j.val ≤ p ∧
      (∀ v ∈ JsMap.values vm.activeVMs, v.sshPort ≠ JsNumber.int (p : Int)) ∧
      ∀ q : Nat, 22220 + j.val ≤ q →
        (∀ v ∈ JsMap.values vm.activeVMs, v.sshPort ≠ JsNumber.int (q : Int)) → p ≤ q) := by
  constructor
  · refine ⟨probe ((JsMap.values lm.activeLabs).map LabDetails.hostPort)
      (LabManager.baseHttpPort + j.val), ?_, ?_, ?_, ?_⟩
    · simp [LabManager._findFreeHttpPort, Eff.andThen]
    · exact probe_ge _ _
    · intro v hv hp
      exact probe_not_mem ((JsMap.values lm.activeLabs).map LabDetails.hostPort)
        (LabManager.baseHttpPort + j.val) (hp ▸ List.mem_map_of_mem _ hv)
    · intro q hq hfree
      apply probe_le _ _ q hq
      intro hm
      obtain ⟨v, hv, hvq⟩ := List.mem_map.mp hm
      exact hfree v hv hvq
  · refine ⟨probe (VMManager.heldSshPorts (JsMap.values vm.activeVMs))
      (VMManager.baseSshPort + j.val), ?_, ?_, ?_, ?_⟩
    · simp [VMManager._findFreePort, Eff.andThen]
    · exact probe_ge _ _
    · intro v hv hp
      exact probe_not_mem (VMManager.heldSshPorts (JsMap.values vm.activeVMs))
        (VMManager.baseSshPort + j.val)
        ((VMManager.mem_heldSshPorts _ _).mpr ⟨v, hv, hp⟩)
    · intro q hq hfree
      apply probe_le _ _ q hq
      intro hm
      obtain ⟨v, hv, hvq⟩ := (VMManager.mem_heldSshPorts _ _).mp hm
      exact hfree v hv hvq

/-- C3: with a session tracked for the key `userId:lab._id` and a lab that
declares an image, `startLabContainer` returns exactly the tracked session,
issues no driver command and leaves the manager as it was; and from any state, a
second `startLabContainer` right after one that returned a record returns the
same record (same `hostPort`, same `containerName`) and changes nothing. -/
theorem startLabContainer_idempotent (d : Driver) (l : Lab) (img userId : String)
    (j : Fin 1000) (now : Nat) (m : LabManager) (s : LabDetails)
    (himg : l.dockerImage = some img) (hne : img ≠ "")
    (hget : JsMap.get m.activeLabs (userId ++ ":" ++ l._id) = some s) :
    LabManager.startLabContainer d (some l) userId j now m = (Except.ok s, m) ∧
    ∀ (m0 m1 : LabManager) (j0 j1 : Fin 1000) (now0 now1 : Nat) (r : LabDetails),
      LabManager.startLabContainer d (some l) userId j0 now0 m0 = (Except.ok r, m1) →
      LabManager.startLabContainer d (some l) userId j1 now1 m1 = (Except.ok r, m1) := by
  refine ⟨LabManager.startLabContainer_tracked d l img userId j now m s himg hne hget, ?_⟩
  intro m0 m1 j0 j1 now0 now1 r h0
  apply LabManager.startLabContainer_tracked d l img userId j1 now1 m1 r himg hne
  cases hg : JsMap.get m0.activeLabs (userId ++ ":" ++ l._id) with
  | some s0 =>
    rw [LabManager.startLabContainer_tracked d l img userId j0 now0 m0 s0 himg hne hg] at h0
    simp only [Prod.mk.injEq, Except.ok.injEq] at h0
    rw [← h0.1, ← h0.2]
    exact hg
  | none =>
    by_cases hpull : (d m0.issued (m0.dockerCmd ++ " image inspect " ++ img)).isOk = true ∨
      (d (m0.issued ++ [m0.dockerCmd ++ " image inspect " ++ img])
        (m0.dockerCmd ++ " pull " ++ img)).isOk = true
    · have h := LabManager.startLabContainer_run d l img userId j0 now0 m0 himg hne hg hpull
      simp only at h
      rw [h] at h0
      split at h0
      · simp at h0
      · simp only [Prod.mk.injEq, Except.ok.injEq] at h0
        rw [← h0.1, ← h0.2]
        exact JsMap.get_set_self _ _ _
    · have h1 : (d m0.issued (m0.dockerCmd ++ " image inspect " ++ img)).isOk = false := by
        cases hc : (d m0.issued (m0.dockerCmd ++ " image inspect " ++ img)).isOk
        · rfl
        · exact absurd (Or.inl hc) hpull
      cases h2 : d (m0.issued ++ [m0.dockerCmd ++ " image inspect " ++ img])
        (m0.dockerCmd ++ " pull " ++ img) with
      | ok o e1 => exact absurd (Or.inr (by rw [h2]; rfl)) hpull
      | fail e =>
        rw [LabManager.startLabContainer_pull_failed d l img userId j0 now0 m0 e himg hne hg
          h1 h2] at h0
        simp at h0

/-- C4: when `lab` is missing, or its `dockerImage` is missing or empty,
`startLabContainer` throws the not-containerized error, issues no driver command
and leaves the registry, and the whole manager, as it was. -/
theorem startLabContainer_not_containerized (d : Driver) (lab : Option Lab)
    (userId : String) (j : Fin 1000) (now : Nat) (m : LabManager)
    (h : lab = none ∨ ∃ l, lab = some l ∧ (l.dockerImage = none ∨ l.dockerImage = some "")) :
    LabManager.startLabContainer d lab userId j now m =
      (Except.error LabManager.notContainerized, m) :=
  LabManager.startLabContainer_no_image d lab userId j now m h

/-- C5: for a key that is not tracked and a lab with an image, when the image
inspect or else the pull succeeds and the detached run succeeds,
`startLabContainer` returns a record with status `running`, `containerName` equal
to `_containerName(lab._id, userId)`, `hostPort` the port `_findFreeHttpPort`
gives on the registry at call time, and `accessUrl` equal to `http://localhost:`
followed by the decimal `hostPort`; afterwards the registry maps the key to that
record and every other key as before. -/
theorem startLabContainer_success (d : Driver) (l : Lab) (img userId : String)
    (j : Fin 1000) (now : Nat) (m : LabManager)
    (himg : l.dockerImage = some img) (hne : img ≠ "")
    (hget : JsMap.get m.activeLabs (userId ++ ":" ++ l._id) = none)
    (hpull : (d m.issued (m.dockerCmd ++ " image inspect " ++ img)).isOk = true ∨
      (d (m.issued ++ [m.dockerCmd ++ " image inspect " ++ img])
        (m.dockerCmd ++ " pull " ++ img)).isOk = true)
    (hrun : (d (LabManager.issuedBeforeRun d m img (LabManager._containerName l._id userId))
      (LabManager.runCmd m img (LabManager._containerName l._id userId)
        (probe ((JsMap.values m.activeLabs).map LabDetails.hostPort) (8082 + j.val)))).isOk
        = true) :
    ∃ (r : LabDetails) (m1 : LabManager),
      LabManager.startLabContainer d (some l) userId j now m = (Except.ok r, m1) ∧
      r.status = "running" ∧
      r.containerName = LabManager._containerName l._id userId ∧
      LabManager._findFreeHttpPort j m = (Except.ok r.hostPort, m) ∧
      r.accessUrl = "http://localhost:" ++ toString r.hostPort ∧
      JsMap.get m1.activeLabs (userId ++ ":" ++ l._id) = some r ∧
      ∀ k, k ≠ userId ++ ":" ++ l._id → JsMap.get m1.activeLabs k = JsMap.get m.activeLabs k := by
  have h := LabManager.startLabContainer_run d l img userId j now m himg hne hget hpull
  simp only at h
  rw [h]
  split
  · rename_i e h3
    rw [h3] at hrun; simp [ExecResult.isOk] at hrun
  · refine ⟨_, _, rfl, rfl, rfl, ?_, rfl, ?_, ?_⟩
    · simp [LabManager._findFreeHttpPort, LabManager.baseHttpPort]
    · exact JsMap.get_set_self _ _ _
    · intro k hk
      exact JsMap.get_set_of_ne _ _ _ _ hk

/-- C6: for a key that is not tracked and a lab with an image, when the image
inspect and the pull both fail, or the detached run fails, with error `e`,
`startLabContainer` throws `e` and the registry afterwards is the registry before
the call, so no session is recorded for the key. -/
theorem startLabContainer_failure (d : Driver) (l : Lab) (img userId : String)
    (j : Fin 1000) (now : Nat) (m : LabManager) (e : JsError)
    (himg : l.dockerImage = some img) (hne : img ≠ "")
    (hget : JsMap.get m.activeLabs (userId ++ ":" ++ l._id) = none)
    (hfail :
      ((d m.issued (m.dockerCmd ++ " image inspect " ++ img)).isOk = false ∧
        d (m.issued ++ [m.dockerCmd ++ " image inspect " ++ img])
          (m.dockerCmd ++ " pull " ++ img) = ExecResult.fail e) ∨
      (((d m.issued (m.dockerCmd ++ " image inspect " ++ img)).isOk = true ∨
          (d (m.issued ++ [m.dockerCmd ++ " image inspect " ++ img])
            (m.dockerCmd ++ " pull " ++ img)).isOk = true) ∧
        d (LabManager.issuedBeforeRun d m img (LabManager._containerName l._id userId))
          (LabManager.runCmd m img (LabManager._containerName l._id userId)
            (probe ((JsMap.values m.activeLabs).map LabDetails.hostPort) (8082 + j.val)))
          = ExecResult.fail e)) :
    (LabManager.startLabContainer d (some l) userId j now m).1 = Except.error e ∧
    (LabManager.startLabContainer d (some l) userId j now m).2.activeLabs = m.activeLabs ∧
    JsMap.get (LabManager.startLabContainer d (some l) userId j now m).2.activeLabs
      (userId ++ ":" ++ l._id) = none := by
  rcases hfail with ⟨h1, h2⟩ | ⟨hp, h3⟩
  · rw [LabManager.startLabContainer_pull_failed d l img userId j now m e himg hne hget h1 h2]
    exact ⟨rfl, rfl, hget⟩
  · have h := LabManager.startLabContainer_run d l img userId j now m himg hne hget hp
    simp only at h
    rw [h, h3]
    exact ⟨rfl, rfl, hget⟩

/-- Witness of C3: user `U1` and lab `R1`, tracked. -/
theorem startLabContainer_idempotent_witness :
    labR1.dockerImage = some "img:tag" ∧ "img:tag" ≠ "" ∧
    JsMap.get trackingR1.activeLabs ("U1" ++ ":" ++ labR1._id) = some sessionR1 ∧
    LabManager.startLabContainer okDriver (some labR1) "U1" 7 9 trackingR1 =
      (Except.ok sessionR1, trackingR1) :=
  ⟨by decide, by decide, by decide,
    (startLabContainer_idempotent okDriver labR1 "img:tag" "U1" 7 9 trackingR1 sessionR1
      (by decide) (by decide) (by decide)).1⟩

/-- Witness of C4: no lab at all. -/
theorem startLabContainer_not_containerized_witness :
    ((none : Option Lab) = none ∨
      ∃ l, (none : Option Lab) = some l ∧ (l.dockerImage = none ∨ l.dockerImage = some "")) ∧
    LabManager.startLabContainer okDriver none "U1" 0 0 trackingR1 =
      (Except.error LabManager.notContainerized, trackingR1) :=
  ⟨Or.inl rfl,
    startLabContainer_not_containerized okDriver none "U1" 0 0 trackingR1 (Or.inl rfl)⟩

/-- Witness of C5: user `U2` starts lab `R1` while `U1` holds port 8082, on a
runtime where every command succeeds. -/
theorem startLabContainer_success_witness :
    labR1.dockerImage = some "img:tag" ∧ "img:tag" ≠ "" ∧
    JsMap.get trackingR1.activeLabs ("U2" ++ ":" ++ labR1._id) = none ∧
    ∃ (r : LabDetails) (m1 : LabManager),
      LabManager.startLabContainer okDriver (some labR1) "U2" 0 5 trackingR1 =
        (Except.ok r, m1) ∧
      r.status = "running" ∧
      r.containerName = LabManager._containerName labR1._id "U2" ∧
      LabManager._findFreeHttpPort 0 trackingR1 = (Except.ok r.hostPort, trackingR1) ∧
      r.accessUrl = "http://localhost:" ++ toString r.hostPort ∧
      JsMap.get m1.activeLabs ("U2" ++ ":" ++ labR1._id) = some r ∧
      ∀ k, k ≠ "U2" ++ ":" ++ labR1._id →
        JsMap.get m1.activeLabs k = JsMap.get trackingR1.activeLabs k :=
  ⟨by decide, by decide, by decide,
    startLabContainer_success okDriver labR1 "img:tag" "U2" 0 5 trackingR1
      (by decide) (by decide) (by decide) (Or.inl (by decide)) (by decide)⟩

/-- Witness of C6: the `run` command fails. -/
theorem startLabContainer_failure_witness :
    labR1.dockerImage = some "img:tag" ∧ "img:tag" ≠ "" ∧
    JsMap.get trackingR1.activeLabs ("U2" ++ ":" ++ labR1._id) = none ∧
    (LabManager.startLabContainer runFailDriver (some labR1) "U2" 0 5 trackingR1).1 =
      Except.error (newError "Command failed: docker run") ∧
    (LabManager.startLabContainer runFailDriver (some labR1) "U2" 0 5 trackingR1).2.activeLabs =
      trackingR1.activeLabs ∧
    JsMap.get (LabManager.startLabContainer runFailDriver (some labR1) "U2" 0 5
      trackingR1).2.activeLabs ("U2" ++ ":" ++ labR1._id) = none :=
  ⟨by decide, by decide, by decide,
    startLabContainer_failure runFailDriver labR1 "img:tag" "U2" 0 5 trackingR1
      (newError "Command failed: docker run") (by decide) (by decide) (by decide)
      (Or.inr ⟨Or.inl (by decide), by decide⟩)⟩

set_option maxRecDepth 100000 in
/-- C7, at a failing input: on a runtime where the container of `u1` exits right
after `docker run`, `startKaliVM` on the empty registry throws, yet the registry
afterwards tracks `u1` with status `running`, and the next `startKaliVM` returns
that stale record instead of provisioning again. -/
theorem startKaliVM_failure_leaves_session :
    (VMManager.startKaliVM VMManager.exitedDriver VMManager.readExited "u1" 0 0
      (VMManager.fresh "docker")).1 =
      Except.error (newError ("Failed to start containerized VM: " ++
        "Container failed to start properly: Container was created but failed to start. " ++
        "Inspect: Status=exited; ExitCode=1; OOMKilled=false; Error=n/a. " ++
        "Logs: no logs available")) ∧
    JsMap.get (VMManager.startKaliVM VMManager.exitedDriver VMManager.readExited "u1" 0 0
      (VMManager.fresh "docker")).2.activeVMs "u1" = some VMManager.staleDetails ∧
    (VMManager.startKaliVM VMManager.exitedDriver VMManager.readExited "u1" 3 8
      (VMManager.startKaliVM VMManager.exitedDriver VMManager.readExited "u1" 0 0
        (VMManager.fresh "docker")).2).1 = Except.ok VMManager.staleDetails := by
  decide

/-- C8: for every registry, key and driver, `stopLabContainer` and `stopKaliVM`
do not throw and return `{success: true}`; afterwards the registry has no session
for the key, and every other key maps to what it mapped to before. -/
theorem stop_always_succeeds (d : Driver) (lm : LabManager) (vm : VMManager)
    (labId userId : String) :
    ((LabManager.stopLabContainer d labId userId lm).1 = Except.ok { success := true } ∧
      JsMap.get (LabManager.stopLabContainer d labId userId lm).2.activeLabs
        (userId ++ ":" ++ labId) = none ∧
      ∀ k, k ≠ userId ++ ":" ++ labId →
        JsMap.get (LabManager.stopLabContainer d labId userId lm).2.activeLabs k =
          JsMap.get lm.activeLabs k) ∧
    ((VMManager.stopKaliVM d userId vm).1 = Except.ok { success := true } ∧
      JsMap.get (VMManager.stopKaliVM d userId vm).2.activeVMs userId = none ∧
      ∀ k, k ≠ userId →
        JsMap.get (VMManager.stopKaliVM d userId vm).2.activeVMs k =
          JsMap.get vm.activeVMs k) := by
  constructor
  · rw [LabManager.stopLabContainer_eq]
    exact ⟨rfl, JsMap.get_delete_self _ _, fun k hk => JsMap.get_delete_of_ne _ _ _ hk⟩
  · rw [VMManager.stopKaliVM_eq]
    cases hget : JsMap.get vm.activeVMs userId with
    | none => exact ⟨rfl, hget, fun _ _ => rfl⟩
    | some v =>
      exact ⟨rfl, JsMap.get_delete_self _ _, fun k hk => JsMap.get_delete_of_ne _ _ _ hk⟩

/-- C9 as stated fails: for user `u1`, not tracked, the claim has `stopKaliVM`
issue the remove of the recomputed name `edusec_kali_u1`; the method issues no
command at all. -/
theorem stopKaliVM_untracked_no_remove :
    (VMManager.stopKaliVM okDriver "u1" (VMManager.fresh "docker")).2.issued = [] ∧
    (VMManager.stopKaliVM okDriver "u1" (VMManager.fresh "docker")).2.issued ≠
      (VMManager.fresh "docker").issued ++ ["docker rm -f edusec_kali_u1"] := by
  decide

/-- C9, amended: `stopLabContainer` issues exactly one driver command, the remove
of the tracked session's `containerName` when the key is tracked and of the
recomputed `_containerName(labId, userId)` otherwise; `stopKaliVM` issues exactly
one driver command, the remove of the tracked session's `containerName`, when the
user is tracked, and no driver command when the user is not tracked; no command
either of them issues is a run command. -/
theorem stop_issues_remove (d : Driver) (lm : LabManager) (vm : VMManager)
    (labId userId : String) :
    (LabManager.stopLabContainer d labId userId lm).2.issued =
      lm.issued ++ [lm.dockerCmd ++ " rm -f " ++
        (match JsMap.get lm.activeLabs (userId ++ ":" ++ labId) with
          | some info => info.containerName
          | none => LabManager._containerName labId userId)] ∧
    (VMManager.stopKaliVM d userId vm).2.issued =
      (match JsMap.get vm.activeVMs userId with
        | some v => vm.issued ++ [vm.dockerCmd ++ " rm -f " ++ v.containerName]
        | none => vm.issued) ∧
    (∀ c, (LabManager.stopLabContainer d labId userId lm).2.issued = lm.issued ++ [c] →
      isRunCmd lm.dockerCmd c = false) ∧
    (∀ c, (VMManager.stopKaliVM d userId vm).2.issued = vm.issued ++ [c] →
      isRunCmd vm.dockerCmd c = false) := by
  refine ⟨?_, ?_, ?_, ?_⟩
  · rw [LabManager.stopLabContainer_eq]
  · rw [VMManager.stopKaliVM_eq]
    cases JsMap.get vm.activeVMs userId <;> rfl
  · intro c hc
    rw [LabManager.stopLabContainer_eq] at hc
    have hc2 := List.append_cancel_left hc
    simp only [List.cons.injEq, and_true] at hc2
    rw [← hc2]
    exact rm_not_isRunCmd _ _
  · intro c hc
    rw [VMManager.stopKaliVM_eq] at hc
    cases hget : JsMap.get vm.activeVMs userId with
    | none =>
      rw [hget] at hc
      simp at hc
    | some v =>
      rw [hget] at hc
      have hc2 := List.append_cancel_left hc
      simp only [List.cons.injEq, and_true] at hc2
      rw [← hc2]
      exact rm_not_isRunCmd _ _

/-- C10: for a key with no tracked lab session, `getStatus` returns exactly
`{status: stopped}`, issues no driver command and leaves the registry, and the
whole manager, as it was. -/
theorem getStatus_untracked_stopped (d : Driver) (labId userId : String) (m : LabManager)
    (h : JsMap.get m.activeLabs (userId ++ ":" ++ labId) = none) :
    LabManager.getStatus d labId userId m = (Except.ok (LabStatus.bare "stopped"), m) :=
  LabManager.getStatus_untracked d labId userId m h

/-- Witness of C10: lab `R2` of user `U1`, not tracked. -/
theorem getStatus_untracked_stopped_witness :
    JsMap.get trackingR1.activeLabs ("U1" ++ ":" ++ "R2") = none ∧
    LabManager.getStatus okDriver "R2" "U1" trackingR1 =
      (Except.ok (LabStatus.bare "stopped"), trackingR1) :=
  ⟨by decide, getStatus_untracked_stopped okDriver "R2" "U1" trackingR1 (by decide)⟩

/-! ## Status and execute, by the outcomes of their commands -/

/-- A concatenation is empty when both parts are. -/
theorem append_eq_empty (a b : String) : a ++ b = "" ↔ a = "" ∧ b = "" := by
  constructor
  · intro h
    have h1 : (a ++ b).data = [] := by rw [h]
    rw [String.data_append, List.append_eq_nil] at h1
    exact ⟨String.ext h1.1, String.ext h1.2⟩
  · rintro ⟨rfl, rfl⟩
    rfl

namespace LabManager

/-- Method `getStatus` for a tracked key, by the outcome of the inspect. -/
theorem getStatus_tracked (d : Driver) (labId userId : String) (m : LabManager)
    (info : LabDetails) (hget : JsMap.get m.activeLabs (userId ++ ":" ++ labId) = some info) :
    getStatus d labId userId m =
      match d m.issued (m.dockerCmd ++
        " inspect -f \x27\x7b\x7b.State.Running\x7d\x7d\x27 " ++ info.containerName) with
      | ExecResult.ok out _ =>
        (Except.ok (LabStatus.full
            { info with status := if trim out == "true" then "running" else "stopped" }),
          { m with issued := m.issued ++ [m.dockerCmd ++
            " inspect -f \x27\x7b\x7b.State.Running\x7d\x7d\x27 " ++ info.containerName] })
      | ExecResult.fail _ =>
        (Except.ok (LabStatus.bare "stopped"),
          { m with
            activeLabs := JsMap.delete m.activeLabs (userId ++ ":" ++ labId)
            issued := m.issued ++ [m.dockerCmd ++
              " inspect -f \x27\x7b\x7b.State.Running\x7d\x7d\x27 " ++ info.containerName] }) := by
  cases h : d m.issued (m.dockerCmd ++
      " inspect -f \x27\x7b\x7b.State.Running\x7d\x7d\x27 " ++ info.containerName) <;>
    simp [getStatus, hget, Eff.attempt, h]

/-- Method `executeCommand` for a key that is not tracked. -/
theorem executeCommand_untracked (d : Driver) (labId userId command : String)
    (m : LabManager) (hget : JsMap.get m.activeLabs (userId ++ ":" ++ labId) = none) :
    executeCommand d labId userId command m =
      (Except.error (newError "Lab container is not running. Please start the lab first."),
        m) := by
  simp [executeCommand, hget]

/-- Method `executeCommand` for a tracked key, by the outcome of the exec. -/
theorem executeCommand_tracked (d : Driver) (labId userId command : String)
    (m : LabManager) (info : LabDetails)
    (hget : JsMap.get m.activeLabs (userId ++ ":" ++ labId) = some info) :
    executeCommand d labId userId command m =
      (Except.ok
        (match d m.issued (m.dockerCmd ++ " exec " ++ info.containerName ++ " /bin/sh -c " ++
            jsonStringify command) with
          | ExecResult.ok stdout stderr =>
            { success := true
              output := if stdout ++ stderr = "" then "(no output)\r\n" else stdout ++ stderr }
          | ExecResult.fail e =>
            { success := false
              output := if truthy e.message then e.message else "Command execution failed" }),
        { m with issued := m.issued ++ [m.dockerCmd ++ " exec " ++ info.containerName ++
          " /bin/sh -c " ++ jsonStringify command] }) := by
  cases h : d m.issued (m.dockerCmd ++ " exec " ++ info.containerName ++ " /bin/sh -c " ++
      jsonStringify command) with
  | fail e => simp [executeCommand, hget, Eff.attempt, h]
  | ok stdout stderr =>
    by_cases h1 : stdout = "" <;> by_cases h2 : stderr = "" <;>
      simp [executeCommand, hget, Eff.attempt, h, truthy, h1, h2, append_eq_empty]

end LabManager

namespace VMManager

/-- Method `getVMStatus` for a tracked user, by the outcome of the inspect. -/
theorem getVMStatus_tracked (d : Driver) (userId : String) (j : Fin 1000) (now : Nat)
    (m : VMManager) (vm : VMDetails) (hget : JsMap.get m.activeVMs userId = some vm) :
    getVMStatus d userId j now m =
      match d m.issued (inspectRunningCmd m.dockerCmd vm.containerName) with
      | ExecResult.ok out _ =>
        (Except.ok (VMStatus.full
            { vm with status := if trim out == "true" then "running" else "stopped" }),
          { m with issued := m.issued ++ [inspectRunningCmd m.dockerCmd vm.containerName] })
      | ExecResult.fail _ =>
        (Except.ok (VMStatus.bare "stopped"),
          { m with
            activeVMs := JsMap.delete m.activeVMs userId
            issued := m.issued ++ [inspectRunningCmd m.dockerCmd vm.containerName] }) := by
  cases h : d m.issued (inspectRunningCmd m.dockerCmd vm.containerName) <;>
    simp [getVMStatus, getVMStatusInspect, hget, Eff.attempt, h]

/-- Method `executeCommand` for a user that is not tracked. -/
theorem vm_executeCommand_untracked (d : Driver) (userId command : String)
    (m : VMManager) (hget : JsMap.get m.activeVMs userId = none) :
    executeCommand d userId command m = (Except.error (newError "VM is not running"), m) := by
  simp [executeCommand, hget]

/-- Method `executeCommand` for a tracked user, by the outcome of the exec. -/
theorem vm_executeCommand_tracked (d : Driver) (userId command : String)
    (m : VMManager) (vm : VMDetails) (hget : JsMap.get m.activeVMs userId = some vm) :
    executeCommand d userId command m =
      (Except.ok
        (match d m.issued (m.dockerCmd ++ " exec " ++ vm.containerName ++ " bash -c " ++
            jsonStringify command) with
          | ExecResult.ok stdout stderr =>
            { success := true
              output := if truthy stdout then stdout else if truthy stderr then stderr else ""
              exitCode := if truthy stderr then JsCode.num 1 else JsCode.num 0 }
          | ExecResult.fail e =>
            { success := false
              output :=
                if truthy (orEmpty e.stderr) then orEmpty e.stderr
                else if truthy e.message then e.message
                else "Command execution failed"
              exitCode := codeOrOne e.code }),
        { m with issued := m.issued ++ [m.dockerCmd ++ " exec " ++ vm.containerName ++
          " bash -c " ++ jsonStringify command] }) := by
  cases h : d m.issued (m.dockerCmd ++ " exec " ++ vm.containerName ++ " bash -c " ++
      jsonStringify command) <;>
    simp [executeCommand, executeCommandTry, hget, Eff.attempt, h]

end VMManager

/-- A function applied to the result of `x`, then `f`. -/
@[simp] theorem Eff.andThen_map {σ α β γ : Type} (g : α → β) (x : Eff σ α)
    (f : β → Eff σ γ) (s : σ) :
    Eff.andThen (g <$> x) f s = Eff.andThen x (fun a => f (g a)) s := by
  show Eff.andThen (Eff.andThen x (fun a => Eff.ret (g a))) f s = _
  unfold Eff.andThen
  rcases x s with ⟨r, s1⟩
  cases r <;> rfl

/-- Statement `try { x } catch (e) { h e }`, then `f`. -/
theorem Eff.andThen_tryCatch {σ α β : Type} (x : Eff σ α) (h : JsError → Eff σ α)
    (f : α → Eff σ β) (s : σ) :
    Eff.andThen (tryCatch x h) f s =
      match x s with
      | (Except.ok a, s1) => f a s1
      | (Except.error e, s1) => Eff.andThen (h e) f s1 := by
  show Eff.andThen (Eff.attempt x h) f s = _
  unfold Eff.andThen Eff.attempt
  rcases x s with ⟨r, s1⟩
  cases r <;> rfl

namespace VMManager

/-- Method `getVMStatus` for a user that is not tracked, by the outcomes of its
commands. -/
theorem getVMStatus_untracked (d : Driver) (userId : String) (j : Fin 1000) (now : Nat)
    (m : VMManager) (hget : JsMap.get m.activeVMs userId = none) :
    let name := "edusec_kali_" ++ userId
    let c1 := inspectRunningCmd m.dockerCmd name
    let c2 := inspectPortsCmd m.dockerCmd name
    getVMStatus d userId j now m =
      match d m.issued c1 with
      | ExecResult.fail _ =>
        (Except.ok (VMStatus.bare "stopped"), { m with issued := m.issued ++ [c1] })
      | ExecResult.ok out _ =>
        if trim out = "true" then
          match d (m.issued ++ [c1]) c2 with
          | ExecResult.fail _ =>
            (Except.ok (VMStatus.bare "stopped"), { m with issued := m.issued ++ [c1, c2] })
          | ExecResult.ok portOut _ =>
            let fresh : JsNumber :=
              JsNumber.int (Int.ofNat
                (probe (heldSshPorts (JsMap.values m.activeVMs)) (baseSshPort + j.val)))
            let sshPort : JsNumber :=
              match parseInt (firstLine (trim portOut)) with
              | some n => if n ≠ JsNumber.int 0 then n else fresh
              | none => fresh
            let recovered : VMDetails :=
              { id := name, status := "running", containerName := name, sshPort := sshPort,
                startedAt := now }
            (Except.ok (VMStatus.full recovered),
              { m with activeVMs := JsMap.set m.activeVMs userId recovered
                       issued := m.issued ++ [c1, c2] })
        else
          (Except.ok (VMStatus.bare "stopped"),
            { m with issued := m.issued ++ [c1, m.dockerCmd ++ " rm -f " ++ name] }) := by
  intro name c1 c2
  simp only [name, c1, c2]
  cases h1 : d m.issued (inspectRunningCmd m.dockerCmd ("edusec_kali_" ++ userId)) with
  | fail e =>
    simp [getVMStatus, getVMStatusRecover, hget, Eff.andThen_tryCatch, h1]
  | ok out err =>
    by_cases hrun : trim out = "true"
    · cases h2 : d (m.issued ++ [inspectRunningCmd m.dockerCmd ("edusec_kali_" ++ userId)])
          (inspectPortsCmd m.dockerCmd ("edusec_kali_" ++ userId)) with
      | fail e =>
        simp [getVMStatus, getVMStatusRecover, hget, Eff.andThen_tryCatch, h1, h2, hrun]
      | ok portOut err2 =>
        cases hp : parseInt (firstLine (trim portOut)) with
        | none =>
          simp [getVMStatus, getVMStatusRecover, hget, Eff.andThen_tryCatch, h1, h2, hrun,
            hp, _findFreePort]
        | some n =>
          by_cases hn : n = JsNumber.int 0
          · simp [getVMStatus, getVMStatusRecover, hget, Eff.andThen_tryCatch, h1, h2,
              hrun, hp, hn, _findFreePort]
          · simp [getVMStatus, getVMStatusRecover, hget, Eff.andThen_tryCatch, h1, h2,
              hrun, hp, hn, _findFreePort]
    · cases h3 : d (m.issued ++ [inspectRunningCmd m.dockerCmd ("edusec_kali_" ++ userId)])
          (m.dockerCmd ++ " rm -f " ++ ("edusec_kali_" ++ userId)) <;>
        simp [getVMStatus, getVMStatusRecover, hget, Eff.andThen_tryCatch, h1, h3, hrun]

end VMManager

/-! ## What `startKaliVM` returns -/

namespace VMManager

/-- The diagnostics block of `startKaliVM` returns nothing but the record it was
given. -/
theorem verifyNotRunning_result (d : Driver) (readInspect : String → Option (String × Bool))
    (dockerCmd name : String) (vmDetails r : VMDetails) (s : VMManager)
    (h : (verifyNotRunning d readInspect dockerCmd name vmDetails s).1 = Except.ok r) :
    r = vmDetails := by
  unfold verifyNotRunning at h
  simp only [Eff.bind_apply, Eff.andThen_tryCatch, vm_andThen_exec] at h
  cases h1 : d s.issued (dockerCmd ++ " inspect " ++ name) with
  | fail e =>
    simp [h1, Eff.andThen_tryCatch] at h
    split at h <;> simp at h
  | ok out err =>
    cases h2 : readInspect out with
    | none =>
      simp [h1, h2, Eff.andThen_tryCatch] at h
      split at h <;> simp at h
    | some p =>
      obtain ⟨diag, early⟩ := p
      cases early with
      | true =>
        simp [h1, h2] at h
        exact h.symm
      | false =>
        simp [h1, h2, Eff.andThen_tryCatch] at h
        split at h <;> simp at h

end VMManager

namespace VMManager

/-- Statement `await x` with the result dropped, then `f`. -/
theorem andThen_discard {σ α β : Type} (x : Eff σ α) (f : PUnit → Eff σ β) (s : σ) :
    Eff.andThen (discard x) f s = Eff.andThen x (fun _ => f PUnit.unit) s := by
  show Eff.andThen (Eff.andThen x (fun _ => Eff.ret PUnit.unit)) f s = _
  unfold Eff.andThen
  rcases x s with ⟨r, s1⟩
  cases r <;> rfl

/-- Statement `try { await execPromise(c1) } catch (err) { await execPromise(c2) }`,
then `f`. -/
theorem vm_andThen_fallback_exec {β : Type} (d : Driver) (c1 c2 : String)
    (f : PUnit → Eff VMManager β) (m : VMManager) :
    Eff.andThen (tryCatch (discard (execPromise d c1)) (fun _ => discard (execPromise d c2))) f m =
      match d m.issued c1 with
      | ExecResult.ok _ _ => f PUnit.unit { m with issued := m.issued ++ [c1] }
      | ExecResult.fail _ =>
        match d (m.issued ++ [c1]) c2 with
        | ExecResult.ok _ _ => f PUnit.unit { m with issued := m.issued ++ [c1] ++ [c2] }
        | ExecResult.fail e => (Except.error e, { m with issued := m.issued ++ [c1] ++ [c2] }) := by
  cases h : d m.issued c1 <;> cases h2 : d (m.issued ++ [c1]) c2 <;>
    simp [Eff.andThen, Eff.attempt, execPromise, h, h2]

/-- The verification `try` block of `startKaliVM` returns nothing but the record
that was stored. -/
theorem verification_result (d : Driver) (readInspect : String → Option (String × Bool))
    (dockerCmd name : String) (vmDetails r : VMDetails) (s : VMManager)
    (h : (Eff.attempt
      (do
        let (runningCheck, _) ← execPromise d (inspectRunningCmd dockerCmd name)
        let isRunningFlag := includes (toLowerCase (trim runningCheck)) "true"
        if !isRunningFlag then
          verifyNotRunning d readInspect dockerCmd name vmDetails
        else
          pure vmDetails)
      (fun err =>
        throw (newError ("Container failed to start properly: " ++ messageOrSelf err))) s).1 =
      Except.ok r) :
    r = vmDetails := by
  unfold Eff.attempt at h
  split at h
  · rename_i a s1 hb
    simp only at h
    cases h
    simp only [Eff.bind_apply, vm_andThen_exec] at hb
    cases h1 : d s.issued (inspectRunningCmd dockerCmd name) with
    | fail e => simp [h1] at hb
    | ok out err =>
      simp only [h1] at hb
      by_cases hflag : includes (toLowerCase (trim out)) "true" = true
      · simp [hflag] at hb
        exact hb.1.symm
      · simp [hflag] at hb
        exact verifyNotRunning_result d readInspect dockerCmd name vmDetails r _
          (by rw [hb])
  · simp at h

/-- After the image is there, `startKaliVM` runs the container, stores the record
and verifies; what this returns is the record. -/
theorem runAndVerify_result (d : Driver) (readInspect : String → Option (String × Bool))
    (dockerCmd userId runCmd : String) (vmDetails r : VMDetails) (s s1 : VMManager)
    (h : (do
        discard (execPromise d runCmd)
        modify (fun m1 => { m1 with activeVMs := JsMap.set m1.activeVMs userId vmDetails })
        tryCatch
          (do
            let (runningCheck, _) ← execPromise d
              (inspectRunningCmd dockerCmd ("edusec_kali_" ++ userId))
            let isRunningFlag := includes (toLowerCase (trim runningCheck)) "true"
            if !isRunningFlag then
              verifyNotRunning d readInspect dockerCmd ("edusec_kali_" ++ userId) vmDetails
            else
              pure vmDetails)
          (fun err =>
            throw (newError ("Container failed to start properly: " ++ messageOrSelf err))) :
        Eff VMManager VMDetails) s = (Except.ok r, s1)) :
    r = vmDetails := by
  simp only [Eff.bind_apply, vm_andThen_discard_exec] at h
  split at h
  · simp only [Eff.andThen_modify, Eff.tryCatch_apply] at h
    exact verification_result d readInspect dockerCmd ("edusec_kali_" ++ userId) vmDetails r _
      (by rw [h])
  · simp at h

/-- What `startKaliVM` returns for a user that is not tracked is the record it
built, named `edusec_kali_` followed by the user id. -/
theorem startKaliVM_result (d : Driver) (readInspect : String → Option (String × Bool))
    (userId : String) (j : Fin 1000) (now : Nat) (m : VMManager) (r : VMDetails)
    (hget : JsMap.get m.activeVMs userId = none)
    (h : (startKaliVM d readInspect userId j now m).1 = Except.ok r) :
    r = { id := "edusec_kali_" ++ userId, status := "running",
          containerName := "edusec_kali_" ++ userId,
          sshPort := JsNumber.int (Int.ofNat (probe (heldSshPorts (JsMap.values m.activeVMs))
            (baseSshPort + j.val))),
          startedAt := now } := by
  simp only [startKaliVM, Eff.tryCatch_apply, Eff.attempt] at h
  split at h
  · rename_i a s1 hb
    simp only at h
    cases h
    simp only [startKaliVMBody, Eff.bind_apply, andThen_discard, _checkDockerConnection,
      Eff.andThen_tryCatch, Eff.andThen_get, vm_andThen_discard_exec] at hb
    cases hver : d m.issued (m.dockerCmd ++ " version") with
    | fail e =>
      simp only [hver, vm_andThen_exec] at hb
      split at hb <;> simp at hb
    | ok o1 e1 =>
      simp only [hver, vm_andThen_exec, Eff.pure_apply, hget, Eff.bind_apply, _findFreePort,
        Eff.andThen_bind, Eff.andThen_get, Eff.andThen_pure, vm_andThen_ignored_exec] at hb
      simp only [vm_andThen_fallback_exec] at hb
      split at hb
      · exact runAndVerify_result d readInspect m.dockerCmd userId _ _ r _ s1 hb
      · split at hb
        · exact runAndVerify_result d readInspect m.dockerCmd userId _ _ r _ s1 hb
        · simp at hb
  · rename_i e s1 hb
    split at h <;> simp at h

end VMManager

/-! ## Claims on status and execute -/

/-- C11 as stated fails: with the tracked sessions of `trackingR1` and
`trackingU1` and an inspect that prints `false`, `getStatus` and `getVMStatus`
report `stopped`, yet the registry still tracks the session afterwards. -/
theorem status_not_running_keeps_session :
    (LabManager.getStatus falseDriver "R1" "U1" trackingR1).1 =
      Except.ok (LabStatus.full { sessionR1 with status := "stopped" }) ∧
    JsMap.get (LabManager.getStatus falseDriver "R1" "U1" trackingR1).2.activeLabs "U1:R1" =
      some sessionR1 ∧
    (VMManager.getVMStatus falseDriver "u1" 0 0 VMManager.trackingU1).1 =
      Except.ok (VMManager.VMStatus.full { VMManager.staleDetails with status := "stopped" }) ∧
    JsMap.get (VMManager.getVMStatus falseDriver "u1" 0 0 VMManager.trackingU1).2.activeVMs "u1" =
      some VMManager.staleDetails := by
  decide

/-- C11, amended: for a tracked session, when the inspect succeeds and its
trimmed output is not `true`, `getStatus`, and `getVMStatus` for a tracked user,
return the tracked record with status `stopped`, issue only the inspect, and
leave the registry as it was: the session is still tracked afterwards. -/
theorem status_not_running_reports_stopped (d : Driver) (labId userId vmUser : String)
    (j : Fin 1000) (now : Nat) (lm : LabManager) (vm : VMManager)
    (info : LabDetails) (v : VMDetails) (out err out2 err2 : String)
    (hl : JsMap.get lm.activeLabs (userId ++ ":" ++ labId) = some info)
    (hlo : d lm.issued (lm.dockerCmd ++
      " inspect -f \x27\x7b\x7b.State.Running\x7d\x7d\x27 " ++ info.containerName) =
        ExecResult.ok out err)
    (hln : trim out ≠ "true")
    (hv : JsMap.get vm.activeVMs vmUser = some v)
    (hvo : d vm.issued (VMManager.inspectRunningCmd vm.dockerCmd v.containerName) =
      ExecResult.ok out2 err2)
    (hvn : trim out2 ≠ "true") :
    (LabManager.getStatus d labId userId lm =
        (Except.ok (LabStatus.full { info with status := "stopped" }),
          { lm with issued := lm.issued ++ [lm.dockerCmd ++
            " inspect -f \x27\x7b\x7b.State.Running\x7d\x7d\x27 " ++ info.containerName] }) ∧
      JsMap.get (LabManager.getStatus d labId userId lm).2.activeLabs
        (userId ++ ":" ++ labId) = some info) ∧
    (VMManager.getVMStatus d vmUser j now vm =
        (Except.ok (VMManager.VMStatus.full { v with status := "stopped" }),
          { vm with issued := vm.issued ++
            [VMManager.inspectRunningCmd vm.dockerCmd v.containerName] }) ∧
      JsMap.get (VMManager.getVMStatus d vmUser j now vm).2.activeVMs vmUser = some v) := by
  rw [LabManager.getStatus_tracked d labId userId lm info hl, hlo,
    VMManager.getVMStatus_tracked d vmUser j now vm v hv, hvo]
  simp [hln, hvn, hl, hv]

/-- Witness of C11, amended: the inspect prints `false`. -/
theorem status_not_running_reports_stopped_witness :
    JsMap.get trackingR1.activeLabs ("U1" ++ ":" ++ "R1") = some sessionR1 ∧
    trim "false\n" ≠ "true" ∧
    JsMap.get VMManager.trackingU1.activeVMs "u1" = some VMManager.staleDetails ∧
    LabManager.getStatus falseDriver "R1" "U1" trackingR1 =
      (Except.ok (LabStatus.full { sessionR1 with status := "stopped" }),
        { trackingR1 with issued := trackingR1.issued ++ [trackingR1.dockerCmd ++
          " inspect -f \x27\x7b\x7b.State.Running\x7d\x7d\x27 " ++ sessionR1.containerName] }) :=
  ⟨by decide, by decide, by decide,
    (status_not_running_reports_stopped falseDriver "R1" "U1" "u1" 0 0 trackingR1
      VMManager.trackingU1 sessionR1 VMManager.staleDetails "false\n" "" "false\n" ""
      (by decide) (by decide) (by decide) (by decide) (by decide) (by decide)).1.1⟩

/-- C12: for a tracked session whose inspect fails, `getStatus`, and
`getVMStatus` for a tracked user, return exactly `{status: stopped}`; afterwards
the registry does not contain the key and every other key maps to what it mapped
to before. -/
theorem status_inspect_failure_prunes (d : Driver) (labId userId vmUser : String)
    (j : Fin 1000) (now : Nat) (lm : LabManager) (vm : VMManager)
    (info : LabDetails) (v : VMDetails) (e1 e2 : JsError)
    (hl : JsMap.get lm.activeLabs (userId ++ ":" ++ labId) = some info)
    (hlf : d lm.issued (lm.dockerCmd ++
      " inspect -f \x27\x7b\x7b.State.Running\x7d\x7d\x27 " ++ info.containerName) =
        ExecResult.fail e1)
    (hv : JsMap.get vm.activeVMs vmUser = some v)
    (hvf : d vm.issued (VMManager.inspectRunningCmd vm.dockerCmd v.containerName) =
      ExecResult.fail e2) :
    ((LabManager.getStatus d labId userId lm).1 = Except.ok (LabStatus.bare "stopped") ∧
      JsMap.get (LabManager.getStatus d labId userId lm).2.activeLabs
        (userId ++ ":" ++ labId) = none ∧
      ∀ k, k ≠ userId ++ ":" ++ labId →
        JsMap.get (LabManager.getStatus d labId userId lm).2.activeLabs k =
          JsMap.get lm.activeLabs k) ∧
    ((VMManager.getVMStatus d vmUser j now vm).1 =
        Except.ok (VMManager.VMStatus.bare "stopped") ∧
      JsMap.get (VMManager.getVMStatus d vmUser j now vm).2.activeVMs vmUser = none ∧
      ∀ k, k ≠ vmUser →
        JsMap.get (VMManager.getVMStatus d vmUser j now vm).2.activeVMs k =
          JsMap.get vm.activeVMs k) := by
  rw [LabManager.getStatus_tracked d labId userId lm info hl, hlf,
    VMManager.getVMStatus_tracked d vmUser j now vm v hv, hvf]
  exact ⟨⟨rfl, JsMap.get_delete_self _ _, fun k hk => JsMap.get_delete_of_ne _ _ _ hk⟩,
    ⟨rfl, JsMap.get_delete_self _ _, fun k hk => JsMap.get_delete_of_ne _ _ _ hk⟩⟩

/-- Witness of C12: every command fails. -/
theorem status_inspect_failure_prunes_witness :
    JsMap.get trackingR1.activeLabs ("U1" ++ ":" ++ "R1") = some sessionR1 ∧
    JsMap.get VMManager.trackingU1.activeVMs "u1" = some VMManager.staleDetails ∧
    (LabManager.getStatus failDriver "R1" "U1" trackingR1).1 =
      Except.ok (LabStatus.bare "stopped") ∧
    JsMap.get (LabManager.getStatus failDriver "R1" "U1" trackingR1).2.activeLabs
      ("U1" ++ ":" ++ "R1") = none :=
  ⟨by decide, by decide,
    (status_inspect_failure_prunes failDriver "R1" "U1" "u1" 0 0 trackingR1
      VMManager.trackingU1 sessionR1 VMManager.staleDetails
      failError failError
      (by decide) (by decide) (by decide) (by decide)).1.1,
    (status_inspect_failure_prunes failDriver "R1" "U1" "u1" 0 0 trackingR1
      VMManager.trackingU1 sessionR1 VMManager.staleDetails
      failError failError
      (by decide) (by decide) (by decide) (by decide)).1.2.1⟩

/-- C13: for every registry, key and driver, `getStatus` and `getVMStatus` do
not throw, and the `status` of what they return is `running` or `stopped`. -/
theorem status_never_throws (d : Driver) (labId userId vmUser : String)
    (j : Fin 1000) (now : Nat) (lm : LabManager) (vm : VMManager) :
    (∃ r, (LabManager.getStatus d labId userId lm).1 = Except.ok r ∧
      (r.statusOf = "running" ∨ r.statusOf = "stopped")) ∧
    (∃ r, (VMManager.getVMStatus d vmUser j now vm).1 = Except.ok r ∧
      (r.statusOf = "running" ∨ r.statusOf = "stopped")) := by
  constructor
  · cases hl : JsMap.get lm.activeLabs (userId ++ ":" ++ labId) with
    | none =>
      rw [LabManager.getStatus_untracked d labId userId lm hl]
      exact ⟨_, rfl, Or.inr rfl⟩
    | some info =>
      rw [LabManager.getStatus_tracked d labId userId lm info hl]
      split
      · refine ⟨_, rfl, ?_⟩
        simp only [LabStatus.statusOf]
        split
        · exact Or.inl rfl
        · exact Or.inr rfl
      · exact ⟨_, rfl, Or.inr rfl⟩
  · cases hv : JsMap.get vm.activeVMs vmUser with
    | none =>
      have h := VMManager.getVMStatus_untracked d vmUser j now vm hv
      simp only at h
      rw [h]
      split
      · exact ⟨_, rfl, Or.inr rfl⟩
      · split
        · split
          · exact ⟨_, rfl, Or.inr rfl⟩
          · exact ⟨_, rfl, Or.inl rfl⟩
        · exact ⟨_, rfl, Or.inr rfl⟩
    | some v =>
      rw [VMManager.getVMStatus_tracked d vmUser j now vm v hv]
      split
      · refine ⟨_, rfl, ?_⟩
        simp only [VMManager.VMStatus.statusOf]
        split
        · exact Or.inl rfl
        · exact Or.inr rfl
      · exact ⟨_, rfl, Or.inr rfl⟩

/-- C14: for a key with no tracked session, `LabManager.executeCommand` and
`VMManager.executeCommand` throw for every command text, issue no driver command
and leave the registry, and the whole manager, as it was. -/
theorem execute_untracked_fails (d : Driver) (labId userId vmUser command : String)
    (lm : LabManager) (vm : VMManager)
    (hl : JsMap.get lm.activeLabs (userId ++ ":" ++ labId) = none)
    (hv : JsMap.get vm.activeVMs vmUser = none) :
    LabManager.executeCommand d labId userId command lm =
      (Except.error (newError "Lab container is not running. Please start the lab first."),
        lm) ∧
    VMManager.executeCommand d vmUser command vm =
      (Except.error (newError "VM is not running"), vm) :=
  ⟨LabManager.executeCommand_untracked d labId userId command lm hl,
    VMManager.vm_executeCommand_untracked d vmUser command vm hv⟩

/-- Witness of C14: lab `R2` of user `U1` and user `u2`, not tracked. -/
theorem execute_untracked_fails_witness :
    JsMap.get trackingR1.activeLabs ("U1" ++ ":" ++ "R2") = none ∧
    JsMap.get VMManager.trackingU1.activeVMs "u2" = none ∧
    LabManager.executeCommand okDriver "R2" "U1" "echo hi" trackingR1 =
      (Except.error (newError "Lab container is not running. Please start the lab first."),
        trackingR1) ∧
    VMManager.executeCommand okDriver "u2" "echo hi" VMManager.trackingU1 =
      (Except.error (newError "VM is not running"), VMManager.trackingU1) :=
  ⟨by decide, by decide,
    execute_untracked_fails okDriver "R2" "U1" "u2" "echo hi" trackingR1 VMManager.trackingU1
      (by decide) (by decide)⟩

/-- C15 as stated fails: on a runtime whose containers are stopped, `getStatus`
and `getVMStatus` report the tracked sessions as `stopped`, and `executeCommand`
does not throw for them: it returns a result with `success` false. -/
theorem execute_not_running_returns_result :
    (LabManager.getStatus stoppedDriver "R1" "U1" trackingR1).1 =
      Except.ok (LabStatus.full { sessionR1 with status := "stopped" }) ∧
    (LabManager.executeCommand stoppedDriver "R1" "U1" "ls" trackingR1).1 =
      Except.ok { success := false,
                  output := "Error response from daemon: container is not running" } ∧
    (VMManager.getVMStatus stoppedDriver "u1" 0 0 VMManager.trackingU1).1 =
      Except.ok (VMManager.VMStatus.full { VMManager.staleDetails with status := "stopped" }) ∧
    (VMManager.executeCommand stoppedDriver "u1" "ls" VMManager.trackingU1).1 =
      Except.ok { success := false,
                  output := "Error response from daemon: container is not running",
                  exitCode := JsCode.num 1 } := by
  decide

/-- C15, amended: for a tracked session, `executeCommand` does not check that
the container is running and never throws: it issues exactly the exec command
and returns a result, whatever the driver answers. -/
theorem execute_tracked_returns_result (d : Driver) (labId userId vmUser command : String)
    (lm : LabManager) (vm : VMManager) (info : LabDetails) (v : VMDetails)
    (hl : JsMap.get lm.activeLabs (userId ++ ":" ++ labId) = some info)
    (hv : JsMap.get vm.activeVMs vmUser = some v) :
    (∃ r, LabManager.executeCommand d labId userId command lm =
      (Except.ok r, { lm with issued := lm.issued ++ [lm.dockerCmd ++ " exec " ++
        info.containerName ++ " /bin/sh -c " ++ jsonStringify command] })) ∧
    (∃ r, VMManager.executeCommand d vmUser command vm =
      (Except.ok r, { vm with issued := vm.issued ++ [vm.dockerCmd ++ " exec " ++
        v.containerName ++ " bash -c " ++ jsonStringify command] })) :=
  ⟨⟨_, LabManager.executeCommand_tracked d labId userId command lm info hl⟩,
    ⟨_, VMManager.vm_executeCommand_tracked d vmUser command vm v hv⟩⟩

/-- Witness of C15, amended: the tracked sessions on the stopped runtime. -/
theorem execute_tracked_returns_result_witness :
    JsMap.get trackingR1.activeLabs ("U1" ++ ":" ++ "R1") = some sessionR1 ∧
    JsMap.get VMManager.trackingU1.activeVMs "u1" = some VMManager.staleDetails ∧
    ((∃ r, LabManager.executeCommand stoppedDriver "R1" "U1" "ls" trackingR1 =
      (Except.ok r, { trackingR1 with issued := trackingR1.issued ++
        [trackingR1.dockerCmd ++ " exec " ++ sessionR1.containerName ++ " /bin/sh -c " ++
          jsonStringify "ls"] })) ∧
    (∃ r, VMManager.executeCommand stoppedDriver "u1" "ls" VMManager.trackingU1 =
      (Except.ok r, { VMManager.trackingU1 with issued := VMManager.trackingU1.issued ++
        [VMManager.trackingU1.dockerCmd ++ " exec " ++
          VMManager.staleDetails.containerName ++ " bash -c " ++ jsonStringify "ls"] }))) :=
  ⟨by decide, by decide,
    execute_tracked_returns_result stoppedDriver "R1" "U1" "u1" "ls" trackingR1
      VMManager.trackingU1 sessionR1 VMManager.staleDetails (by decide) (by decide)⟩

/-- C16: for a tracked lab session and a command whose exec succeeds with
streams `stdout` and `stderr`, `LabManager.executeCommand` returns `success`
true and `output` equal to `stdout` followed by `stderr`, or to the placeholder
`(no output)` with a carriage return and line feed when both are empty. -/
theorem lab_execute_success_output (d : Driver) (labId userId command : String)
    (m : LabManager) (info : LabDetails) (stdout stderr : String)
    (hget : JsMap.get m.activeLabs (userId ++ ":" ++ labId) = some info)
    (hexec : d m.issued (m.dockerCmd ++ " exec " ++ info.containerName ++ " /bin/sh -c " ++
      jsonStringify command) = ExecResult.ok stdout stderr) :
    (LabManager.executeCommand d labId userId command m).1 =
      Except.ok { success := true
                  output := if stdout ++ stderr = "" then "(no output)\r\n"
                            else stdout ++ stderr } := by
  rw [LabManager.executeCommand_tracked d labId userId command m info hget, hexec]

/-- Witness of C16: `stdout` is `hi` with a line feed and `stderr` is empty; the
output is `hi` with a line feed. -/
theorem lab_execute_success_output_witness :
    JsMap.get trackingR1.activeLabs ("U1" ++ ":" ++ "R1") = some sessionR1 ∧
    hiDriver trackingR1.issued (trackingR1.dockerCmd ++ " exec " ++
      sessionR1.containerName ++ " /bin/sh -c " ++ jsonStringify "echo hi") =
        ExecResult.ok "hi\n" "" ∧
    (LabManager.executeCommand hiDriver "R1" "U1" "echo hi" trackingR1).1 =
      Except.ok { success := true, output := "hi\n" } :=
  ⟨by decide, by decide,
    (lab_execute_success_output hiDriver "R1" "U1" "echo hi" trackingR1 sessionR1 "hi\n" ""
      (by decide) (by decide)).trans (by decide)⟩

/-- C17, at a failing input: for the tracked user `u1` and an exec that succeeds
with `stdout` equal to `out` and `stderr` equal to `err`,
`VMManager.executeCommand` returns the output `out`, not `outerr`. -/
theorem vm_execute_drops_stderr :
    (VMManager.executeCommand bothStreamsDriver "u1" "ls" VMManager.trackingU1).1 =
      Except.ok { success := true, output := "out", exitCode := JsCode.num 1 } ∧
    "out" ≠ "out" ++ "err" := by
  decide

/-- C18: for a tracked session and a command whose exec fails with error `e`,
`LabManager.executeCommand` and `VMManager.executeCommand` do not throw: they
return `success` false with a non-empty `output`, the message of `e` (for the
workstation its `stderr` when that is not empty) or else a fixed text, and the
registry stays as it was. -/
theorem execute_failure_is_result (d : Driver) (labId userId vmUser command : String)
    (lm : LabManager) (vm : VMManager) (info : LabDetails) (v : VMDetails) (e1 e2 : JsError)
    (hl : JsMap.get lm.activeLabs (userId ++ ":" ++ labId) = some info)
    (hlf : d lm.issued (lm.dockerCmd ++ " exec " ++ info.containerName ++ " /bin/sh -c " ++
      jsonStringify command) = ExecResult.fail e1)
    (hv : JsMap.get vm.activeVMs vmUser = some v)
    (hvf : d vm.issued (vm.dockerCmd ++ " exec " ++ v.containerName ++ " bash -c " ++
      jsonStringify command) = ExecResult.fail e2) :
    (∃ r, (LabManager.executeCommand d labId userId command lm).1 = Except.ok r ∧
      r.success = false ∧ r.output ≠ "" ∧
      r.output = (if e1.message ≠ "" then e1.message else "Command execution failed") ∧
      (LabManager.executeCommand d labId userId command lm).2.activeLabs = lm.activeLabs) ∧
    (∃ r, (VMManager.executeCommand d vmUser command vm).1 = Except.ok r ∧
      r.success = false ∧ r.output ≠ "" ∧
      r.output = (if orEmpty e2.stderr ≠ "" then orEmpty e2.stderr
        else if e2.message ≠ "" then e2.message else "Command execution failed") ∧
      (VMManager.executeCommand d vmUser command vm).2.activeVMs = vm.activeVMs) := by
  rw [LabManager.executeCommand_tracked d labId userId command lm info hl, hlf,
    VMManager.vm_executeCommand_tracked d vmUser command vm v hv, hvf]
  refine ⟨⟨_, rfl, rfl, ?_, ?_, rfl⟩, ⟨_, rfl, rfl, ?_, ?_, rfl⟩⟩
  · by_cases h : e1.message = "" <;> simp [truthy, h]
  · by_cases h : e1.message = "" <;> simp [truthy, h]
  · by_cases h0 : orEmpty e2.stderr = "" <;> by_cases h : e2.message = "" <;>
      simp [truthy, h0, h]
  · by_cases h0 : orEmpty e2.stderr = "" <;> by_cases h : e2.message = "" <;>
      simp [truthy, h0, h]

/-- Witness of C18: every command fails with a message and a `stderr`. -/
theorem execute_failure_is_result_witness :
    JsMap.get trackingR1.activeLabs ("U1" ++ ":" ++ "R1") = some sessionR1 ∧
    JsMap.get VMManager.trackingU1.activeVMs "u1" = some VMManager.staleDetails ∧
    ((∃ r, (LabManager.executeCommand failDriver "R1" "U1" "ls" trackingR1).1 = Except.ok r ∧
      r.success = false ∧ r.output ≠ "" ∧
      r.output = (if failError.message ≠ "" then failError.message
        else "Command execution failed") ∧
      (LabManager.executeCommand failDriver "R1" "U1" "ls" trackingR1).2.activeLabs =
        trackingR1.activeLabs)) :=
  ⟨by decide, by decide,
    (execute_failure_is_result failDriver "R1" "U1" "u1" "ls" trackingR1 VMManager.trackingU1
      sessionR1 VMManager.staleDetails
      failError failError
      (by decide) (by decide) (by decide) (by decide)).1⟩

/-- Every character that `sanitize` writes is in the allowed set. -/
theorem sanitize_nameChar (s : String) : ∀ c ∈ (sanitize s).data, nameChar c = true := by
  intro c hc
  simp only [sanitize, List.mem_flatMap] at hc
  obtain ⟨c0, _, hc0⟩ := hc
  unfold sanitizeChar at hc0
  by_cases h : nameChar c0 = true
  · rw [if_pos h] at hc0
    rw [List.mem_singleton] at hc0
    rw [hc0]; exact h
  · rw [if_neg h] at hc0
    have hu : nameChar '_' = true := by decide
    split at hc0
    · rw [List.mem_singleton] at hc0
      rw [hc0]; exact hu
    · simp only [List.mem_cons, List.mem_singleton, List.not_mem_nil, or_false, or_self] at hc0
      rw [hc0]; exact hu

/-- The function `sanitize` works part by part. -/
theorem sanitize_append (a b : String) : sanitize (a ++ b) = sanitize a ++ sanitize b := by
  apply String.ext
  simp [sanitize, String.data_append, List.flatMap_append]

/-- The function `sanitize` keeps the number of UTF-16 code units. -/
theorem jsLength_sanitize (s : String) : jsLength (sanitize s) = jsLength s := by
  unfold jsLength sanitize
  simp only
  induction s.data with
  | nil => rfl
  | cons c t ih =>
    rw [List.flatMap_cons, List.map_append, List.sum_append, ih, List.map_cons, List.sum_cons]
    congr 1
    unfold sanitizeChar
    by_cases h : nameChar c = true
    · simp [h]
    · by_cases h2 : c.toNat < 0x10000
      · simp [h, h2]
      · simp [h, h2]

/-- C19: `_containerName(labId, userId)` is a function of the pair; every
character of its result is a letter `a-z` or `A-Z`, a digit, an underscore, a dot
or a hyphen; the result begins with `edusec_lab_`; and it has as many UTF-16 code
units as the unsanitized text `edusec_lab_` + labId + `_` + userId. -/
theorem containerName_charset (labId userId : String) :
    (∀ c ∈ (LabManager._containerName labId userId).data,
      c.isAlphanum = true ∨ c = '_' ∨ c = '.' ∨ c = '-') ∧
    (∃ rest, LabManager._containerName labId userId = "edusec_lab_" ++ rest) ∧
    jsLength (LabManager._containerName labId userId) =
      jsLength ("edusec_lab_" ++ labId ++ "_" ++ userId) := by
  refine ⟨?_, ?_, ?_⟩
  · intro c hc
    have h := sanitize_nameChar _ c hc
    simp only [nameChar, Bool.or_eq_true, beq_iff_eq] at h
    tauto
  · refine ⟨sanitize (labId ++ "_" ++ userId), ?_⟩
    unfold LabManager._containerName
    rw [String.append_assoc, String.append_assoc, sanitize_append, ← String.append_assoc]
    congr 1
  · exact jsLength_sanitize _

/-- The fixed front part of a workstation container name has only allowed
characters. -/
theorem kali_front_nameChar : ∀ c ∈ "edusec_kali_".data, nameChar c = true := by
  decide

/-- C20, code bug: for the user id `a b`, the container name that `startKaliVM`
and the reconciliation branch of `getVMStatus` use and record is
`edusec_kali_a b`, with a space, which is not an allowed character, and the
commands they issue carry that name: `docker rm -f edusec_kali_a b`. The
replacement that `_containerName` of labManager.js applies gives
`edusec_kali_a_b` for this text, and `edusec_lab_R1_a_b` for the same user. -/
theorem kali_name_not_sanitized :
    (VMManager.startKaliVM trueDriver VMManager.readExited "a b" 0 0
      (VMManager.fresh "docker")).1 = Except.ok VMManager.spacedDetails ∧
    (VMManager.getVMStatus trueDriver "a b" 0 0 (VMManager.fresh "docker")).1 =
      Except.ok (VMManager.VMStatus.full VMManager.spacedDetails) ∧
    ' ' ∈ VMManager.spacedDetails.containerName.data ∧
    nameChar ' ' = false ∧
    "docker rm -f edusec_kali_a b" ∈ (VMManager.startKaliVM trueDriver VMManager.readExited
      "a b" 0 0 (VMManager.fresh "docker")).2.issued ∧
    (VMManager.getVMStatus trueDriver "a b" 0 0 (VMManager.fresh "docker")).2.issued.head? =
      some (VMManager.inspectRunningCmd "docker" "edusec_kali_a b") ∧
    sanitize VMManager.spacedDetails.containerName = "edusec_kali_a_b" ∧
    LabManager._containerName "R1" "a b" = "edusec_lab_R1_a_b" := by
  decide

/-- The name of a workstation container, for every user id: for a user that is
not tracked, the container name that `startKaliVM` and the reconciliation branch
of `getVMStatus` use is `edusec_kali_` followed by the user id as it is. It is
the name in the record they return, `getVMStatus` first inspects it, and all its
characters are allowed exactly when all characters of the user id are. -/
theorem kali_name_is_raw (d : Driver) (readInspect : String → Option (String × Bool))
    (userId : String) (j : Fin 1000) (now : Nat) (vm : VMManager)
    (hget : JsMap.get vm.activeVMs userId = none) :
    ((∀ c ∈ ("edusec_kali_" ++ userId).data, nameChar c = true) ↔
      ∀ c ∈ userId.data, nameChar c = true) ∧
    (∀ r, (VMManager.startKaliVM d readInspect userId j now vm).1 = Except.ok r →
      r.containerName = "edusec_kali_" ++ userId) ∧
    (∀ r, (VMManager.getVMStatus d userId j now vm).1 = Except.ok (VMManager.VMStatus.full r) →
      r.containerName = "edusec_kali_" ++ userId) ∧
    (∃ rest, (VMManager.getVMStatus d userId j now vm).2.issued =
      vm.issued ++ VMManager.inspectRunningCmd vm.dockerCmd ("edusec_kali_" ++ userId) :: rest) := by
  refine ⟨?_, ?_, ?_, ?_⟩
  · rw [String.data_append]
    constructor
    · intro h c hc
      exact h c (List.mem_append_right _ hc)
    · intro h c hc
      rcases List.mem_append.mp hc with h1 | h1
      · exact kali_front_nameChar c h1
      · exact h c h1
  · intro r hr
    rw [VMManager.startKaliVM_result d readInspect userId j now vm r hget hr]
  · intro r hr
    have h := VMManager.getVMStatus_untracked d userId j now vm hget
    simp only at h
    rw [h] at hr
    split at hr
    · simp at hr
    · split at hr
      · split at hr
        · simp at hr
        · simp only [Except.ok.injEq, VMManager.VMStatus.full.injEq] at hr
          rw [← hr]
      · simp at hr
  · have h := VMManager.getVMStatus_untracked d userId j now vm hget
    simp only at h
    rw [h]
    split
    · exact ⟨[], rfl⟩
    · split
      · split
        · exact ⟨[VMManager.inspectPortsCmd vm.dockerCmd ("edusec_kali_" ++ userId)], by simp⟩
        · exact ⟨[VMManager.inspectPortsCmd vm.dockerCmd ("edusec_kali_" ++ userId)], by simp⟩
      · exact ⟨[vm.dockerCmd ++ " rm -f " ++ ("edusec_kali_" ++ userId)], by simp⟩

/-- The name of the workstation container of user `u2`, who is not tracked. -/
theorem kali_name_is_raw_witness :
    JsMap.get VMManager.trackingU1.activeVMs "u2" = none ∧
    ((∀ c ∈ ("edusec_kali_" ++ "u2").data, nameChar c = true) ↔
      ∀ c ∈ "u2".data, nameChar c = true) ∧
    (∃ rest, (VMManager.getVMStatus trueDriver "u2" 0 0 VMManager.trackingU1).2.issued =
      VMManager.trackingU1.issued ++
        VMManager.inspectRunningCmd VMManager.trackingU1.dockerCmd ("edusec_kali_" ++ "u2")
          :: rest) :=
  ⟨by decide,
    (kali_name_is_raw trueDriver VMManager.readExited "u2" 0 0 VMManager.trackingU1
      (by decide)).1,
    (kali_name_is_raw trueDriver VMManager.readExited "u2" 0 0 VMManager.trackingU1
      (by decide)).2.2.2⟩

/-! ## Claims on timestamps, port ranges and reconciliation -/

/-- C21 as stated fails: a tracked record has no `lastActivityAt`; its one
timestamp is `startedAt`, here 0, and after a successful `executeCommand` and a
successful `getStatus` or `getVMStatus`, whenever they are called, the registry
holds the same record as before. -/
theorem activity_leaves_record :
    sessionR1.startedAt = 0 ∧
    (LabManager.executeCommand hiDriver "R1" "U1" "echo hi" trackingR1).1 =
      Except.ok { success := true, output := "hi\n" } ∧
    JsMap.get (LabManager.executeCommand hiDriver "R1" "U1" "echo hi" trackingR1).2.activeLabs
      "U1:R1" = some sessionR1 ∧
    (LabManager.getStatus trueDriver "R1" "U1" trackingR1).1 =
      Except.ok (LabStatus.full sessionR1) ∧
    JsMap.get (LabManager.getStatus trueDriver "R1" "U1" trackingR1).2.activeLabs "U1:R1" =
      some sessionR1 ∧
    (VMManager.executeCommand hiDriver "u1" "echo hi" VMManager.trackingU1).1 =
      Except.ok { success := true, output := "hi\n", exitCode := JsCode.num 0 } ∧
    JsMap.get (VMManager.executeCommand hiDriver "u1" "echo hi"
      VMManager.trackingU1).2.activeVMs "u1" = some VMManager.staleDetails ∧
    JsMap.get (VMManager.getVMStatus trueDriver "u1" 0 5 VMManager.trackingU1).2.activeVMs
      "u1" = some VMManager.staleDetails := by
  decide

/-- C21, amended: an `executeCommand`, successful or not, and a successful status
check (`getStatus`, `getVMStatus`) for a tracked key leave the registry as it
was, so the tracked record, whose only timestamp is `startedAt`, is the same
afterwards. -/
theorem activity_keeps_registry (d : Driver) (labId userId vmUser command : String)
    (j : Fin 1000) (now : Nat) (lm : LabManager) (vm : VMManager)
    (info : LabDetails) (v : VMDetails) (o2 e2 o4 e4 : String)
    (hl : JsMap.get lm.activeLabs (userId ++ ":" ++ labId) = some info)
    (hls : d lm.issued (lm.dockerCmd ++
      " inspect -f \x27\x7b\x7b.State.Running\x7d\x7d\x27 " ++ info.containerName) =
        ExecResult.ok o2 e2)
    (hv : JsMap.get vm.activeVMs vmUser = some v)
    (hvs : d vm.issued (VMManager.inspectRunningCmd vm.dockerCmd v.containerName) =
      ExecResult.ok o4 e4) :
    (LabManager.executeCommand d labId userId command lm).2.activeLabs = lm.activeLabs ∧
    (LabManager.getStatus d labId userId lm).2.activeLabs = lm.activeLabs ∧
    (VMManager.executeCommand d vmUser command vm).2.activeVMs = vm.activeVMs ∧
    (VMManager.getVMStatus d vmUser j now vm).2.activeVMs = vm.activeVMs := by
  rw [LabManager.executeCommand_tracked d labId userId command lm info hl,
    LabManager.getStatus_tracked d labId userId lm info hl, hls,
    VMManager.vm_executeCommand_tracked d vmUser command vm v hv,
    VMManager.getVMStatus_tracked d vmUser j now vm v hv, hvs]
  exact ⟨rfl, rfl, rfl, rfl⟩

/-- Witness of C21, amended: every command prints `true`. -/
theorem activity_keeps_registry_witness :
    JsMap.get trackingR1.activeLabs ("U1" ++ ":" ++ "R1") = some sessionR1 ∧
    JsMap.get VMManager.trackingU1.activeVMs "u1" = some VMManager.staleDetails ∧
    ((LabManager.executeCommand trueDriver "R1" "U1" "ls" trackingR1).2.activeLabs =
      trackingR1.activeLabs ∧
    (LabManager.getStatus trueDriver "R1" "U1" trackingR1).2.activeLabs =
      trackingR1.activeLabs ∧
    (VMManager.executeCommand trueDriver "u1" "ls" VMManager.trackingU1).2.activeVMs =
      VMManager.trackingU1.activeVMs ∧
    (VMManager.getVMStatus trueDriver "u1" 0 5 VMManager.trackingU1).2.activeVMs =
      VMManager.trackingU1.activeVMs) :=
  ⟨by decide, by decide,
    activity_keeps_registry trueDriver "R1" "U1" "u1" "ls" 0 5 trackingR1 VMManager.trackingU1
      sessionR1 VMManager.staleDetails "true\n" "" "true\n" ""
      (by decide) (by decide) (by decide) (by decide)⟩

/-- A run of `n + 1` consecutive ports cannot all be held by `n` sessions: the
loop of the port finders makes at most as many increments as ports are held. -/
theorem probe_le_add_length (held : List Nat) (port : Nat) :
    probe held port ≤ port + held.length := by
  by_contra hlt
  have hall : ∀ q, port ≤ q → q ≤ port + held.length → q ∈ held := by
    intro q h1 h2
    by_contra hq
    have := probe_le held port q h1 hq
    omega
  have hsub : List.range' port (held.length + 1) ⊆ held := by
    intro q hq
    rw [List.mem_range'_1] at hq
    exact hall q hq.1 (by omega)
  have hlen := (List.Nodup.subperm (List.nodup_range' port (held.length + 1)) hsub).length_le
  rw [List.length_range'] at hlen
  omega

/-- C23 as stated fails: from the empty registry, user `U1` starts with jitter
999 and gets port 9081, the last of the range; user `U2` then starts with jitter
999 and gets port 9082, above the range, and no error. -/
theorem hostPort_leaves_range :
    (LabManager.startLabContainer okDriver (some labR1) "U1" 999 0
      (LabManager.fresh "docker")).1 = Except.ok lastPortDetails ∧
    (LabManager.startLabContainer okDriver (some labR1) "U2" 999 0
      (LabManager.startLabContainer okDriver (some labR1) "U1" 999 0
        (LabManager.fresh "docker")).2).1 = Except.ok overflowDetails ∧
    8082 + 999 < overflowDetails.hostPort := by
  decide

namespace LabManager

/-- What `startLabContainer` returns for a key that is not tracked holds the port
the allocator chose against the registry at call time. -/
theorem startLabContainer_result_port (d : Driver) (l : Lab) (img userId : String)
    (j : Fin 1000) (now : Nat) (m m1 : LabManager) (r : LabDetails)
    (himg : l.dockerImage = some img) (hne : img ≠ "")
    (hget : JsMap.get m.activeLabs (userId ++ ":" ++ l._id) = none)
    (h : startLabContainer d (some l) userId j now m = (Except.ok r, m1)) :
    r.hostPort = probe ((JsMap.values m.activeLabs).map LabDetails.hostPort) (8082 + j.val) ∧
    r.containerName = _containerName l._id userId ∧ r.id = _containerName l._id userId ∧
    m1.activeLabs = JsMap.set m.activeLabs (userId ++ ":" ++ l._id) r := by
  by_cases hpull : (d m.issued (m.dockerCmd ++ " image inspect " ++ img)).isOk = true ∨
    (d (m.issued ++ [m.dockerCmd ++ " image inspect " ++ img])
      (m.dockerCmd ++ " pull " ++ img)).isOk = true
  · have h0 := startLabContainer_run d l img userId j now m himg hne hget hpull
    simp only at h0
    rw [h0] at h
    split at h
    · simp at h
    · simp only [Prod.mk.injEq, Except.ok.injEq] at h
      rw [← h.1, ← h.2]
      exact ⟨rfl, rfl, rfl, rfl⟩
  · have h1 : (d m.issued (m.dockerCmd ++ " image inspect " ++ img)).isOk = false := by
      cases hc : (d m.issued (m.dockerCmd ++ " image inspect " ++ img)).isOk
      · rfl
      · exact absurd (Or.inl hc) hpull
    cases h2 : d (m.issued ++ [m.dockerCmd ++ " image inspect " ++ img])
      (m.dockerCmd ++ " pull " ++ img) with
    | ok o e1 => exact absurd (Or.inr (by rw [h2]; rfl)) hpull
    | fail e =>
      rw [startLabContainer_pull_failed d l img userId j now m e himg hne hget h1 h2] at h
      simp at h

end LabManager

/-- C23, amended: `_findFreeHttpPort` never fails; the port it returns, which a
newly started lab session gets as its `hostPort`, is at least 8082, at most
8082 + 999 plus the number of tracked sessions, and lies within 8082 to
8082 + 999 exactly when some port from 8082 + jitter to 8082 + 999 is held by no
tracked session. -/
theorem findFreeHttpPort_range (d : Driver) (l : Lab) (img userId : String)
    (j : Fin 1000) (now : Nat) (m : LabManager) :
    ∃ p, LabManager._findFreeHttpPort j m = (Except.ok p, m) ∧
      8082 ≤ p ∧ p ≤ 8082 + 999 + (JsMap.values m.activeLabs).length ∧
      (p ≤ 8082 + 999 ↔
        ∃ q, 8082 + j.val ≤ q ∧ q ≤ 8082 + 999 ∧
          ∀ v ∈ JsMap.values m.activeLabs, v.hostPort ≠ q) ∧
      (l.dockerImage = some img → img ≠ "" →
        JsMap.get m.activeLabs (userId ++ ":" ++ l._id) = none →
        ∀ r m1, LabManager.startLabContainer d (some l) userId j now m = (Except.ok r, m1) →
          r.hostPort = p) := by
  have hge := probe_ge ((JsMap.values m.activeLabs).map LabDetails.hostPort) (8082 + j.val)
  have hlen := probe_le_add_length ((JsMap.values m.activeLabs).map LabDetails.hostPort)
    (8082 + j.val)
  have hj := j.isLt
  refine ⟨probe ((JsMap.values m.activeLabs).map LabDetails.hostPort) (8082 + j.val),
    ?_, ?_, ?_, ?_, ?_⟩
  · simp [LabManager._findFreeHttpPort, LabManager.baseHttpPort]
  · omega
  · rw [List.length_map] at hlen
    omega
  · constructor
    · intro hp
      refine ⟨_, hge, hp, ?_⟩
      intro v hv hvp
      exact probe_not_mem ((JsMap.values m.activeLabs).map LabDetails.hostPort)
        (8082 + j.val) (hvp ▸ List.mem_map_of_mem _ hv)
    · rintro ⟨q, hq1, hq2, hfree⟩
      have := probe_le ((JsMap.values m.activeLabs).map LabDetails.hostPort) (8082 + j.val)
        q hq1 (by
          intro hm
          obtain ⟨v, hv, hvq⟩ := List.mem_map.mp hm
          exact hfree v hv hvq)
      omega
  · intro himg hne hget r m1 h
    exact (LabManager.startLabContainer_result_port d l img userId j now m m1 r himg hne
      hget h).1

/-- What `parseInt` reads: a port, a text without digits, a zero, a base 16
text, digits before other text, and an integer above `2^53`, which a Number
rounds. -/
theorem parseInt_examples :
    parseInt "2222" = some (JsNumber.int 2222) ∧
    parseInt "" = none ∧
    parseInt "true" = none ∧
    parseInt "-0" = some (JsNumber.int 0) ∧
    parseInt "0x1F" = some (JsNumber.int 31) ∧
    parseInt " 80/tcp" = some (JsNumber.int 80) ∧
    parseInt "9007199254740993" = some (JsNumber.int 9007199254740992) ∧
    parseInt "9007199254740995" = some (JsNumber.int 9007199254740996) := by
  decide

set_option maxRecDepth 1000000 in
set_option exponentiation.threshold 2000 in
/-- What `parseInt` reads from a one and 309 zeros, a text of 310 digits: a
Number holds no integer of that size, the value is an infinity. -/
theorem parseInt_overflows :
    parseInt (String.mk ('1' :: List.replicate 309 '0')) = some (JsNumber.infinity false) ∧
    parseInt (String.mk ('-' :: '1' :: List.replicate 309 '0')) =
      some (JsNumber.infinity true) := by
  decide

/-- C24 as stated fails: user `u2` is not tracked and the runtime reports its
container running, but the query of the published ports fails; `getVMStatus`
then returns `{status: stopped}`, not a running record, and the registry is as
it was. -/
theorem reconcile_unanswered_port_query :
    JsMap.get VMManager.trackingU1.activeVMs "u2" = none ∧
    VMManager.unansweredDriver VMManager.trackingU1.issued
      (VMManager.inspectRunningCmd "docker" "edusec_kali_u2") = ExecResult.ok "true\n" "" ∧
    (VMManager.getVMStatus VMManager.unansweredDriver "u2" 0 7 VMManager.trackingU1).1 =
      Except.ok (VMManager.VMStatus.bare "stopped") ∧
    (VMManager.getVMStatus VMManager.unansweredDriver "u2" 0 7
      VMManager.trackingU1).2.activeVMs = VMManager.trackingU1.activeVMs := by
  decide

/-- C24, amended: for a user with no tracked workstation session, `getVMStatus`
inspects the name `edusec_kali_` + userId. When the runtime reports it running
and answers the port query, the method returns a `running` record with that name
whose port is the Number `parseInt` reads from the first line of the answer, or
the port `_findFreePort` allocates when that is no number or zero, as for an
empty answer, and the registry then maps the user to exactly that record. When
the runtime reports it running and the port query fails, the method returns
`{status: stopped}`, issues no remove and leaves the registry as it was. When
the runtime reports it not running, the method issues a remove for that name,
returns `{status: stopped}` and leaves the registry as it was. -/
theorem getVMStatus_reconcile (d : Driver) (userId : String) (j : Fin 1000) (now : Nat)
    (vm : VMManager) (hget : JsMap.get vm.activeVMs userId = none) :
    (∀ out err portOut err2,
      d vm.issued (VMManager.inspectRunningCmd vm.dockerCmd ("edusec_kali_" ++ userId)) =
        ExecResult.ok out err →
      trim out = "true" →
      d (vm.issued ++ [VMManager.inspectRunningCmd vm.dockerCmd ("edusec_kali_" ++ userId)])
        (VMManager.inspectPortsCmd vm.dockerCmd ("edusec_kali_" ++ userId)) =
          ExecResult.ok portOut err2 →
      ∃ r, (VMManager.getVMStatus d userId j now vm).1 = Except.ok (VMManager.VMStatus.full r) ∧
        r.status = "running" ∧ r.containerName = "edusec_kali_" ++ userId ∧
        r.sshPort =
          (match parseInt (firstLine (trim portOut)) with
            | some n => if n ≠ JsNumber.int 0 then n else
              JsNumber.int (Int.ofNat
                (probe (VMManager.heldSshPorts (JsMap.values vm.activeVMs)) (22220 + j.val)))
            | none =>
              JsNumber.int (Int.ofNat
                (probe (VMManager.heldSshPorts (JsMap.values vm.activeVMs)) (22220 + j.val)))) ∧
        (trim portOut = "" → r.sshPort = JsNumber.int (Int.ofNat
          (probe (VMManager.heldSshPorts (JsMap.values vm.activeVMs)) (22220 + j.val)))) ∧
        JsMap.get (VMManager.getVMStatus d userId j now vm).2.activeVMs userId = some r ∧
        ∀ k, k ≠ userId →
          JsMap.get (VMManager.getVMStatus d userId j now vm).2.activeVMs k =
            JsMap.get vm.activeVMs k) ∧
    (∀ out err e,
      d vm.issued (VMManager.inspectRunningCmd vm.dockerCmd ("edusec_kali_" ++ userId)) =
        ExecResult.ok out err →
      trim out = "true" →
      d (vm.issued ++ [VMManager.inspectRunningCmd vm.dockerCmd ("edusec_kali_" ++ userId)])
        (VMManager.inspectPortsCmd vm.dockerCmd ("edusec_kali_" ++ userId)) =
          ExecResult.fail e →
      VMManager.getVMStatus d userId j now vm =
        (Except.ok (VMManager.VMStatus.bare "stopped"),
          { vm with issued := vm.issued ++
            [VMManager.inspectRunningCmd vm.dockerCmd ("edusec_kali_" ++ userId),
             VMManager.inspectPortsCmd vm.dockerCmd ("edusec_kali_" ++ userId)] })) ∧
    (∀ out err,
      d vm.issued (VMManager.inspectRunningCmd vm.dockerCmd ("edusec_kali_" ++ userId)) =
        ExecResult.ok out err →
      trim out ≠ "true" →
      VMManager.getVMStatus d userId j now vm =
        (Except.ok (VMManager.VMStatus.bare "stopped"),
          { vm with issued := vm.issued ++
            [VMManager.inspectRunningCmd vm.dockerCmd ("edusec_kali_" ++ userId),
             vm.dockerCmd ++ " rm -f " ++ ("edusec_kali_" ++ userId)] })) := by
  have h := VMManager.getVMStatus_untracked d userId j now vm hget
  simp only at h
  refine ⟨?_, ?_, ?_⟩
  · intro out err portOut err2 h1 hrun h2
    rw [h, h1, h2]
    simp only [hrun, if_true]
    refine ⟨_, rfl, rfl, rfl, rfl, ?_, JsMap.get_set_self _ _ _,
      fun k hk => JsMap.get_set_of_ne _ _ _ _ hk⟩
    intro hempty
    simp only [hempty]
    rfl
  · intro out err e h1 hrun h2
    rw [h, h1, h2]
    simp only [hrun, if_true]
  · intro out err h1 hrun
    rw [h, h1]
    simp only [hrun, if_false]

/-- Witness of C24, amended: user `u2` is not tracked, its container runs and
publishes host port 2222; `getVMStatus` returns and records the session with
port 2222. -/
theorem getVMStatus_reconcile_witness :
    JsMap.get VMManager.trackingU1.activeVMs "u2" = none ∧
    (∃ r, (VMManager.getVMStatus VMManager.publishedDriver "u2" 0 7
        VMManager.trackingU1).1 = Except.ok (VMManager.VMStatus.full r) ∧
      r.status = "running" ∧ r.containerName = "edusec_kali_" ++ "u2" ∧
      r.sshPort =
        (match parseInt (firstLine (trim "2222\n")) with
          | some n => if n ≠ JsNumber.int 0 then n else
            JsNumber.int (Int.ofNat (probe (VMManager.heldSshPorts (JsMap.values
              VMManager.trackingU1.activeVMs)) (22220 + (0 : Fin 1000).val)))
          | none =>
            JsNumber.int (Int.ofNat (probe (VMManager.heldSshPorts (JsMap.values
              VMManager.trackingU1.activeVMs)) (22220 + (0 : Fin 1000).val)))) ∧
      (trim "2222\n" = "" → r.sshPort = JsNumber.int (Int.ofNat
        (probe (VMManager.heldSshPorts (JsMap.values VMManager.trackingU1.activeVMs))
          (22220 + (0 : Fin 1000).val)))) ∧
      JsMap.get (VMManager.getVMStatus VMManager.publishedDriver "u2" 0 7
        VMManager.trackingU1).2.activeVMs "u2" = some r ∧
      ∀ k, k ≠ "u2" →
        JsMap.get (VMManager.getVMStatus VMManager.publishedDriver "u2" 0 7
          VMManager.trackingU1).2.activeVMs k = JsMap.get VMManager.trackingU1.activeVMs k) ∧
    (VMManager.getVMStatus VMManager.publishedDriver "u2" 0 7 VMManager.trackingU1).1 =
      Except.ok (VMManager.VMStatus.full VMManager.recoveredDetails) :=
  ⟨by decide,
    (getVMStatus_reconcile VMManager.publishedDriver "u2" 0 7 VMManager.trackingU1
      (by decide)).1 "true\n" "" "2222\n" "" (by decide) (by decide) (by decide),
    by decide⟩

/-- C27: for every image reference, missing and empty ones included,
`_inferInternalPort` returns 3000 when the lower-cased reference contains
`juice-shop` and 80 otherwise; the result is 80 or 3000, and references that are
equal up to case give the same result. -/
theorem inferInternalPort_spec :
    (∀ image : Option String, LabManager._inferInternalPort image =
      if includes (toLowerCase (orEmpty image)) "juice-shop" = true then 3000 else 80) ∧
    (∀ image : Option String, LabManager._inferInternalPort image = 80 ∨
      LabManager._inferInternalPort image = 3000) ∧
    LabManager._inferInternalPort none = 80 ∧
    LabManager._inferInternalPort (some "") = 80 ∧
    LabManager._inferInternalPort (some "bkimminich/Juice-Shop:latest") = 3000 ∧
    (∀ s t : String, toLowerCase s = toLowerCase t →
      LabManager._inferInternalPort (some s) = LabManager._inferInternalPort (some t)) := by
  refine ⟨?_, ?_, by decide, by decide, by decide, ?_⟩
  · intro image
    unfold LabManager._inferInternalPort
    simp only
    split
    · rfl
    · split <;> [rfl; (split <;> rfl)]
  · intro image
    unfold LabManager._inferInternalPort
    simp only
    split
    · exact Or.inr rfl
    · split
      · exact Or.inl rfl
      · split <;> exact Or.inl rfl
  · intro s t h
    unfold LabManager._inferInternalPort
    simp only [orEmpty, h]

/-! ## The sweep of `cleanupInactiveVMs` -/

namespace JsMap
variable {β : Type}

/-- An entry of a map with distinct keys is what `get` finds at its key. -/
theorem get_of_mem_nodup (m : JsMap β) (hnd : (m.map Prod.fst).Nodup) :
    ∀ e ∈ m, get m e.1 = some e.2 := by
  induction m with
  | nil => intro e he; cases he
  | cons a t ih =>
    obtain ⟨k1, v1⟩ := a
    intro e he
    rw [List.map_cons, List.nodup_cons] at hnd
    rcases List.mem_cons.mp he with rfl | h1
    · simp [get]
    · have hmem : e.1 ∈ t.map Prod.fst := List.mem_map_of_mem Prod.fst h1
      have hne : k1 ≠ e.1 := fun h => hnd.1 (by rw [h]; exact hmem)
      simp only [get, hne, if_false]
      exact ih hnd.2 e h1

/-- What `get` finds is an entry of the map. -/
theorem mem_of_get (m : JsMap β) (k : String) (v : β) (h : get m k = some v) :
    (k, v) ∈ m := by
  induction m with
  | nil => simp [get] at h
  | cons a t ih =>
    obtain ⟨k1, v1⟩ := a
    by_cases h1 : k1 = k
    · subst h1
      simp only [get, if_true, Option.some.injEq] at h
      subst h
      exact List.mem_cons_self _ _
    · simp only [get, h1, if_false] at h
      exact List.mem_cons_of_mem _ (ih h)

/-- In a map with distinct keys, `get` on the entries that pass a test finds the
entry of the key when it passes and nothing when it fails. -/
theorem get_filter_nodup (m : JsMap β) (p : String × β → Bool)
    (hnd : (m.map Prod.fst).Nodup) (k : String) (v : β) (h : get m k = some v) :
    get (m.filter p) k = if p (k, v) = true then some v else none := by
  induction m with
  | nil => simp [get] at h
  | cons a t ih =>
    obtain ⟨k1, v1⟩ := a
    rw [List.map_cons, List.nodup_cons] at hnd
    by_cases h1 : k1 = k
    · subst h1
      simp only [get, if_true, Option.some.injEq] at h
      subst h
      by_cases hp : p (k1, v1) = true
      · simp [get, List.filter_cons, hp]
      · cases hg : get (t.filter p) k1 with
        | none => simp [List.filter_cons, hp, hg]
        | some w =>
          exact absurd (List.mem_map_of_mem Prod.fst
            (List.mem_of_mem_filter (mem_of_get _ _ _ hg))) hnd.1
    · simp only [get, h1, if_false] at h
      by_cases hp : p (k1, v1) = true
      · simp only [List.filter_cons, hp, if_true, get, h1, if_false]
        exact ih hnd.2 h
      · simp only [List.filter_cons, hp, if_false]
        exact ih hnd.2 h

end JsMap

namespace VMManager

/-- The entries of a list that the sweep stops at clock reading `now`. -/
theorem sweep_eq (d : Driver) (now : Nat) :
    ∀ (l : List (String × VMDetails)) (s : VMManager),
      (l.map Prod.fst).Nodup → (∀ e ∈ l, JsMap.get s.activeVMs e.1 = some e.2) →
      sweep d now l s =
        (Except.ok PUnit.unit,
          { s with
            activeVMs := s.activeVMs.filter (fun e =>
              !((l.filter (fun x => decide (now - x.2.startedAt > inactiveTime))).map
                Prod.fst).contains e.1)
            issued := s.issued ++
              (l.filter (fun x => decide (now - x.2.startedAt > inactiveTime))).map
                (fun x => s.dockerCmd ++ " rm -f " ++ x.2.containerName) }) := by
  intro l
  induction l with
  | nil =>
    intro s _ _
    simp [sweep]
  | cons a t ih =>
    obtain ⟨k, v⟩ := a
    intro s hnd hall
    rw [List.map_cons, List.nodup_cons] at hnd
    have hk : JsMap.get s.activeVMs k = some v := hall (k, v) (List.mem_cons_self _ _)
    by_cases hexp : now - v.startedAt > inactiveTime
    · have hstop := stopKaliVM_eq d k s
      rw [hk] at hstop
      simp only at hstop
      have hall1 : ∀ e ∈ t, JsMap.get (JsMap.delete s.activeVMs k) e.1 = some e.2 := by
        intro e he
        have hmem : e.1 ∈ t.map Prod.fst := List.mem_map_of_mem Prod.fst he
        have hne : e.1 ≠ k := fun h => hnd.1 (by rw [← h]; exact hmem)
        rw [JsMap.get_delete_of_ne _ _ _ hne]
        exact hall e (List.mem_cons_of_mem _ he)
      have hrec := ih
        { s with activeVMs := JsMap.delete s.activeVMs k
                 issued := s.issued ++ [s.dockerCmd ++ " rm -f " ++ v.containerName] }
        hnd.2 hall1
      simp only [sweep, hexp, if_true, Eff.bind_apply, andThen_discard]
      unfold Eff.andThen
      rw [hstop]
      simp only [hrec, Prod.mk.injEq, true_and]
      have hf : List.filter (fun x : String × VMDetails =>
          decide (now - x.2.startedAt > inactiveTime)) ((k, v) :: t) =
          (k, v) :: List.filter (fun x => decide (now - x.2.startedAt > inactiveTime)) t := by
        simp [List.filter_cons, hexp]
      rw [hf]
      simp only [List.map_cons, List.append_assoc, List.singleton_append, JsMap.delete,
        List.filter_filter]
      congr 1
      apply List.filter_congr
      intro e _
      by_cases hek : e.1 = k
      · simp [hek]
      · have hke : ¬ k = e.1 := fun h => hek h.symm
        have hb : (e.1 != k) = true := by simpa using hek
        have hb2 : (e.1 == k) = false := by simpa using hek
        simp [hek, hke, hb, hb2]
    · have hrec := ih s hnd.2 (fun e he => hall e (List.mem_cons_of_mem _ he))
      simp only [sweep, hexp, if_false, Eff.bind_apply, Eff.andThen_pure, hrec]
      simp [List.filter_cons, hexp]

end VMManager
namespace VMManager

/-- In a map with distinct keys, a key is among the keys of the entries that are
past the limit exactly when its own entry is. -/
theorem mem_expired_keys (m : JsMap VMDetails) (now : Nat)
    (hnd : (m.map Prod.fst).Nodup) (k : String) (v : VMDetails)
    (h : JsMap.get m k = some v) :
    k ∈ (m.filter (fun x => decide (now - x.2.startedAt > inactiveTime))).map Prod.fst ↔
      now - v.startedAt > inactiveTime := by
  constructor
  · intro hk
    obtain ⟨e, he, hek⟩ := List.mem_map.mp hk
    rw [List.mem_filter] at he
    have h2 := JsMap.get_of_mem_nodup m hnd e he.1
    rw [hek, h] at h2
    have hv : v = e.2 := Option.some.inj h2
    rw [hv]
    simpa using he.2
  · intro hexp
    apply List.mem_map.mpr
    refine ⟨(k, v), ?_, rfl⟩
    rw [List.mem_filter]
    exact ⟨JsMap.mem_of_get m k v h, by simpa using hexp⟩

end VMManager

/-- C22 as stated fails: user `u1` started at time 0 and runs a command with
success; the sweep at 31 minutes, whenever the command ran, stops the session and
removes it from the registry. -/
theorem sweep_reaps_active_session :
    (VMManager.executeCommand hiDriver "u1" "echo hi" VMManager.trackingU1).1 =
      Except.ok { success := true, output := "hi\n", exitCode := JsCode.num 0 } ∧
    JsMap.get (VMManager.executeCommand hiDriver "u1" "echo hi"
      VMManager.trackingU1).2.activeVMs "u1" = some VMManager.staleDetails ∧
    VMManager.staleDetails.startedAt = 0 ∧
    JsMap.get (VMManager.cleanupInactiveVMs hiDriver (31 * 60 * 1000)
      (VMManager.executeCommand hiDriver "u1" "echo hi" VMManager.trackingU1).2).2.activeVMs
      "u1" = none := by
  decide

/-- C22, amended: a sweep of `cleanupInactiveVMs` at clock reading `now` does not
throw; it stops, with one remove each, and removes from the registry every
session whose time since its start exceeds 30 minutes, and leaves every other
session as it was: a session started 30 minutes and 1 millisecond before is
removed, one started 30 minutes before or less stays. -/
theorem cleanup_removes_old_sessions (d : Driver) (now : Nat) (m : VMManager)
    (hnd : (m.activeVMs.map Prod.fst).Nodup) :
    (VMManager.cleanupInactiveVMs d now m).1 = Except.ok PUnit.unit ∧
    (∀ k v, JsMap.get m.activeVMs k = some v → now - v.startedAt > 30 * 60 * 1000 →
      JsMap.get (VMManager.cleanupInactiveVMs d now m).2.activeVMs k = none) ∧
    (∀ k v, JsMap.get m.activeVMs k = some v → now - v.startedAt ≤ 30 * 60 * 1000 →
      JsMap.get (VMManager.cleanupInactiveVMs d now m).2.activeVMs k = some v) ∧
    (∀ k, JsMap.get m.activeVMs k = none →
      JsMap.get (VMManager.cleanupInactiveVMs d now m).2.activeVMs k = none) ∧
    (VMManager.cleanupInactiveVMs d now m).2.issued =
      m.issued ++ (m.activeVMs.filter (fun x =>
        decide (now - x.2.startedAt > 30 * 60 * 1000))).map
          (fun x => m.dockerCmd ++ " rm -f " ++ x.2.containerName) := by
  have hs := VMManager.sweep_eq d now m.activeVMs m hnd (JsMap.get_of_mem_nodup _ hnd)
  have hc : VMManager.cleanupInactiveVMs d now m = VMManager.sweep d now m.activeVMs m := by
    simp [VMManager.cleanupInactiveVMs]
  rw [hc, hs]
  refine ⟨rfl, ?_, ?_, ?_, rfl⟩
  · intro k v hk hexp
    simp only
    rw [JsMap.get_filter_nodup _ _ hnd k v hk]
    have := (VMManager.mem_expired_keys m.activeVMs now hnd k v hk).mpr hexp
    simp [this]
  · intro k v hk hexp
    simp only
    rw [JsMap.get_filter_nodup _ _ hnd k v hk]
    have : ¬ k ∈ (m.activeVMs.filter (fun x =>
        decide (now - x.2.startedAt > VMManager.inactiveTime))).map Prod.fst := by
      rw [VMManager.mem_expired_keys m.activeVMs now hnd k v hk]
      simp only [VMManager.inactiveTime]
      omega
    simp [this]
  · intro k hk
    simp only
    cases hg : JsMap.get (List.filter _ m.activeVMs) k with
    | none => rfl
    | some w =>
      have hmem := List.mem_of_mem_filter (JsMap.mem_of_get _ _ _ hg)
      have := JsMap.get_of_mem_nodup _ hnd _ hmem
      rw [hk] at this
      cases this

/-- Witness of C22, amended: the registry of `trackingU1`, swept at 31 minutes. -/
theorem cleanup_removes_old_sessions_witness :
    (VMManager.trackingU1.activeVMs.map Prod.fst).Nodup ∧
    (VMManager.cleanupInactiveVMs okDriver (31 * 60 * 1000) VMManager.trackingU1).1 =
      Except.ok PUnit.unit ∧
    (VMManager.cleanupInactiveVMs okDriver (31 * 60 * 1000) VMManager.trackingU1).2.issued =
      VMManager.trackingU1.issued ++ (VMManager.trackingU1.activeVMs.filter (fun x =>
        decide (31 * 60 * 1000 - x.2.startedAt > 30 * 60 * 1000))).map
          (fun x => VMManager.trackingU1.dockerCmd ++ " rm -f " ++ x.2.containerName) :=
  ⟨by decide,
    (cleanup_removes_old_sessions okDriver (31 * 60 * 1000) VMManager.trackingU1
      (by decide)).1,
    (cleanup_removes_old_sessions okDriver (31 * 60 * 1000) VMManager.trackingU1
      (by decide)).2.2.2.2⟩

/-! ## Keys, names and their parts -/

/-- A text with a separator that occurs in neither front part splits in one way. -/
theorem split_at_sep (c : Char) :
    ∀ (a a2 b b2 : List Char), c ∉ a → c ∉ a2 → a ++ c :: b = a2 ++ c :: b2 →
      a = a2 ∧ b = b2 := by
  intro a
  induction a with
  | nil =>
    intro a2 b b2 _ h2 h
    cases a2 with
    | nil => exact ⟨rfl, by simpa using h⟩
    | cons x t =>
      simp only [List.nil_append, List.cons_append, List.cons.injEq] at h
      exact absurd (h.1 ▸ List.mem_cons_self _ _) h2
  | cons y s ih =>
    intro a2 b b2 h1 h2 h
    cases a2 with
    | nil =>
      simp only [List.nil_append, List.cons_append, List.cons.injEq] at h
      exact absurd (h.1 ▸ List.mem_cons_self _ _) h1
    | cons x t =>
      simp only [List.cons_append, List.cons.injEq] at h
      obtain ⟨hs, hb⟩ := ih t b b2 (fun hm => h1 (List.mem_cons_of_mem _ hm))
        (fun hm => h2 (List.mem_cons_of_mem _ hm)) h.2
      exact ⟨by rw [h.1, hs], hb⟩

/-- A key `userId:labId` with user ids that contain no colon determines the
pair. -/
theorem key_parts (u1 l1 u2 l2 : String) (h1 : colonFree u1 = true)
    (h2 : colonFree u2 = true) (h : u1 ++ ":" ++ l1 = u2 ++ ":" ++ l2) :
    u1 = u2 ∧ l1 = l2 := by
  have hd : u1.data ++ ':' :: l1.data = u2.data ++ ':' :: l2.data := by
    have := congrArg String.data h
    simpa [String.data_append] using this
  have hc1 : ':' ∉ u1.data := by simpa [colonFree] using h1
  have hc2 : ':' ∉ u2.data := by simpa [colonFree] using h2
  obtain ⟨ha, hb⟩ := split_at_sep ':' _ _ _ _ hc1 hc2 hd
  exact ⟨String.ext ha, String.ext hb⟩

namespace JsMap
variable {β : Type}

/-- An entry of a map after `set` is the new entry or an entry from before. -/
theorem mem_set (m : JsMap β) (k : String) (v : β) (e : String × β)
    (h : e ∈ set m k v) : e = (k, v) ∨ e ∈ m := by
  induction m with
  | nil =>
    simp only [set, List.mem_singleton] at h
    exact Or.inl h
  | cons a t ih =>
    obtain ⟨k1, v1⟩ := a
    by_cases h1 : k1 = k
    · simp only [set, h1, if_true, List.mem_cons] at h
      rcases h with h | h
      · exact Or.inl h
      · exact Or.inr (List.mem_cons_of_mem _ h)
    · simp only [set, h1, if_false, List.mem_cons] at h
      rcases h with h | h
      · exact Or.inr (h ▸ List.mem_cons_self _ _)
      · rcases ih h with h2 | h2
        · exact Or.inl h2
        · exact Or.inr (List.mem_cons_of_mem _ h2)

end JsMap

namespace LabManager

/-- The registry after `startLabContainer` for a lab with an image and a key
that is not tracked: as before, or with the returned record under the key. -/
theorem startLabContainer_outcome (d : Driver) (l : Lab) (img userId : String)
    (j : Fin 1000) (now : Nat) (m : LabManager)
    (himg : l.dockerImage = some img) (hne : img ≠ "")
    (hget : JsMap.get m.activeLabs (userId ++ ":" ++ l._id) = none) :
    (startLabContainer d (some l) userId j now m).2.activeLabs = m.activeLabs ∨
    ∃ r, r.containerName = _containerName l._id userId ∧ r.id = _containerName l._id userId ∧
      (startLabContainer d (some l) userId j now m).2.activeLabs =
        JsMap.set m.activeLabs (userId ++ ":" ++ l._id) r := by
  cases hres : startLabContainer d (some l) userId j now m with
  | mk res m1 =>
    cases res with
    | ok r =>
      obtain ⟨_, h2, h3, h4⟩ :=
        startLabContainer_result_port d l img userId j now m m1 r himg hne hget hres
      exact Or.inr ⟨r, h2, h3, h4⟩
    | error e =>
      left
      rcases startLabContainer_registry d (some l) userId j now m with h | ⟨key, det, _, _, h⟩
      · rw [hres] at h; exact h
      · exfalso
        by_cases hpull : (d m.issued (m.dockerCmd ++ " image inspect " ++ img)).isOk = true ∨
          (d (m.issued ++ [m.dockerCmd ++ " image inspect " ++ img])
            (m.dockerCmd ++ " pull " ++ img)).isOk = true
        · have h0 := startLabContainer_run d l img userId j now m himg hne hget hpull
          simp only at h0
          rw [h0] at hres h
          split at hres
          · rename_i e1 hrun
            rw [hrun] at h
            simp only at h
            have hl := congrArg List.length h
            rw [JsMap.set_of_get_none _ _ _ (by assumption)] at hl
            simp at hl
          · simp at hres
        · have h1 : (d m.issued (m.dockerCmd ++ " image inspect " ++ img)).isOk = false := by
            cases hc : (d m.issued (m.dockerCmd ++ " image inspect " ++ img)).isOk
            · rfl
            · exact absurd (Or.inl hc) hpull
          cases h2 : d (m.issued ++ [m.dockerCmd ++ " image inspect " ++ img])
            (m.dockerCmd ++ " pull " ++ img) with
          | ok o e1 => exact absurd (Or.inr (by rw [h2]; rfl)) hpull
          | fail e2 =>
            rw [startLabContainer_pull_failed d l img userId j now m e2 himg hne hget h1 h2] at h
            simp only at h
            have hl := congrArg List.length h
            rw [JsMap.set_of_get_none _ _ _ (by assumption)] at hl
            simp at hl

end LabManager
/-- The records of the registry are those that a `startLabContainer` with a
colon-free user id stored under its key. -/
theorem perform_names (d : Driver) (c : LabCall) (m : LabManager)
    (hc : c.colonFree = true)
    (hinv : ∀ e ∈ m.activeLabs, ∃ userId labId, colonFree userId = true ∧
      e.1 = userId ++ ":" ++ labId ∧
      e.2.containerName = LabManager._containerName labId userId ∧
      e.2.id = LabManager._containerName labId userId) :
    ∀ e ∈ (LabManager.perform d c m).activeLabs, ∃ userId labId, colonFree userId = true ∧
      e.1 = userId ++ ":" ++ labId ∧
      e.2.containerName = LabManager._containerName labId userId ∧
      e.2.id = LabManager._containerName labId userId := by
  cases c with
  | start lab userId j now =>
    simp only [LabManager.perform]
    rcases LabManager.lab_image_cases lab with h | ⟨l, img, rfl, himg, hne⟩
    · rw [LabManager.startLabContainer_no_image d lab userId j now m h]
      exact hinv
    · cases hget : JsMap.get m.activeLabs (userId ++ ":" ++ l._id) with
      | some s =>
        rw [LabManager.startLabContainer_tracked d l img userId j now m s himg hne hget]
        exact hinv
      | none =>
        rcases LabManager.startLabContainer_outcome d l img userId j now m himg hne hget with
          h | ⟨r, hr1, hr2, h⟩
        · rw [h]; exact hinv
        · rw [h]
          intro e he
          rcases JsMap.mem_set _ _ _ _ he with rfl | he2
          · exact ⟨userId, l._id, hc, rfl, hr1, hr2⟩
          · exact hinv e he2
  | stop labId userId =>
    simp only [LabManager.perform, LabManager.stopLabContainer_eq]
    intro e he
    exact hinv e (List.mem_of_mem_filter he)
  | status labId userId =>
    simp only [LabManager.perform]
    rcases LabManager.getStatus_registry d labId userId m with h | h
    · rw [h]; exact hinv
    · rw [h]
      intro e he
      exact hinv e (List.mem_of_mem_filter he)
  | exec labId userId command =>
    simp only [LabManager.perform, LabManager.executeCommand_registry]
    exact hinv

/-- The records of a reachable registry, for calls with colon-free user ids. -/
theorem runCalls_names (d : Driver) (calls : List LabCall) :
    ∀ m : LabManager, (∀ c ∈ calls, c.colonFree = true) →
      (∀ e ∈ m.activeLabs, ∃ userId labId, colonFree userId = true ∧
        e.1 = userId ++ ":" ++ labId ∧
        e.2.containerName = LabManager._containerName labId userId ∧
        e.2.id = LabManager._containerName labId userId) →
      ∀ e ∈ (LabManager.runCalls d calls m).activeLabs, ∃ userId labId,
        colonFree userId = true ∧ e.1 = userId ++ ":" ++ labId ∧
        e.2.containerName = LabManager._containerName labId userId ∧
        e.2.id = LabManager._containerName labId userId := by
  induction calls with
  | nil => intro m _ h; exact h
  | cons c t ih =>
    intro m hc hinv
    exact ih (LabManager.perform d c m) (fun x hx => hc x (List.mem_cons_of_mem _ hx))
      (perform_names d c m (hc c (List.mem_cons_self _ _)) hinv)

/-- C28 as stated fails: after `startLabContainer` for user `a:b` and the lab
with id `c`, the session stored under the key of user `a` and lab `b:c`, which is
the same key `a:b:c`, has the container name `edusec_lab_c_a_b`, not
`_containerName` of `b:c` and `a`, which is `edusec_lab_b_c_a`. -/
theorem stored_name_differs :
    "a:b" ++ ":" ++ "c" = "a" ++ ":" ++ "b:c" ∧
    (JsMap.get (LabManager.runCalls okDriver [LabCall.start (some labC) "a:b" 0 0]
      (LabManager.fresh "docker")).activeLabs ("a" ++ ":" ++ "b:c")).map
        LabDetails.containerName = some "edusec_lab_c_a_b" ∧
    LabManager._containerName "b:c" "a" = "edusec_lab_b_c_a" ∧
    "edusec_lab_c_a_b" ≠ LabManager._containerName "b:c" "a" := by
  decide

/-- C28, amended: in every state reached from the empty registry by calls whose
user ids contain no colon, for a user id without a colon, every session stored
under the key `userId:labId` has `containerName` and `id` equal to
`_containerName(labId, userId)`, and `stopLabContainer` removes that name whether
or not the session is tracked. -/
theorem stored_name_of_key (d : Driver) (dockerCmd : String) (calls : List LabCall)
    (labId userId : String)
    (hcalls : ∀ c ∈ calls, c.colonFree = true) (hu : colonFree userId = true) :
    (∀ s, JsMap.get (LabManager.runCalls d calls (LabManager.fresh dockerCmd)).activeLabs
        (userId ++ ":" ++ labId) = some s →
      s.containerName = LabManager._containerName labId userId ∧
      s.id = LabManager._containerName labId userId) ∧
    (LabManager.stopLabContainer d labId userId
        (LabManager.runCalls d calls (LabManager.fresh dockerCmd))).2.issued =
      (LabManager.runCalls d calls (LabManager.fresh dockerCmd)).issued ++
        [(LabManager.runCalls d calls (LabManager.fresh dockerCmd)).dockerCmd ++ " rm -f " ++
          LabManager._containerName labId userId] := by
  have hinv := runCalls_names d calls (LabManager.fresh dockerCmd) hcalls
    (by intro e he; cases he)
  have hstored : ∀ s,
      JsMap.get (LabManager.runCalls d calls (LabManager.fresh dockerCmd)).activeLabs
        (userId ++ ":" ++ labId) = some s →
      s.containerName = LabManager._containerName labId userId ∧
      s.id = LabManager._containerName labId userId := by
    intro s hs
    obtain ⟨u, l, hcu, hkey, hn, hid⟩ := hinv _ (JsMap.mem_of_get _ _ _ hs)
    obtain ⟨hu2, hl2⟩ := key_parts userId labId u l hu hcu hkey
    rw [hu2, hl2]
    exact ⟨hn, hid⟩
  refine ⟨hstored, ?_⟩
  rw [LabManager.stopLabContainer_eq]
  cases hg : JsMap.get (LabManager.runCalls d calls (LabManager.fresh dockerCmd)).activeLabs
      (userId ++ ":" ++ labId) with
  | none => rfl
  | some s =>
    simp only
    rw [(hstored s hg).1]

/-- Witness of C28, amended: user `U1` started lab `R1`. -/
theorem stored_name_of_key_witness :
    (∀ c ∈ [LabCall.start (some labR1) "U1" 0 0], c.colonFree = true) ∧
    colonFree "U1" = true ∧
    (LabManager.stopLabContainer okDriver "R1" "U1"
        (LabManager.runCalls okDriver [LabCall.start (some labR1) "U1" 0 0]
          (LabManager.fresh "docker"))).2.issued =
      (LabManager.runCalls okDriver [LabCall.start (some labR1) "U1" 0 0]
        (LabManager.fresh "docker")).issued ++
        [(LabManager.runCalls okDriver [LabCall.start (some labR1) "U1" 0 0]
          (LabManager.fresh "docker")).dockerCmd ++ " rm -f " ++
          LabManager._containerName "R1" "U1"] :=
  ⟨by decide, by decide,
    (stored_name_of_key okDriver "docker" [LabCall.start (some labR1) "U1" 0 0] "R1" "U1"
      (by decide) (by decide)).2⟩

/-- A text of allowed characters is what `sanitize` returns for it. -/
theorem sanitize_of_nameChar (s : String) (h : ∀ c ∈ s.data, nameChar c = true) :
    sanitize s = s := by
  apply String.ext
  simp only [sanitize]
  have : ∀ l : List Char, (∀ c ∈ l, nameChar c = true) → l.flatMap sanitizeChar = l := by
    intro l
    induction l with
    | nil => intro _; rfl
    | cons c t ih =>
      intro hl
      rw [List.flatMap_cons, ih (fun x hx => hl x (List.mem_cons_of_mem _ hx))]
      simp [sanitizeChar, hl c (List.mem_cons_self _ _)]
  exact this s.data h

/-- C29 as stated fails: lab `a_b` with user `c` and lab `a` with user `b_c` are
different keys with the same container name. -/
theorem containerName_collision :
    ("c", "a_b") ≠ ("b_c", "a") ∧
    "c" ++ ":" ++ "a_b" ≠ "b_c" ++ ":" ++ "a" ∧
    LabManager._containerName "a_b" "c" = LabManager._containerName "a" "b_c" := by
  decide

/-- C29, amended: for ids that consist of letters and digits only, as the
hexadecimal ids of the catalog and of the users do, pairs that differ in a
component have different container names. -/
theorem containerName_injective (labId1 userId1 labId2 userId2 : String)
    (hl1 : ∀ c ∈ labId1.data, c.isAlphanum = true)
    (hu1 : ∀ c ∈ userId1.data, c.isAlphanum = true)
    (hl2 : ∀ c ∈ labId2.data, c.isAlphanum = true)
    (hu2 : ∀ c ∈ userId2.data, c.isAlphanum = true)
    (hne : (userId1, labId1) ≠ (userId2, labId2)) :
    LabManager._containerName labId1 userId1 ≠ LabManager._containerName labId2 userId2 := by
  have hname : ∀ (l u : String), (∀ c ∈ l.data, c.isAlphanum = true) →
      (∀ c ∈ u.data, c.isAlphanum = true) →
      LabManager._containerName l u = "edusec_lab_" ++ l ++ "_" ++ u := by
    intro l u hl hu
    unfold LabManager._containerName
    apply sanitize_of_nameChar
    intro c hc
    simp only [String.data_append, List.mem_append] at hc
    rcases hc with ((hc | hc) | hc) | hc
    · revert c
      decide
    · simp [nameChar, hl c hc]
    · revert c
      decide
    · simp [nameChar, hu c hc]
  intro h
  rw [hname labId1 userId1 hl1 hu1, hname labId2 userId2 hl2 hu2] at h
  have hd := congrArg String.data h
  simp only [String.data_append, List.append_assoc] at hd
  have hd2 := List.append_cancel_left hd
  have hsep : ∀ l : String, (∀ c ∈ l.data, c.isAlphanum = true) → '_' ∉ l.data := by
    intro l hl hm
    have := hl '_' hm
    revert this
    decide
  obtain ⟨ha, hb⟩ := split_at_sep '_' labId1.data labId2.data userId1.data userId2.data
    (hsep labId1 hl1) (hsep labId2 hl2) hd2
  exact hne (by rw [String.ext ha, String.ext hb])

/-- Witness of C29, amended: two users of one lab. -/
theorem containerName_injective_witness :
    (∀ c ∈ "64ab".data, c.isAlphanum = true) ∧ (∀ c ∈ "77f0".data, c.isAlphanum = true) ∧
    (∀ c ∈ "77f1".data, c.isAlphanum = true) ∧ ("77f0", "64ab") ≠ ("77f1", "64ab") ∧
    LabManager._containerName "64ab" "77f0" ≠ LabManager._containerName "64ab" "77f1" :=
  ⟨by decide, by decide, by decide, by decide,
    containerName_injective "64ab" "77f0" "64ab" "77f1" (by decide) (by decide) (by decide)
      (by decide) (by decide)⟩

/-! ## A crowd of lab sessions -/

/-- The loop of the port finder on a block of consecutive held ports ends right
behind the block. -/
theorem probe_block (start k : Nat) :
    probe ((List.range k).map (fun i => start + i)) start = start + k := by
  have hmem : ∀ q, q ∈ (List.range k).map (fun i => start + i) ↔ start ≤ q ∧ q < start + k := by
    intro q
    simp only [List.mem_map, List.mem_range]
    constructor
    · rintro ⟨i, hi, rfl⟩
      omega
    · rintro ⟨h1, h2⟩
      exact ⟨q - start, by omega, by omega⟩
  apply Nat.le_antisymm
  · apply probe_le _ _ _ (Nat.le_add_right _ _)
    rw [hmem]
    omega
  · have hge := probe_ge ((List.range k).map (fun i => start + i)) start
    have hnot := probe_not_mem ((List.range k).map (fun i => start + i)) start
    rw [hmem] at hnot
    omega

/-- Users of a crowd with different numbers have different keys. -/
theorem crowd_key_injective (i k : Nat)
    (h : crowdUser i ++ ":" ++ "R1" = crowdUser k ++ ":" ++ "R1") : i = k := by
  have hd := congrArg String.data h
  simp only [String.data_append, crowdUser, List.append_assoc] at hd
  have hl := congrArg List.length hd
  simp only [List.length_append, List.length_replicate] at hl
  omega

namespace JsMap
variable {β : Type}

/-- A key that no entry has is not found. -/
theorem get_none_of_not_mem (m : JsMap β) (k : String) (h : k ∉ m.map Prod.fst) :
    get m k = none := by
  induction m with
  | nil => rfl
  | cons a t ih =>
    obtain ⟨k1, v1⟩ := a
    rw [List.map_cons, List.mem_cons, not_or] at h
    have h1 : ¬ k1 = k := fun hk => h.1 hk.symm
    simp only [get, h1, if_false]
    exact ih h.2

end JsMap

/-- After a crowd of `k` users the registry holds their keys with the ports
9081, 9082 and so on, one each. -/
theorem crowd_registry (k : Nat) :
    (LabManager.runCalls okDriver (crowd k) (LabManager.fresh "docker")).activeLabs.map
        (fun e => (e.1, e.2.hostPort)) =
      (List.range k).map (fun i => (crowdUser i ++ ":" ++ "R1", 9081 + i)) := by
  induction k with
  | zero => rfl
  | succ k ih =>
    have hcrowd : crowd (k + 1) =
        crowd k ++ [LabCall.start (some labR1) (crowdUser k) 999 0] := by
      simp [crowd, List.range_succ]
    rw [hcrowd, LabManager.runCalls, List.foldl_append]
    simp only [List.foldl_cons, List.foldl_nil, LabManager.perform]
    change (LabManager.startLabContainer okDriver (some labR1) (crowdUser k) 999 0
      (LabManager.runCalls okDriver (crowd k) (LabManager.fresh "docker"))).2.activeLabs.map
        (fun e => (e.1, e.2.hostPort)) = _
    generalize LabManager.runCalls okDriver (crowd k) (LabManager.fresh "docker") = m at ih ⊢
    have hkeys : m.activeLabs.map Prod.fst =
        (List.range k).map (fun i => crowdUser i ++ ":" ++ "R1") := by
      have := congrArg (List.map Prod.fst) ih
      simpa [List.map_map, Function.comp_def] using this
    have hports : (JsMap.values m.activeLabs).map LabDetails.hostPort =
        (List.range k).map (fun i => 9081 + i) := by
      have := congrArg (List.map Prod.snd) ih
      simpa [JsMap.values, List.map_map, Function.comp_def] using this
    have hget : JsMap.get m.activeLabs (crowdUser k ++ ":" ++ labR1._id) = none := by
      apply JsMap.get_none_of_not_mem
      rw [hkeys]
      intro hm
      obtain ⟨i, hi, hik⟩ := List.mem_map.mp hm
      have := crowd_key_injective i k hik
      rw [List.mem_range] at hi
      omega
    have hrun := LabManager.startLabContainer_run okDriver labR1 "img:tag" (crowdUser k) 999 0 m
      rfl (by decide) hget (Or.inl rfl)
    simp only at hrun
    rw [hrun]
    simp only [okDriver]
    rw [JsMap.set_of_get_none _ _ _ hget, List.map_append, ih, hports, List.range_succ,
      List.map_append]
    have hp : (8082 + (999 : Fin 1000).val) = 9081 := rfl
    rw [hp, probe_block 9081 k]
    rfl

/-- C25 as stated fails: after a crowd of 13139 users, each of whom started a lab
with jitter 999, the ports 9081 to 22219 are held and `_findFreeHttpPort` with
jitter 999 returns 22220, the port `_findFreePort` returns with jitter 0 on an
empty workstation registry. -/
theorem lab_port_reaches_workstation_range :
    (LabManager._findFreeHttpPort 999
      (LabManager.runCalls okDriver (crowd 13139) (LabManager.fresh "docker"))).1 =
      Except.ok 22220 ∧
    (VMManager._findFreePort 0 (VMManager.fresh "docker")).1 = Except.ok 22220 := by
  constructor
  · have hports : (JsMap.values (LabManager.runCalls okDriver (crowd 13139)
        (LabManager.fresh "docker")).activeLabs).map LabDetails.hostPort =
        (List.range 13139).map (fun i => 9081 + i) := by
      have := congrArg (List.map Prod.snd) (crowd_registry 13139)
      simpa [JsMap.values, List.map_map, Function.comp_def] using this
    have hp : (LabManager.baseHttpPort + (999 : Fin 1000).val) = 9081 := rfl
    simp only [LabManager._findFreeHttpPort, Eff.bind_apply, Eff.andThen_get, Eff.pure_apply,
      hports, hp, probe_block 9081 13139]
  · decide

/-- C25, amended: the candidates `base + jitter` of the two allocators never
collide, and a port that `_findFreeHttpPort` allocates while fewer than 13139
lab sessions are tracked is below 22220, so it differs from every port that
`_findFreePort` allocates, which is 22220 or more. -/
theorem lab_port_below_workstation (lm : LabManager) (vm : VMManager) (j1 j2 : Fin 1000)
    (hsmall : (JsMap.values lm.activeLabs).length < 13139) :
    8082 + j1.val < 22220 + j2.val ∧
    ∃ p q, LabManager._findFreeHttpPort j1 lm = (Except.ok p, lm) ∧
      VMManager._findFreePort j2 vm = (Except.ok q, vm) ∧
      p < 22220 ∧ 22220 ≤ q ∧ p ≠ q := by
  have hj := j1.isLt
  have hlen := probe_le_add_length ((JsMap.values lm.activeLabs).map LabDetails.hostPort)
    (8082 + j1.val)
  rw [List.length_map] at hlen
  have hge := probe_ge (VMManager.heldSshPorts (JsMap.values vm.activeVMs)) (22220 + j2.val)
  refine ⟨by omega,
    probe ((JsMap.values lm.activeLabs).map LabDetails.hostPort) (8082 + j1.val),
    probe (VMManager.heldSshPorts (JsMap.values vm.activeVMs)) (22220 + j2.val),
    ?_, ?_, by omega, by omega, by omega⟩
  · simp [LabManager._findFreeHttpPort, LabManager.baseHttpPort]
  · simp [VMManager._findFreePort, VMManager.baseSshPort]

/-- Witness of C25, amended: one tracked lab session. -/
theorem lab_port_below_workstation_witness :
    (JsMap.values trackingR1.activeLabs).length < 13139 ∧
    (8082 + (0 : Fin 1000).val < 22220 + (0 : Fin 1000).val ∧
    ∃ p q, LabManager._findFreeHttpPort 0 trackingR1 = (Except.ok p, trackingR1) ∧
      VMManager._findFreePort 0 VMManager.trackingU1 = (Except.ok q, VMManager.trackingU1) ∧
      p < 22220 ∧ 22220 ≤ q ∧ p ≠ q) :=
  ⟨by decide, lab_port_below_workstation trackingR1 VMManager.trackingU1 0 0 (by decide)⟩


/-! ## Claims on the knowledge catalog -/

/-- A counting fold is the length of a filter. -/
theorem foldl_count (p : String → Bool) (l : List String) (acc : Nat) :
    l.foldl (fun acc k => if p k then acc + 1 else acc) acc = acc + (l.filter p).length := by
  induction l generalizing acc with
  | nil => simp
  | cons k ks ih =>
    rw [List.foldl_cons, ih]
    by_cases hk : p k = true
    · simp [List.filter_cons, hk]; omega
    · simp [List.filter_cons, hk]

/-- The score that `retrieveRelevant` computes is the count of matching keywords. -/
theorem scoreOf_eq (message : Option String) (t : Topic) :
    scoreOf (toLowerCase (orEmpty message)) t = matchCount message t := by
  unfold scoreOf matchCount
  rw [foldl_count (fun k => includes (toLowerCase (orEmpty message)) (toLowerCase k))]
  simp [occursIn]
  rfl

/-- Inserting into a list by non-increasing value keeps the order of the elements
of each value. -/
theorem filter_orderedInsert {α : Type} (f : α → Nat) (s : Nat) (b : α) (l : List α) :
    (List.orderedInsert (fun x y => f y ≤ f x) b l).filter (fun x => decide (f x = s)) =
      (b :: l).filter (fun x => decide (f x = s)) := by
  induction l with
  | nil => simp
  | cons x xs ih =>
    rw [List.orderedInsert]
    split_ifs with h
    · rfl
    · rw [List.filter_cons, ih]
      by_cases hb : f b = s
      · have hx : ¬ f x = s := by omega
        simp [List.filter_cons, hb, hx]
      · simp [List.filter_cons, hb]

/-- The insertion sort by non-increasing value is stable. -/
theorem filter_insertionSort {α : Type} (f : α → Nat) (s : Nat) (l : List α) :
    (l.insertionSort (fun x y => f y ≤ f x)).filter (fun x => decide (f x = s)) =
      l.filter (fun x => decide (f x = s)) := by
  induction l with
  | nil => rfl
  | cons a l ih =>
    rw [List.insertionSort, filter_orderedInsert, List.filter_cons, ih, List.filter_cons]

/-- The insertion sort by non-increasing value gives a list of non-increasing
values. -/
theorem pairwise_insertionSort {α : Type} (f : α → Nat) (l : List α) :
    (l.insertionSort (fun x y => f y ≤ f x)).Pairwise (fun x y => f y ≤ f x) := by
  haveI : IsTotal α (fun x y => f y ≤ f x) := ⟨fun a b => Nat.le_total (f b) (f a)⟩
  haveI : IsTrans α (fun x y => f y ≤ f x) := ⟨fun a b c hab hbc => Nat.le_trans hbc hab⟩
  exact List.sorted_insertionSort (fun x y => f y ≤ f x) l

/-- The body of `retrieveRelevant` without the intermediate array `scored`. -/
theorem retrieveFrom_eq (catalog : List Topic) (message : Option String) (max : Nat) :
    retrieveFrom catalog message max =
      ((catalog.filter (fun t => decide (0 < matchCount message t))).insertionSort
        (fun a b => matchCount message b ≤ matchCount message a)).take max := by
  unfold retrieveFrom
  simp only
  have hmap := List.map_insertionSort (fun a b : Topic => matchCount message b ≤ matchCount message a)
    (fun a b : Scored => b.score ≤ a.score)
    (fun t => ({ topic := t, score := scoreOf (toLowerCase (orEmpty message)) t } : Scored))
    (catalog.filter (fun t => decide (0 < matchCount message t)))
    (by intro a _ b _; simp only [scoreOf_eq])
  have hfil : (catalog.map (fun t =>
      ({ topic := t, score := scoreOf (toLowerCase (orEmpty message)) t } : Scored))).filter
        (fun s => decide (s.score > 0)) =
      (catalog.filter (fun t => decide (0 < matchCount message t))).map (fun t =>
        ({ topic := t, score := scoreOf (toLowerCase (orEmpty message)) t } : Scored)) := by
    rw [List.filter_map]
    congr 1
    apply List.filter_congr
    intro t _
    simp [scoreOf_eq]
  rw [hfil, ← hmap, ← List.map_take, List.map_map]
  have hid : ((fun s : Scored => s.topic) ∘ fun t =>
      ({ topic := t, score := scoreOf (toLowerCase (orEmpty message)) t } : Scored)) = id := rfl
  rw [hid, List.map_id]

/-- C30: for every message and every `max`, `retrieveRelevant(message, max)`
is the first `max` elements of a list `ranked` that holds exactly the topics of
the catalog with at least one keyword occurring in the message, in an order of
non-increasing count of matching keywords in which the topics of one count stand
as in the catalog. Hence it returns at most `max` topics, only topics with a
matching keyword, and no topic twice. -/
theorem retrieveRelevant_spec (message : Option String) (max : Nat) :
    (∃ ranked : List Topic,
      retrieveRelevant message max = ranked.take max ∧
      (∀ t, t ∈ ranked ↔ t ∈ topics ∧ 0 < matchCount message t) ∧
      ranked.Perm (topics.filter (fun t => decide (0 < matchCount message t))) ∧
      ranked.Pairwise (fun a b => matchCount message b ≤ matchCount message a) ∧
      ∀ s, ranked.filter (fun t => decide (matchCount message t = s)) =
        (topics.filter (fun t => decide (0 < matchCount message t))).filter
          (fun t => decide (matchCount message t = s))) ∧
    (retrieveRelevant message max).length ≤ max ∧
    (∀ t ∈ retrieveRelevant message max, t ∈ topics ∧ 0 < matchCount message t) ∧
    (retrieveRelevant message max).Nodup := by
  have heq := retrieveFrom_eq topics message max
  have hperm := List.perm_insertionSort
    (fun a b : Topic => matchCount message b ≤ matchCount message a)
    (topics.filter (fun t => decide (0 < matchCount message t)))
  have hmem : ∀ t, t ∈ (topics.filter (fun t => decide (0 < matchCount message t))).insertionSort
      (fun a b => matchCount message b ≤ matchCount message a) ↔
      t ∈ topics ∧ 0 < matchCount message t := by
    intro t
    rw [hperm.mem_iff, List.mem_filter]
    simp
  have hnd : ((topics.filter (fun t => decide (0 < matchCount message t))).insertionSort
      (fun a b => matchCount message b ≤ matchCount message a)).Nodup :=
    hperm.nodup_iff.mpr (List.Nodup.filter _ (by decide))
  refine ⟨⟨_, heq, hmem, hperm, pairwise_insertionSort (matchCount message) _,
    fun s => filter_insertionSort (matchCount message) s _⟩, ?_, ?_, ?_⟩
  · unfold retrieveRelevant
    rw [heq]
    exact List.length_take_le _ _
  · intro t ht
    unfold retrieveRelevant at ht
    rw [heq] at ht
    exact (hmem t).mp (List.mem_of_mem_take ht)
  · unfold retrieveRelevant
    rw [heq]
    exact (List.take_sublist _ _).nodup hnd

end EdusecLab
